import Mathlib

/-!
The scanner, the record reader and the columnar builder of
`src/2023-08-nanoarrow-adbc/simple_csv_reader.cc`, and the release, option and
statement functions of `src/2023-08-nanoarrow-adbc/driver.cc`, as a shallow
embedding.

* The file behind `std::ifstream input_` is the list of bytes that have not
  been read yet; a byte is written as a `Char` (`','` is 44, `'\n'` is 10,
  NUL is `Char.ofNat 0`).  `input_.get()` pops the head, and yields `EOF` on
  the empty list (and keeps doing so).
* Loops without a syntactic bound (`do ... while` in the scanner's `ReadLine`,
  `while` in `GetArray`) take a fuel argument and answer `none` when it runs
  out; the public operations supply `remaining bytes + 1`, which is proved to
  be enough.
* nanoarrow calls are modelled by their effect on the schema and on the
  array under construction.  Memory allocation is taken to succeed, and the
  32-bit offset limit of a string column is outside the model.
-/

namespace SimpleCsv

/-- The `enum class ScanResult`. -/
inductive ScanResult where
  | UNINITIALIZED
  | FIELD_SEP
  | LINE_SEP
  | DONE
  deriving DecidableEq, Repr

/-- The scanner owns the input stream: the bytes still to be read. -/
structure SimpleCsvScanner where
  input_ : List Char
  deriving DecidableEq, Repr

/-- The `while (true)` loop of `ReadField`: `stream` is the `std::stringstream`
accumulator, the second argument the unread input.  Returns the pair the C++
returns together with the input left unread. -/
def SimpleCsvScanner.ReadField.loop (stream : List Char) :
    List Char → (ScanResult × List Char) × List Char
  | [] => ((ScanResult.DONE, stream), [])
  | item :: rest =>
    if item = ',' then ((ScanResult.FIELD_SEP, stream), rest)
    else if item = '\n' then ((ScanResult.LINE_SEP, stream), rest)
    else SimpleCsvScanner.ReadField.loop (stream ++ [item]) rest

/-- The method `SimpleCsvScanner::ReadField`. -/
def SimpleCsvScanner.ReadField (s : SimpleCsvScanner) :
    (ScanResult × List Char) × SimpleCsvScanner :=
  let r := SimpleCsvScanner.ReadField.loop [] s.input_
  (r.1, { input_ := r.2 })

/-- The `do ... while (result.first == FIELD_SEP)` loop of
`SimpleCsvScanner::ReadLine`, with fuel. -/
def SimpleCsvScanner.ReadLine.loop :
    Nat → List (List Char) → SimpleCsvScanner →
      Option (ScanResult × List (List Char) × SimpleCsvScanner)
  | 0, _, _ => none
  | fuel + 1, values, s =>
    let r := s.ReadField
    let values1 := values ++ [r.1.2]
    if r.1.1 = ScanResult.FIELD_SEP then
      SimpleCsvScanner.ReadLine.loop fuel values1 r.2
    else some (r.1.1, values1, r.2)

/-- The method `SimpleCsvScanner::ReadLine(values)`: the result, the vector
after the call and the scanner after the call. -/
def SimpleCsvScanner.ReadLine (values : List (List Char)) (s : SimpleCsvScanner) :
    Option (ScanResult × List (List Char) × SimpleCsvScanner) :=
  SimpleCsvScanner.ReadLine.loop (s.input_.length + 1) values s

/-! ## nanoarrow data -/

/-- The nanoarrow type tags that occur in this program. -/
inductive ArrowType where
  | NANOARROW_TYPE_UNINITIALIZED
  | NANOARROW_TYPE_STRING
  | NANOARROW_TYPE_STRUCT
  deriving DecidableEq, Repr

/-- A child of the struct schema: its type and its `name`, a C string (`none`
is the null pointer left by `ArrowSchemaInit`). -/
structure ArrowSchemaChild where
  type : ArrowType
  name : Option (List Char)
  deriving DecidableEq, Repr

/-- A (non-released) `ArrowSchema` of the shape built here: a type and its
children. -/
structure ArrowSchema where
  type : ArrowType
  children : List ArrowSchemaChild
  deriving DecidableEq, Repr

/-- A (non-released) struct `ArrowArray` with string children: its `length`
and, per child, the values appended so far (a child's own length is the length
of its list). -/
structure ArrowArray where
  length : Nat
  children : List (List (List Char))
  deriving DecidableEq, Repr

/-- The value `NANOARROW_OK`. -/
def NANOARROW_OK : Int := 0

/-- The errno value `EINVAL`. -/
def EINVAL : Int := 22

/-- What a callee sees of `std::string::c_str()`: the bytes before the first
NUL. -/
def c_str (s : List Char) : List Char :=
  s.takeWhile (fun c => c ≠ Char.ofNat 0)

/-- `ArrowSchemaInit`: a schema with no type and no children. -/
def ArrowSchemaInit : ArrowSchema :=
  { type := ArrowType.NANOARROW_TYPE_UNINITIALIZED, children := [] }

/-- `ArrowSchemaSetTypeStruct(schema, n)`: type struct, `n` freshly initialised
children. -/
def ArrowSchemaSetTypeStruct (_schema : ArrowSchema) (n : Nat) : ArrowSchema :=
  { type := ArrowType.NANOARROW_TYPE_STRUCT,
    children := List.replicate n
      { type := ArrowType.NANOARROW_TYPE_UNINITIALIZED, name := none } }

/-- Apply `f` to element `i` of a list (`xs[i] = f(xs[i])`), nothing when `i`
is out of range. -/
def updateAt {α : Type} (f : α → α) : Nat → List α → List α
  | _, [] => []
  | 0, x :: xs => f x :: xs
  | i + 1, x :: xs => x :: updateAt f i xs

/-- One round of the `for` loop of `ReadSchemaIfNeeded`:
`ArrowSchemaSetType(children[i], STRING)` and
`ArrowSchemaSetName(children[i], fields_[i].c_str())`. -/
def setChildTypeAndName (fields : List (List Char)) (schema : ArrowSchema) (i : Nat) :
    ArrowSchema :=
  { schema with
    children := updateAt
      (fun _ => { type := ArrowType.NANOARROW_TYPE_STRING,
                  name := some (c_str (fields.getD i [])) })
      i schema.children }

/-- `ArrowArrayInitFromSchema` followed by `ArrowArrayStartAppending`: an empty
struct array with one empty child per schema child. -/
def ArrowArrayInitFromSchema (schema : ArrowSchema) : ArrowArray :=
  { length := 0, children := schema.children.map (fun _ => []) }

/-- `ArrowArrayAppendString(array->children[i], view)`. -/
def ArrowArrayAppendString (array : ArrowArray) (i : Nat) (view : List Char) : ArrowArray :=
  { array with children := updateAt (fun col => col ++ [view]) i array.children }

/-- `ArrowArrayFinishElement` on a struct array: `EINVAL` unless every child has
exactly one element more than the struct, else the struct's length grows by
one. -/
def ArrowArrayFinishElement (array : ArrowArray) : Int × ArrowArray :=
  if array.children.all (fun col => col.length = array.length + 1) then
    (NANOARROW_OK, { array with length := array.length + 1 })
  else (EINVAL, array)

/-- The `%ld` part of `ArrowErrorSet`: copy the format, replacing each `%ld` by
the next argument in decimal. -/
def formatLd : List Char → List Int → List Char
  | [], _ => []
  | '%' :: 'l' :: 'd' :: rest, a :: args => (toString a).toList ++ formatLd rest args
  | c :: rest, args => c :: formatLd rest args

/-- `ArrowErrorSet(&error, fmt, ...)`: the message stored in the error. -/
def ArrowErrorSet (fmt : String) (args : List Int) : String :=
  String.mk (formatLd fmt.toList args)

/-! ## SimpleCsvArrayBuilder -/

/-- The data members of `SimpleCsvArrayBuilder`.  `schema_` and `array_` are
`none` while their `release` callback is null. -/
structure SimpleCsvArrayBuilder where
  status_ : ScanResult
  scanner_ : SimpleCsvScanner
  fields_ : List (List Char)
  last_error_ : String
  schema_ : Option ArrowSchema
  array_ : Option ArrowArray
  deriving DecidableEq, Repr

/-- The constructor.  `file` is the content of the file named `filename` (empty
when it cannot be opened).  The constructor does not initialise `status_`, so the
value it starts with is a parameter. -/
def SimpleCsvArrayBuilder.new (file : List Char) (status0 : ScanResult) :
    SimpleCsvArrayBuilder :=
  { status_ := status0,
    scanner_ := { input_ := file },
    fields_ := [],
    last_error_ := ArrowErrorSet "Internal error" [],
    schema_ := none,
    array_ := none }

/-- The value `schema_->n_children` (0 for a released schema; the private methods
that read it run only after `ReadSchemaIfNeeded`). -/
def SimpleCsvArrayBuilder.n_children (b : SimpleCsvArrayBuilder) : Nat :=
  match b.schema_ with
  | some schema => schema.children.length
  | none => 0

/-- The private method `ReadSchemaIfNeeded`. -/
def SimpleCsvArrayBuilder.ReadSchemaIfNeeded (b : SimpleCsvArrayBuilder) :
    Option (Int × SimpleCsvArrayBuilder) :=
  match b.schema_ with
  | some _ => some (NANOARROW_OK, b)
  | none =>
    match b.scanner_.ReadLine [] with
    | none => none
    | some (status, fields, scanner) =>
      let schema0 := ArrowSchemaSetTypeStruct ArrowSchemaInit fields.length
      let schema1 :=
        (List.range schema0.children.length).foldl (setChildTypeAndName fields) schema0
      some (NANOARROW_OK,
        { b with fields_ := fields, status_ := status, scanner_ := scanner,
                 schema_ := some schema1 })

/-- The private method `InitArrayIfNeeded`. -/
def SimpleCsvArrayBuilder.InitArrayIfNeeded (b : SimpleCsvArrayBuilder) :
    Int × SimpleCsvArrayBuilder :=
  match b.array_ with
  | some _ => (NANOARROW_OK, b)
  | none =>
    match b.schema_ with
    | none => (EINVAL, b)
    | some schema => (NANOARROW_OK, { b with array_ := some (ArrowArrayInitFromSchema schema) })

/-- The private method `SimpleCsvArrayBuilder::ReadLine`. -/
def SimpleCsvArrayBuilder.ReadLine (b : SimpleCsvArrayBuilder) :
    Option (Int × SimpleCsvArrayBuilder) :=
  match b.scanner_.ReadLine [] with
  | none => none
  | some (status, fields, scanner) =>
    let b1 := { b with fields_ := fields, status_ := status, scanner_ := scanner }
    -- Skip blank line
    if fields.length = 1 ∧ fields.getD 0 [] = [] then some (NANOARROW_OK, b1)
    else if b1.n_children ≠ fields.length then
      some (EINVAL,
        { b1 with last_error_ :=
            (ArrowErrorSet "Expected %ld fields but found %ld fields"
              [Int.ofNat b1.n_children, Int.ofNat fields.length]) })
    else
      match b1.array_ with
      | none => some (EINVAL, b1)
      | some array =>
        let array1 := (List.range b1.n_children).foldl
          (fun a i => ArrowArrayAppendString a i (fields.getD i [])) array
        let r := ArrowArrayFinishElement array1
        some (r.1, { b1 with array_ := some r.2 })

/-- The loop `while (status_ != DONE) ReadLine()` of `GetArray`, with fuel: one
unit per record read. -/
def SimpleCsvArrayBuilder.GetArray.loop :
    Nat → SimpleCsvArrayBuilder → Option (Int × SimpleCsvArrayBuilder)
  | fuel, b =>
    if b.status_ = ScanResult.DONE then some (NANOARROW_OK, b)
    else
      match fuel with
      | 0 => none
      | fuel1 + 1 =>
        match b.ReadLine with
        | none => none
        | some (rc, b1) =>
          if rc ≠ NANOARROW_OK then some (rc, b1)
          else SimpleCsvArrayBuilder.GetArray.loop fuel1 b1

/-- The method `GetSchema(out)`: return code, `*out` after the call, builder
after the call. -/
def SimpleCsvArrayBuilder.GetSchema (b : SimpleCsvArrayBuilder) (out : Option ArrowSchema) :
    Option (Int × Option ArrowSchema × SimpleCsvArrayBuilder) :=
  match b.ReadSchemaIfNeeded with
  | none => none
  | some (rc, b1) =>
    if rc ≠ NANOARROW_OK then some (rc, out, b1)
    else some (NANOARROW_OK, b1.schema_, b1)

/-- The method `GetArray(out)`: return code, `*out` after the call (`none` is
`release == nullptr`), builder after the call.  `ArrowArrayFinishBuildingDefault`
leaves the content of the array as it is; `ArrowArrayMove` hands it to `out` and
leaves `array_` released. -/
def SimpleCsvArrayBuilder.GetArray (b : SimpleCsvArrayBuilder) (out : Option ArrowArray) :
    Option (Int × Option ArrowArray × SimpleCsvArrayBuilder) :=
  if b.status_ = ScanResult.DONE then some (NANOARROW_OK, none, b)
  else
    match b.ReadSchemaIfNeeded with
    | none => none
    | some (rc1, b1) =>
      if rc1 ≠ NANOARROW_OK then some (rc1, out, b1)
      else
        let r2 := b1.InitArrayIfNeeded
        if r2.1 ≠ NANOARROW_OK then some (r2.1, out, r2.2)
        else
          match SimpleCsvArrayBuilder.GetArray.loop (r2.2.scanner_.input_.length + 1) r2.2 with
          | none => none
          | some (rc3, b3) =>
            if rc3 ≠ NANOARROW_OK then some (rc3, out, b3)
            else some (NANOARROW_OK, b3.array_, { b3 with array_ := none })

/-- The method `GetLastError`. -/
def SimpleCsvArrayBuilder.GetLastError (b : SimpleCsvArrayBuilder) : String :=
  b.last_error_

/-! ## The array stream -/

/-- The four functions that `InitSimpleCsvArrayStream` installs in a stream. -/
inductive StreamFunction where
  | SimpleCsvArrayStreamGetSchema
  | SimpleCsvArrayStreamGetNext
  | SimpleCsvArrayStreamGetLastError
  | SimpleCsvArrayStreamRelease
  deriving DecidableEq, Repr

/-- The `struct ArrowArrayStream`: four function pointers (`none` is null) and
the private data, which here is a `SimpleCsvArrayBuilder`. -/
structure ArrowArrayStream where
  get_schema : Option StreamFunction
  get_next : Option StreamFunction
  get_last_error : Option StreamFunction
  release : Option StreamFunction
  private_data : Option SimpleCsvArrayBuilder
  deriving DecidableEq, Repr

/-- The function `InitSimpleCsvArrayStream(filename, out)`: every member of
`*out` is assigned.  `files` gives the content of the file with a given name
(empty when it cannot be opened) and `status0` is the value the new builder's
`status_` starts with.  The `std::string` built from `const char* filename`
holds the bytes before the first NUL. -/
def InitSimpleCsvArrayStream (files : List Char → List Char) (status0 : ScanResult)
    (filename : List Char) (_out : ArrowArrayStream) : ArrowArrayStream :=
  { get_schema := some StreamFunction.SimpleCsvArrayStreamGetSchema,
    get_next := some StreamFunction.SimpleCsvArrayStreamGetNext,
    get_last_error := some StreamFunction.SimpleCsvArrayStreamGetLastError,
    release := some StreamFunction.SimpleCsvArrayStreamRelease,
    private_data := some (SimpleCsvArrayBuilder.new (files (c_str filename)) status0) }

/-! ## driver.cc -/

/-- The values of `AdbcStatusCode` that `driver.cc` returns. -/
inductive AdbcStatusCode where
  | ADBC_STATUS_OK
  | ADBC_STATUS_NOT_IMPLEMENTED
  | ADBC_STATUS_INVALID_ARGUMENT
  deriving DecidableEq, Repr

/-- The `struct SimpleCsvDriverPrivate`. -/
structure SimpleCsvDriverPrivate where
  not_empty : Int
  deriving DecidableEq, Repr

/-- The `struct SimpleCsvDatabasePrivate`. -/
structure SimpleCsvDatabasePrivate where
  not_empty : Int
  deriving DecidableEq, Repr

/-- The `struct SimpleCsvConnectionPrivate`. -/
structure SimpleCsvConnectionPrivate where
  not_empty : Int
  deriving DecidableEq, Repr

/-- The `struct SimpleCsvStatementPrivate`. -/
structure SimpleCsvStatementPrivate where
  filename : List Char
  deriving DecidableEq, Repr

/-- What the functions below use of a `struct AdbcDriver`: its `private_data`
(`none` is the null pointer). -/
structure AdbcDriver where
  private_data : Option SimpleCsvDriverPrivate
  deriving DecidableEq, Repr

/-- What the functions below use of a `struct AdbcDatabase`. -/
structure AdbcDatabase where
  private_data : Option SimpleCsvDatabasePrivate
  deriving DecidableEq, Repr

/-- What the functions below use of a `struct AdbcConnection`. -/
structure AdbcConnection where
  private_data : Option SimpleCsvConnectionPrivate
  deriving DecidableEq, Repr

/-- What the functions below use of a `struct AdbcStatement`. -/
structure AdbcStatement where
  private_data : Option SimpleCsvStatementPrivate
  deriving DecidableEq, Repr

/-- The function `SimpleCsvDriverRelease`: the status and the driver after the call
(the `error` argument is not used). -/
def SimpleCsvDriverRelease (driver : AdbcDriver) : AdbcStatusCode × AdbcDriver :=
  match driver.private_data with
  | none => (AdbcStatusCode.ADBC_STATUS_OK, driver)
  | some _ => (AdbcStatusCode.ADBC_STATUS_OK, { driver with private_data := none })

/-- The function `SimpleCsvDatabaseSetOption`: no argument is read or written. -/
def SimpleCsvDatabaseSetOption (database : AdbcDatabase) (_key _value : List Char) :
    AdbcStatusCode × AdbcDatabase :=
  (AdbcStatusCode.ADBC_STATUS_INVALID_ARGUMENT, database)

/-- The function `SimpleCsvDatabaseRelease`. -/
def SimpleCsvDatabaseRelease (database : AdbcDatabase) : AdbcStatusCode × AdbcDatabase :=
  match database.private_data with
  | none => (AdbcStatusCode.ADBC_STATUS_OK, database)
  | some _ => (AdbcStatusCode.ADBC_STATUS_OK, { database with private_data := none })

/-- The function `SimpleCsvConnectionRelease`. -/
def SimpleCsvConnectionRelease (connection : AdbcConnection) :
    AdbcStatusCode × AdbcConnection :=
  match connection.private_data with
  | none => (AdbcStatusCode.ADBC_STATUS_OK, connection)
  | some _ => (AdbcStatusCode.ADBC_STATUS_OK, { connection with private_data := none })

/-- The function `SimpleCsvStatementRelease`. -/
def SimpleCsvStatementRelease (statement : AdbcStatement) :
    AdbcStatusCode × AdbcStatement :=
  match statement.private_data with
  | none => (AdbcStatusCode.ADBC_STATUS_OK, statement)
  | some _ => (AdbcStatusCode.ADBC_STATUS_OK, { statement with private_data := none })

/-- The function `SimpleCsvStatementSetSqlQuery`.  `query` stands for the bytes at
the `const char*`; the assignment to the `std::string` copies those before the
first NUL.  The private data is dereferenced without a check, so there is no
result (`none`) for a statement whose private data is null. -/
def SimpleCsvStatementSetSqlQuery (statement : AdbcStatement) (query : List Char) :
    Option (AdbcStatusCode × AdbcStatement) :=
  match statement.private_data with
  | none => none
  | some _ =>
    some (AdbcStatusCode.ADBC_STATUS_OK,
      { statement with private_data := some { filename := c_str query } })

/-- The function `SimpleCsvStatementExecuteQuery`: the status, `*out`,
`*rows_affected` and the statement after the call; no result (`none`) for a
statement whose private data is null. -/
def SimpleCsvStatementExecuteQuery (files : List Char → List Char) (status0 : ScanResult)
    (statement : AdbcStatement) (out : ArrowArrayStream) :
    Option (AdbcStatusCode × ArrowArrayStream × Int × AdbcStatement) :=
  match statement.private_data with
  | none => none
  | some statement_private =>
    some (AdbcStatusCode.ADBC_STATUS_OK,
      InitSimpleCsvArrayStream files status0 statement_private.filename out,
      -1, statement)

/-- The handle after `n` calls of a release function `f`. -/
def releaseTimes {α : Type} (f : α → AdbcStatusCode × α) : Nat → α → α
  | 0, handle => handle
  | n + 1, handle => releaseTimes f n (f handle).2

/-! ## Auxiliary functions used to state and prove the properties -/

/-- The fields of a line that holds no newline, with `stream` the bytes of the
field under way: the line cut at every comma. -/
def splitCommaAcc (stream : List Char) : List Char → List (List Char)
  | [] => [stream]
  | c :: rest =>
    if c = ',' then stream :: splitCommaAcc [] rest
    else splitCommaAcc (stream ++ [c]) rest

/-- The fields of a line. -/
def fieldsOfLine (line : List Char) : List (List Char) :=
  splitCommaAcc [] line

/-- The bytes before the first newline. -/
def firstLine (input : List Char) : List Char :=
  input.takeWhile (fun c => c != '\n')

/-- The bytes after the first newline (nothing when there is none). -/
def afterFirstLine (input : List Char) : List Char :=
  (input.dropWhile (fun c => c != '\n')).tail

/-- The scan result that ends a record: `LINE_SEP` when a newline is there. -/
def lineEnd (input : List Char) : ScanResult :=
  if '\n' ∈ input then ScanResult.LINE_SEP else ScanResult.DONE

/-- What `SimpleCsvScanner::ReadLine` does once a `ReadField` has returned `r`. -/
def afterField (fuel : Nat) (values : List (List Char))
    (r : (ScanResult × List Char) × List Char) :
    Option (ScanResult × List (List Char) × SimpleCsvScanner) :=
  if r.1.1 = ScanResult.FIELD_SEP then
    SimpleCsvScanner.ReadLine.loop fuel (values ++ [r.1.2]) { input_ := r.2 }
  else some (r.1.1, values ++ [r.1.2], { input_ := r.2 })

/-- The columns that hold `rows`, one list per column index below `n`. -/
def columnsOf (n : Nat) (rows : List (List (List Char))) : List (List (List Char)) :=
  (List.range n).map (fun i => rows.map (fun r => r.getD i []))

/-- The part of the builder's `ReadLine` that follows the scanner's `ReadLine`. -/
def storeRecord (b : SimpleCsvArrayBuilder) (status : ScanResult)
    (fields : List (List Char)) (scanner : SimpleCsvScanner) : Int × SimpleCsvArrayBuilder :=
  let b1 := { b with fields_ := fields, status_ := status, scanner_ := scanner }
  if fields.length = 1 ∧ fields.getD 0 [] = [] then (NANOARROW_OK, b1)
  else if b1.n_children ≠ fields.length then
    (EINVAL,
      { b1 with last_error_ :=
          (ArrowErrorSet "Expected %ld fields but found %ld fields"
            [Int.ofNat b1.n_children, Int.ofNat fields.length]) })
  else
    match b1.array_ with
    | none => (EINVAL, b1)
    | some array =>
      let array1 := (List.range b1.n_children).foldl
        (fun a i => ArrowArrayAppendString a i (fields.getD i [])) array
      let r := ArrowArrayFinishElement array1
      (r.1, { b1 with array_ := some r.2 })

/-- The schema inferred from the fields of the header record. -/
def schemaOfHeader (header : List (List Char)) : ArrowSchema :=
  { type := ArrowType.NANOARROW_TYPE_STRUCT,
    children := header.map (fun f =>
      { type := ArrowType.NANOARROW_TYPE_STRING, name := some (c_str f) }) }

/-- The drain loop with the fuel `GetArray` gives it. -/
def drain (b : SimpleCsvArrayBuilder) : Option (Int × SimpleCsvArrayBuilder) :=
  SimpleCsvArrayBuilder.GetArray.loop (b.scanner_.input_.length + 1) b

/-- The builder after `ReadSchemaIfNeeded`. -/
def withSchema (b : SimpleCsvArrayBuilder) : SimpleCsvArrayBuilder :=
  match b.schema_ with
  | some _ => b
  | none =>
    { b with fields_ := fieldsOfLine (firstLine b.scanner_.input_),
             status_ := lineEnd b.scanner_.input_,
             scanner_ := { input_ := afterFirstLine b.scanner_.input_ },
             schema_ := some (schemaOfHeader (fieldsOfLine (firstLine b.scanner_.input_))) }

/-- What `GetArray` returns once the drain loop has ended with `r`. -/
def finishPull (out : Option ArrowArray) (r : Int × SimpleCsvArrayBuilder) :
    Int × Option ArrowArray × SimpleCsvArrayBuilder :=
  if r.1 ≠ NANOARROW_OK then (r.1, out, r.2)
  else (NANOARROW_OK, r.2.array_, { r.2 with array_ := none })

/-- A record as text: its fields joined by commas, then a newline. -/
def renderLine (fields : List (List Char)) : List Char :=
  List.intercalate [','] fields ++ ['\n']

/-- The text of a sequence of newline-terminated records. -/
def renderRecords : List (List (List Char)) → List Char
  | [] => []
  | r :: rs => renderLine r ++ renderRecords rs

/-- A record has at least one field, and no field holds a comma or a newline. -/
def RecordOk (r : List (List Char)) : Prop :=
  r ≠ [] ∧ ∀ f ∈ r, ',' ∉ f ∧ '\n' ∉ f

/-- The records that are not blank lines (a blank line is the record with one
empty field). -/
def dataRows (records : List (List (List Char))) : List (List (List Char)) :=
  records.filter (fun r => decide (r ≠ [[]]))

/-- A call of one of the two public methods, with the content of `*out` that the
caller passes. -/
inductive Call where
  | GetSchema (out : Option ArrowSchema)
  | GetArray (out : Option ArrowArray)
  deriving DecidableEq, Repr

/-- The builder after a sequence of calls. -/
def runCalls : List Call → SimpleCsvArrayBuilder → Option SimpleCsvArrayBuilder
  | [], b => some b
  | Call.GetSchema out :: calls, b =>
    match b.GetSchema out with
    | none => none
    | some r => runCalls calls r.2.2
  | Call.GetArray out :: calls, b =>
    match b.GetArray out with
    | none => none
    | some r => runCalls calls r.2.2

/-- Every column of `c1` starts with the column of `c0` at the same place: the
values of `c0` are kept, in order, and values may have been appended. -/
def ColumnsExtend (c0 c1 : List (List (List Char))) : Prop :=
  c0.length = c1.length ∧
    ∀ (i : Nat) (x y : List (List Char)), c0[i]? = some x → c1[i]? = some y → x <+: y

/-- The builder after the failed first `GetArray` on `a,b\n1,2\n3\n4,5\n`. -/
def failedPullExample : SimpleCsvArrayBuilder :=
  { status_ := ScanResult.LINE_SEP,
    scanner_ := { input_ := "4,5\n".toList },
    fields_ := ["3".toList],
    last_error_ := "Expected 2 fields but found 1 fields",
    schema_ := some (schemaOfHeader ["a".toList, "b".toList]),
    array_ := some { length := 1, children := [["1".toList], ["2".toList]] } }

/-- The builder with which the drain loop starts on the file `a,b\n1,2\n`. -/
def preparedExample : SimpleCsvArrayBuilder :=
  { status_ := ScanResult.LINE_SEP,
    scanner_ := { input_ := "1,2\n".toList },
    fields_ := ["a".toList, "b".toList],
    last_error_ := ArrowErrorSet "Internal error" [],
    schema_ := some (schemaOfHeader ["a".toList, "b".toList]),
    array_ := some { length := 0, children := [[], []] } }

/-- A fresh builder on the file `a,b\n1,2\n3\n4,5\n`, whose record `3` has one
field. -/
def mismatchExample : SimpleCsvArrayBuilder :=
  SimpleCsvArrayBuilder.new "a,b\n1,2\n3\n4,5\n".toList ScanResult.UNINITIALIZED

/-- `InsertBlankLines input input1`: `input1` is `input` with empty lines
inserted, each one a lone newline put right after a newline that is already
there (so after the end of the header line). -/
inductive InsertBlankLines : List Char → List Char → Prop where
  | refl (input : List Char) : InsertBlankLines input input
  | insert (input pre post : List Char) :
      InsertBlankLines input (pre ++ '\n' :: post) →
      InsertBlankLines input (pre ++ '\n' :: '\n' :: post)

/-- What a caller sees of a `GetArray` call: the return code, `*out`, and the
last error. -/
def pullResult (r : Option (Int × Option ArrowArray × SimpleCsvArrayBuilder)) :
    Option (Int × Option ArrowArray × String) :=
  r.map (fun x => (x.1, x.2.1, x.2.2.GetLastError))

/-- What the end of `GetArray` uses of the result of the drain loop. -/
def drainResult (r : Option (Int × SimpleCsvArrayBuilder)) :
    Option (Int × Option ArrowArray × String) :=
  r.map (fun x => (x.1, x.2.array_, x.2.last_error_))

/-! ## Field scanner -/

theorem ReadField_loop_append (f : List Char) (hf : ∀ c ∈ f, c ≠ ',' ∧ c ≠ '\n')
    (stream rest : List Char) :
    SimpleCsvScanner.ReadField.loop stream (f ++ rest)
      = SimpleCsvScanner.ReadField.loop (stream ++ f) rest := by
  induction f generalizing stream with
  | nil => simp
  | cons c f ih =>
    have hc := hf c (List.mem_cons_self c f)
    have hf1 : ∀ x ∈ f, x ≠ ',' ∧ x ≠ '\n' := fun x hx => hf x (List.mem_cons_of_mem c hx)
    have e := ih hf1 (stream ++ [c])
    simp only [List.cons_append, SimpleCsvScanner.ReadField.loop, hc.1, hc.2, if_false]
    simpa using e

/-- Every input splits as a separator-free prefix followed by a comma, by a
newline, or by nothing, and the loop of `ReadField` answers accordingly. -/
theorem ReadField_loop_cases (input stream : List Char) :
    ∃ p : List Char, (∀ c ∈ p, c ≠ ',' ∧ c ≠ '\n') ∧
      ((input = p ∧
          SimpleCsvScanner.ReadField.loop stream input
            = ((ScanResult.DONE, stream ++ p), [])) ∨
       (∃ rest, input = p ++ ',' :: rest ∧
          SimpleCsvScanner.ReadField.loop stream input
            = ((ScanResult.FIELD_SEP, stream ++ p), rest)) ∨
       (∃ rest, input = p ++ '\n' :: rest ∧
          SimpleCsvScanner.ReadField.loop stream input
            = ((ScanResult.LINE_SEP, stream ++ p), rest))) := by
  induction input generalizing stream with
  | nil => exact ⟨[], by simp, Or.inl ⟨rfl, by simp [SimpleCsvScanner.ReadField.loop]⟩⟩
  | cons c input ih =>
    by_cases h1 : c = ','
    · exact ⟨[], by simp, Or.inr (Or.inl ⟨input, by simp [h1],
        by simp [SimpleCsvScanner.ReadField.loop, h1]⟩)⟩
    · by_cases h2 : c = '\n'
      · exact ⟨[], by simp, Or.inr (Or.inr ⟨input, by simp [h2],
          by simp [SimpleCsvScanner.ReadField.loop, h2]⟩)⟩
      · obtain ⟨p, hp, hcase⟩ := ih (stream ++ [c])
        refine ⟨c :: p, ?_, ?_⟩
        · intro x hx
          rcases List.mem_cons.mp hx with rfl | hx
          · exact ⟨h1, h2⟩
          · exact hp x hx
        · simp only [SimpleCsvScanner.ReadField.loop, h1, h2, if_false]
          rcases hcase with ⟨e, hl⟩ | ⟨rest, e, hl⟩ | ⟨rest, e, hl⟩
          · exact Or.inl ⟨by rw [e], by rw [hl]; simp⟩
          · exact Or.inr (Or.inl ⟨rest, by rw [e]; simp, by rw [hl]; simp⟩)
          · exact Or.inr (Or.inr ⟨rest, by rw [e]; simp, by rw [hl]; simp⟩)

/-- A separator-free prefix cannot be longer than the one that stops at the
first separator. -/
theorem sepfree_prefix_length_le (p q rest : List Char) (c : Char)
    (hc : c = ',' ∨ c = '\n') (hq : ∀ x ∈ q, x ≠ ',' ∧ x ≠ '\n')
    (hpre : q <+: p ++ c :: rest) : q.length ≤ p.length := by
  by_contra hlt
  have hlen : (p ++ [c]).length ≤ q.length := by simp; omega
  have h1 : p ++ [c] <+: p ++ c :: rest := ⟨rest, by simp⟩
  have h2 : p ++ [c] <+: q := List.prefix_of_prefix_length_le h1 hpre hlen
  have hmem : c ∈ q := h2.subset (by simp)
  rcases hc with rfl | rfl
  · exact (hq _ hmem).1 rfl
  · exact (hq _ hmem).2 rfl

/-- C9: `ReadField` returns the longest prefix of the remaining input that holds
neither a comma nor a newline; the result is `FIELD_SEP`, `LINE_SEP` or `DONE`
as that prefix is followed by a comma, a newline or the end of the input, and
the input left starts just after that terminating byte, which is not part of
the returned bytes. -/
theorem ReadField_longest_run_before_separator (s : SimpleCsvScanner) :
    s.ReadField.1.2 <+: s.input_ ∧
    (∀ c ∈ s.ReadField.1.2, c ≠ ',' ∧ c ≠ '\n') ∧
    (∀ q : List Char, q <+: s.input_ → (∀ c ∈ q, c ≠ ',' ∧ c ≠ '\n') →
        q.length ≤ s.ReadField.1.2.length) ∧
    ((s.ReadField.1.1 = ScanResult.FIELD_SEP ∧
        s.input_ = s.ReadField.1.2 ++ ',' :: s.ReadField.2.input_) ∨
     (s.ReadField.1.1 = ScanResult.LINE_SEP ∧
        s.input_ = s.ReadField.1.2 ++ '\n' :: s.ReadField.2.input_) ∨
     (s.ReadField.1.1 = ScanResult.DONE ∧
        s.input_ = s.ReadField.1.2 ∧ s.ReadField.2.input_ = [])) := by
  obtain ⟨p, hp, hcase⟩ := ReadField_loop_cases s.input_ []
  rcases hcase with ⟨e, hl⟩ | ⟨rest, e, hl⟩ | ⟨rest, e, hl⟩
  · have hR : s.ReadField = ((ScanResult.DONE, p), { input_ := [] }) := by
      simp [SimpleCsvScanner.ReadField, hl]
    rw [hR]
    refine ⟨by rw [e], hp, ?_, Or.inr (Or.inr ⟨rfl, e, rfl⟩)⟩
    intro q hq _
    rw [e] at hq
    exact hq.length_le
  · have hR : s.ReadField = ((ScanResult.FIELD_SEP, p), { input_ := rest }) := by
      simp [SimpleCsvScanner.ReadField, hl]
    rw [hR]
    refine ⟨⟨',' :: rest, e.symm⟩, hp, ?_, Or.inl ⟨rfl, e⟩⟩
    intro q hq hqs
    rw [e] at hq
    exact sepfree_prefix_length_le p q rest ',' (Or.inl rfl) hqs hq
  · have hR : s.ReadField = ((ScanResult.LINE_SEP, p), { input_ := rest }) := by
      simp [SimpleCsvScanner.ReadField, hl]
    rw [hR]
    refine ⟨⟨'\n' :: rest, e.symm⟩, hp, ?_, Or.inr (Or.inl ⟨rfl, e⟩)⟩
    intro q hq hqs
    rw [e] at hq
    exact sepfree_prefix_length_le p q rest '\n' (Or.inr rfl) hqs hq

/-! ## Record reader -/

theorem ReadLine_loop_succ (fuel : Nat) (values : List (List Char)) (s : SimpleCsvScanner) :
    SimpleCsvScanner.ReadLine.loop (fuel + 1) values s
      = afterField fuel values (SimpleCsvScanner.ReadField.loop [] s.input_) := rfl

theorem afterField_line (line : List Char) (hline : '\n' ∉ line) (tl : List Char)
    (htl : ∀ c ∈ tl.head?, c = '\n') (stream : List Char) (values : List (List Char))
    (fuel : Nat) (hfuel : line.length ≤ fuel) :
    afterField fuel values (SimpleCsvScanner.ReadField.loop stream (line ++ tl))
      = some (lineEnd tl, values ++ splitCommaAcc stream line, { input_ := tl.tail }) := by
  induction line generalizing stream values fuel with
  | nil =>
    cases tl with
    | nil => simp [SimpleCsvScanner.ReadField.loop, afterField, lineEnd, splitCommaAcc]
    | cons c rest =>
      have hc : c = '\n' := htl c (by simp)
      subst hc
      simp [SimpleCsvScanner.ReadField.loop, afterField, lineEnd, splitCommaAcc]
  | cons c l ih =>
    have hl : '\n' ∉ l := fun h => hline (List.mem_cons_of_mem c h)
    have hc : c ≠ '\n' := fun h => hline (by simp [h])
    by_cases h1 : c = ','
    · subst h1
      cases fuel with
      | zero => simp at hfuel
      | succ fuel1 =>
        have hf : l.length ≤ fuel1 := by simpa using hfuel
        have e := ih hl [] (values ++ [stream]) fuel1 hf
        simp only [List.cons_append, SimpleCsvScanner.ReadField.loop, if_true, afterField,
          splitCommaAcc]
        rw [ReadLine_loop_succ]
        simpa using e
    · have hf : l.length ≤ fuel := by simp at hfuel; omega
      have e := ih hl (stream ++ [c]) values fuel hf
      simp only [List.cons_append, SimpleCsvScanner.ReadField.loop, h1, hc, if_false,
        splitCommaAcc]
      exact e

theorem firstLine_append_rest (input : List Char) :
    firstLine input ++ input.dropWhile (fun c => c != '\n') = input :=
  List.takeWhile_append_dropWhile _ _

theorem newline_not_mem_firstLine (input : List Char) : '\n' ∉ firstLine input := by
  intro h
  have := List.mem_takeWhile_imp h
  simp at this

theorem head_dropWhile_newline (input : List Char) :
    ∀ c ∈ (input.dropWhile (fun c => c != '\n')).head?, c = '\n' := by
  intro c hc
  induction input with
  | nil => simp at hc
  | cons x xs ih =>
    by_cases hx : x = '\n'
    · subst hx
      simp [List.dropWhile] at hc
      exact hc.symm
    · have hb : (x != '\n') = true := by simpa using hx
      simp only [List.dropWhile, hb] at hc
      exact ih hc

theorem lineEnd_dropWhile (input : List Char) :
    lineEnd (input.dropWhile (fun c => c != '\n')) = lineEnd input := by
  unfold lineEnd
  have h : '\n' ∈ input.dropWhile (fun c => c != '\n') ↔ '\n' ∈ input := by
    constructor
    · intro h
      exact (List.dropWhile_sublist _).subset h
    · intro h
      have e := firstLine_append_rest input
      rw [← e] at h
      rcases List.mem_append.mp h with h | h
      · exact absurd h (newline_not_mem_firstLine input)
      · exact h
  simp only [h]

/-- The functional description of `SimpleCsvScanner::ReadLine`: it always
returns, appends the fields of the first line and leaves the input just after
that line's newline. -/
theorem scanner_ReadLine_eq (values : List (List Char)) (input : List Char) :
    SimpleCsvScanner.ReadLine values { input_ := input }
      = some (lineEnd input, values ++ fieldsOfLine (firstLine input),
          { input_ := afterFirstLine input }) := by
  have e := afterField_line (firstLine input) (newline_not_mem_firstLine input)
    (input.dropWhile (fun c => c != '\n')) (head_dropWhile_newline input) [] values
    input.length (by
      have := congrArg List.length (firstLine_append_rest input)
      simp at this
      omega)
  rw [firstLine_append_rest, lineEnd_dropWhile] at e
  simp only [SimpleCsvScanner.ReadLine, ReadLine_loop_succ]
  exact e

theorem intercalate_comma_cons_cons (f g : List Char) (gs : List (List Char)) :
    List.intercalate [','] (f :: g :: gs) = f ++ ',' :: List.intercalate [','] (g :: gs) := by
  simp [List.intercalate, List.intersperse]

theorem intercalate_comma_singleton (f : List Char) : List.intercalate [','] [f] = f := by
  simp [List.intercalate, List.intersperse]

theorem splitCommaAcc_ne_nil (stream line : List Char) : splitCommaAcc stream line ≠ [] := by
  induction line generalizing stream with
  | nil => simp [splitCommaAcc]
  | cons c l ih =>
    by_cases h : c = ','
    · simp [splitCommaAcc, h]
    · simp only [splitCommaAcc, h, if_false]
      exact ih _

theorem intercalate_splitCommaAcc (stream line : List Char) :
    List.intercalate [','] (splitCommaAcc stream line) = stream ++ line := by
  induction line generalizing stream with
  | nil => simp [splitCommaAcc, intercalate_comma_singleton]
  | cons c l ih =>
    by_cases h : c = ','
    · subst h
      simp only [splitCommaAcc, if_true]
      have hne := splitCommaAcc_ne_nil [] l
      have e := ih []
      cases hs : splitCommaAcc [] l with
      | nil => exact absurd hs hne
      | cons g gs =>
        rw [hs] at e
        rw [intercalate_comma_cons_cons, e]
        simp
    · simp only [splitCommaAcc, h, if_false]
      rw [ih]
      simp

theorem splitCommaAcc_sepfree (stream line : List Char)
    (hs : ',' ∉ stream ∧ '\n' ∉ stream) (hl : '\n' ∉ line) :
    ∀ f ∈ splitCommaAcc stream line, ',' ∉ f ∧ '\n' ∉ f := by
  induction line generalizing stream with
  | nil =>
    intro f hf
    simp only [splitCommaAcc, List.mem_singleton] at hf
    rw [hf]
    exact hs
  | cons c l ih =>
    have hl1 : '\n' ∉ l := fun h => hl (List.mem_cons_of_mem c h)
    have hc : c ≠ '\n' := fun h => hl (by simp [h])
    by_cases h : c = ','
    · intro f hf
      simp only [splitCommaAcc, h, if_true, List.mem_cons] at hf
      rcases hf with rfl | hf
      · exact hs
      · exact ih [] (by simp) hl1 f hf
    · simp only [splitCommaAcc, h, if_false]
      refine ih (stream ++ [c]) ?_ hl1
      constructor
      · simp only [List.mem_append, List.mem_singleton, not_or]
        exact ⟨hs.1, fun e => h e.symm⟩
      · simp only [List.mem_append, List.mem_singleton, not_or]
        exact ⟨hs.2, fun e => hc e.symm⟩

/-- C10: whatever the vector holds, the scanner's `ReadLine` returns, keeps the
elements that were there and appends the fields of one record: at least one
field, none holding a comma or a newline, which joined with commas give the
input up to its first newline (or its end).  It returns `LINE_SEP` when a
newline ended the record and `DONE` when the input ended, never `FIELD_SEP`, and
the input left starts after that newline. -/
theorem scanner_ReadLine_appends_one_record (values : List (List Char)) (input : List Char) :
    ∃ fs : List (List Char),
      SimpleCsvScanner.ReadLine values { input_ := input }
        = some (if '\n' ∈ input then ScanResult.LINE_SEP else ScanResult.DONE,
            values ++ fs,
            { input_ := (input.dropWhile (fun c => c != '\n')).tail }) ∧
      fs ≠ [] ∧
      (∀ f ∈ fs, ',' ∉ f ∧ '\n' ∉ f) ∧
      List.intercalate [','] fs = input.takeWhile (fun c => c != '\n') ∧
      (if '\n' ∈ input then ScanResult.LINE_SEP else ScanResult.DONE)
        ≠ ScanResult.FIELD_SEP := by
  refine ⟨fieldsOfLine (firstLine input), scanner_ReadLine_eq values input,
    splitCommaAcc_ne_nil _ _, ?_, ?_, ?_⟩
  · exact splitCommaAcc_sepfree [] (firstLine input) (by simp) (newline_not_mem_firstLine input)
  · simpa [fieldsOfLine, firstLine] using intercalate_splitCommaAcc [] (firstLine input)
  · split <;> simp

/-! ## The two `for` loops over the children -/

theorem length_updateAt {α : Type} (f : α → α) (i : Nat) (l : List α) :
    (updateAt f i l).length = l.length := by
  induction l generalizing i with
  | nil => cases i <;> simp [updateAt]
  | cons x xs ih => cases i <;> simp [updateAt, ih]

theorem getElem?_updateAt {α : Type} (f : α → α) (i j : Nat) (l : List α) :
    (updateAt f i l)[j]? = if j = i then l[j]?.map f else l[j]? := by
  induction l generalizing i j with
  | nil => cases i <;> simp [updateAt]
  | cons x xs ih =>
    cases i with
    | zero =>
      cases j with
      | zero => simp [updateAt]
      | succ j => simp [updateAt]
    | succ i =>
      cases j with
      | zero => simp [updateAt]
      | succ j => simp [updateAt, ih]

theorem getElem?_foldl_updateAt {α : Type} (g : Nat → α → α) (k j : Nat) (l : List α) :
    ((List.range k).foldl (fun acc i => updateAt (g i) i acc) l)[j]?
      = if j < k then l[j]?.map (g j) else l[j]? := by
  induction k with
  | zero => simp
  | succ k ih =>
    rw [List.range_succ, List.foldl_append]
    simp only [List.foldl_cons, List.foldl_nil]
    rw [getElem?_updateAt, ih]
    by_cases h1 : j = k
    · subst h1
      simp
    · by_cases h2 : j < k
      · have : j < k + 1 := by omega
        simp [h1, h2, this]
      · have : ¬ j < k + 1 := by omega
        simp [h1, h2, this]

theorem foldl_setChildTypeAndName_children (fields : List (List Char)) (is : List Nat)
    (schema : ArrowSchema) :
    (is.foldl (setChildTypeAndName fields) schema).children
      = is.foldl (fun acc i => updateAt
          (fun _ => ({ type := ArrowType.NANOARROW_TYPE_STRING,
                       name := some (c_str (fields.getD i [])) } : ArrowSchemaChild)) i acc)
          schema.children := by
  induction is generalizing schema with
  | nil => rfl
  | cons i is ih => simp only [List.foldl_cons]; rw [ih]; rfl

theorem foldl_setChildTypeAndName_type (fields : List (List Char)) (is : List Nat)
    (schema : ArrowSchema) :
    (is.foldl (setChildTypeAndName fields) schema).type = schema.type := by
  induction is generalizing schema with
  | nil => rfl
  | cons i is ih => simp only [List.foldl_cons]; rw [ih]; rfl

/-- The schema that `ReadSchemaIfNeeded` builds from the header fields. -/
theorem schema_of_fields (fields : List (List Char)) :
    (List.range (ArrowSchemaSetTypeStruct ArrowSchemaInit fields.length).children.length).foldl
        (setChildTypeAndName fields) (ArrowSchemaSetTypeStruct ArrowSchemaInit fields.length)
      = { type := ArrowType.NANOARROW_TYPE_STRUCT,
          children := fields.map (fun f =>
            { type := ArrowType.NANOARROW_TYPE_STRING, name := some (c_str f) }) } := by
  have hc : ((List.range (ArrowSchemaSetTypeStruct ArrowSchemaInit
        fields.length).children.length).foldl
        (setChildTypeAndName fields)
        (ArrowSchemaSetTypeStruct ArrowSchemaInit fields.length)).children
      = fields.map (fun f =>
          ({ type := ArrowType.NANOARROW_TYPE_STRING, name := some (c_str f) } :
            ArrowSchemaChild)) := by
    rw [foldl_setChildTypeAndName_children]
    apply List.ext_getElem?
    intro j
    rw [getElem?_foldl_updateAt (fun i _ =>
      ({ type := ArrowType.NANOARROW_TYPE_STRING,
         name := some (c_str (fields.getD i [])) } : ArrowSchemaChild))]
    simp only [ArrowSchemaSetTypeStruct, List.length_replicate, List.getElem?_replicate,
      List.getElem?_map, List.getD_eq_getElem?_getD]
    by_cases h : j < fields.length
    · simp [h, List.getElem?_eq_getElem h]
    · have : fields[j]? = none := List.getElem?_eq_none (by omega)
      simp [h, this]
  have ht := foldl_setChildTypeAndName_type fields
    (List.range (ArrowSchemaSetTypeStruct ArrowSchemaInit fields.length).children.length)
    (ArrowSchemaSetTypeStruct ArrowSchemaInit fields.length)
  generalize (List.range (ArrowSchemaSetTypeStruct ArrowSchemaInit
    fields.length).children.length).foldl (setChildTypeAndName fields)
    (ArrowSchemaSetTypeStruct ArrowSchemaInit fields.length) = sch at hc ht
  cases sch
  simp only [ArrowSchemaSetTypeStruct] at ht
  simp only at hc
  simp [hc, ht]

theorem foldl_appendString_children (fields : List (List Char)) (is : List Nat)
    (array : ArrowArray) :
    (is.foldl (fun a i => ArrowArrayAppendString a i (fields.getD i [])) array).children
      = is.foldl (fun acc i => updateAt (fun col => col ++ [fields.getD i []]) i acc)
          array.children := by
  induction is generalizing array with
  | nil => rfl
  | cons i is ih => simp only [List.foldl_cons]; rw [ih]; rfl

theorem foldl_appendString_length (fields : List (List Char)) (is : List Nat)
    (array : ArrowArray) :
    (is.foldl (fun a i => ArrowArrayAppendString a i (fields.getD i [])) array).length
      = array.length := by
  induction is generalizing array with
  | nil => rfl
  | cons i is ih => simp only [List.foldl_cons]; rw [ih]; rfl

/-- Appending the fields of a record to the columns of `rows` gives the columns
of `rows` followed by that record. -/
theorem appendString_columnsOf (n : Nat) (rows : List (List (List Char)))
    (fields : List (List Char)) (len : Nat) :
    (List.range n).foldl (fun a i => ArrowArrayAppendString a i (fields.getD i []))
        { length := len, children := columnsOf n rows }
      = { length := len, children := columnsOf n (rows ++ [fields]) } := by
  have hc := foldl_appendString_children fields (List.range n)
    { length := len, children := columnsOf n rows }
  have hl := foldl_appendString_length fields (List.range n)
    { length := len, children := columnsOf n rows }
  generalize (List.range n).foldl (fun a i => ArrowArrayAppendString a i (fields.getD i []))
    { length := len, children := columnsOf n rows } = arr at hc hl
  cases arr
  simp only at hc hl
  subst hl
  congr 1
  rw [hc]
  apply List.ext_getElem?
  intro j
  rw [getElem?_foldl_updateAt (fun i col => col ++ [fields.getD i []])]
  simp only [columnsOf, List.getElem?_map]
  by_cases h : j < n
  · simp [h, List.getElem?_range h]
  · have : (List.range n)[j]? = none := List.getElem?_eq_none (by simp; omega)
    simp [h, this]

/-! ## Lines of the input -/

theorem firstLine_cons_newline (xs : List Char) : firstLine ('\n' :: xs) = [] := by
  simp [firstLine, List.takeWhile]

theorem afterFirstLine_cons_newline (xs : List Char) : afterFirstLine ('\n' :: xs) = xs := by
  simp [afterFirstLine, List.dropWhile]

theorem firstLine_cons_ne (x : Char) (hx : x ≠ '\n') (xs : List Char) :
    firstLine (x :: xs) = x :: firstLine xs := by
  have hb : (x != '\n') = true := by simpa using hx
  simp [firstLine, List.takeWhile, hb]

theorem afterFirstLine_cons_ne (x : Char) (hx : x ≠ '\n') (xs : List Char) :
    afterFirstLine (x :: xs) = afterFirstLine xs := by
  have hb : (x != '\n') = true := by simpa using hx
  simp [afterFirstLine, List.dropWhile, hb]

theorem firstLine_line (line : List Char) (hline : '\n' ∉ line) (rest : List Char) :
    firstLine (line ++ '\n' :: rest) = line := by
  induction line with
  | nil => exact firstLine_cons_newline rest
  | cons c l ih =>
    have hc : c ≠ '\n' := fun h => hline (by simp [h])
    have hl : '\n' ∉ l := fun h => hline (List.mem_cons_of_mem c h)
    rw [List.cons_append, firstLine_cons_ne c hc, ih hl]

theorem afterFirstLine_line (line : List Char) (hline : '\n' ∉ line) (rest : List Char) :
    afterFirstLine (line ++ '\n' :: rest) = rest := by
  induction line with
  | nil => exact afterFirstLine_cons_newline rest
  | cons c l ih =>
    have hc : c ≠ '\n' := fun h => hline (by simp [h])
    have hl : '\n' ∉ l := fun h => hline (List.mem_cons_of_mem c h)
    rw [List.cons_append, afterFirstLine_cons_ne c hc, ih hl]

theorem lineEnd_line (line rest : List Char) :
    lineEnd (line ++ '\n' :: rest) = ScanResult.LINE_SEP := by
  simp [lineEnd]

theorem firstLine_last (line : List Char) (hline : '\n' ∉ line) : firstLine line = line := by
  induction line with
  | nil => rfl
  | cons c l ih =>
    have hc : c ≠ '\n' := fun h => hline (by simp [h])
    have hl : '\n' ∉ l := fun h => hline (List.mem_cons_of_mem c h)
    rw [firstLine_cons_ne c hc, ih hl]

theorem afterFirstLine_last (line : List Char) (hline : '\n' ∉ line) :
    afterFirstLine line = [] := by
  induction line with
  | nil => rfl
  | cons c l ih =>
    have hc : c ≠ '\n' := fun h => hline (by simp [h])
    have hl : '\n' ∉ l := fun h => hline (List.mem_cons_of_mem c h)
    rw [afterFirstLine_cons_ne c hc, ih hl]

theorem lineEnd_last (line : List Char) (hline : '\n' ∉ line) :
    lineEnd line = ScanResult.DONE := by
  simp [lineEnd, hline]

theorem count_afterFirstLine (input : List Char) (h : '\n' ∈ input) :
    (afterFirstLine input).count '\n' + 1 = input.count '\n' := by
  induction input with
  | nil => simp at h
  | cons x xs ih =>
    by_cases hx : x = '\n'
    · subst hx
      rw [afterFirstLine_cons_newline]
      simp
    · have hxs : '\n' ∈ xs := by
        rcases List.mem_cons.mp h with h | h
        · exact absurd h.symm hx
        · exact h
      rw [afterFirstLine_cons_ne x hx, List.count_cons_of_ne (fun e => hx e.symm), ih hxs]

theorem count_newline_le_length (input : List Char) : input.count '\n' ≤ input.length :=
  List.count_le_length _ _

/-! ## One record of the builder -/

theorem builder_ReadLine_eq (b : SimpleCsvArrayBuilder) :
    b.ReadLine = some (storeRecord b (lineEnd b.scanner_.input_)
      (fieldsOfLine (firstLine b.scanner_.input_))
      { input_ := afterFirstLine b.scanner_.input_ }) := by
  have e := scanner_ReadLine_eq [] b.scanner_.input_
  simp only [List.nil_append] at e
  unfold SimpleCsvArrayBuilder.ReadLine
  rw [e]
  simp only [storeRecord]
  split_ifs <;> try rfl
  split <;> rfl

theorem storeRecord_status (b : SimpleCsvArrayBuilder) (status : ScanResult)
    (fields : List (List Char)) (scanner : SimpleCsvScanner) :
    (storeRecord b status fields scanner).2.status_ = status := by
  simp only [storeRecord]
  split_ifs <;> first | rfl | (split <;> rfl)

theorem storeRecord_scanner (b : SimpleCsvArrayBuilder) (status : ScanResult)
    (fields : List (List Char)) (scanner : SimpleCsvScanner) :
    (storeRecord b status fields scanner).2.scanner_ = scanner := by
  simp only [storeRecord]
  split_ifs <;> first | rfl | (split <;> rfl)

theorem storeRecord_schema (b : SimpleCsvArrayBuilder) (status : ScanResult)
    (fields : List (List Char)) (scanner : SimpleCsvScanner) :
    (storeRecord b status fields scanner).2.schema_ = b.schema_ := by
  simp only [storeRecord]
  split_ifs <;> first | rfl | (split <;> rfl)

/-- A blank line is skipped: only the scan state changes. -/
theorem storeRecord_blank (b : SimpleCsvArrayBuilder) (status : ScanResult)
    (scanner : SimpleCsvScanner) :
    storeRecord b status [[]] scanner
      = (NANOARROW_OK, { b with fields_ := [[]], status_ := status, scanner_ := scanner }) := by
  simp [storeRecord]

/-- A record with the wrong number of fields fails with `EINVAL` and the message
of `ArrowErrorSet`. -/
theorem storeRecord_mismatch (b : SimpleCsvArrayBuilder) (status : ScanResult)
    (fields : List (List Char)) (scanner : SimpleCsvScanner)
    (hblank : fields ≠ [[]]) (hlen : b.n_children ≠ fields.length) :
    storeRecord b status fields scanner
      = (EINVAL,
          { b with fields_ := fields, status_ := status, scanner_ := scanner,
                   last_error_ :=
                     (ArrowErrorSet "Expected %ld fields but found %ld fields"
                       [Int.ofNat b.n_children, Int.ofNat fields.length]) }) := by
  have h1 : ¬ (fields.length = 1 ∧ fields.getD 0 [] = []) := by
    rintro ⟨h1, h2⟩
    apply hblank
    match fields, h1, h2 with
    | [f], _, h2 => simpa using h2
  have h2 : ({ b with fields_ := fields, status_ := status, scanner_ := scanner } :
      SimpleCsvArrayBuilder).n_children = b.n_children := rfl
  unfold storeRecord
  simp only [h1, if_false, h2, ne_eq, hlen, not_false_eq_true, if_true]

/-- A record with the schema's number of fields, not a blank line, becomes the
next row of every column. -/
theorem storeRecord_row (b : SimpleCsvArrayBuilder) (status : ScanResult)
    (fields : List (List Char)) (scanner : SimpleCsvScanner)
    (rows : List (List (List Char)))
    (hblank : fields ≠ [[]]) (hlen : b.n_children = fields.length)
    (harr : b.array_ = some { length := rows.length, children := columnsOf b.n_children rows }) :
    storeRecord b status fields scanner
      = (NANOARROW_OK,
          { b with fields_ := fields, status_ := status, scanner_ := scanner,
                   array_ := some { length := (rows ++ [fields]).length,
                                    children := columnsOf b.n_children (rows ++ [fields]) } }) := by
  have h1 : ¬ (fields.length = 1 ∧ fields.getD 0 [] = []) := by
    rintro ⟨h1, h2⟩
    apply hblank
    match fields, h1, h2 with
    | [f], _, h2 => simpa using h2
  have h2 : ({ b with fields_ := fields, status_ := status, scanner_ := scanner } :
      SimpleCsvArrayBuilder).n_children = b.n_children := rfl
  have h3 : ({ b with fields_ := fields, status_ := status, scanner_ := scanner } :
      SimpleCsvArrayBuilder).array_ = b.array_ := rfl
  unfold storeRecord
  simp only [h1, if_false, h2, ne_eq, hlen, not_true_eq_false]
  rw [h3, harr]
  simp only
  rw [← hlen, appendString_columnsOf]
  have hall : (columnsOf b.n_children (rows ++ [fields])).all
      (fun col => col.length = rows.length + 1) = true := by
    rw [List.all_eq_true]
    intro col hcol
    simp only [columnsOf, List.mem_map, List.mem_range] at hcol
    obtain ⟨i, _, rfl⟩ := hcol
    simp
  simp [ArrowArrayFinishElement, hall]

/-! ## Schema step -/

theorem ReadSchemaIfNeeded_of_some (b : SimpleCsvArrayBuilder) (schema : ArrowSchema)
    (h : b.schema_ = some schema) : b.ReadSchemaIfNeeded = some (NANOARROW_OK, b) := by
  simp [SimpleCsvArrayBuilder.ReadSchemaIfNeeded, h]

theorem ReadSchemaIfNeeded_of_none (b : SimpleCsvArrayBuilder) (h : b.schema_ = none) :
    b.ReadSchemaIfNeeded = some (NANOARROW_OK,
      { b with fields_ := fieldsOfLine (firstLine b.scanner_.input_),
               status_ := lineEnd b.scanner_.input_,
               scanner_ := { input_ := afterFirstLine b.scanner_.input_ },
               schema_ := some (schemaOfHeader (fieldsOfLine (firstLine b.scanner_.input_))) }) := by
  have e := scanner_ReadLine_eq [] b.scanner_.input_
  simp only [List.nil_append] at e
  unfold SimpleCsvArrayBuilder.ReadSchemaIfNeeded
  rw [h]
  simp only
  rw [e]
  simp only [schema_of_fields, schemaOfHeader]

/-! ## The drain loop -/

theorem loop_of_done (fuel : Nat) (b : SimpleCsvArrayBuilder)
    (h : b.status_ = ScanResult.DONE) :
    SimpleCsvArrayBuilder.GetArray.loop fuel b = some (NANOARROW_OK, b) := by
  unfold SimpleCsvArrayBuilder.GetArray.loop
  simp [h]

theorem loop_succ (fuel : Nat) (b : SimpleCsvArrayBuilder)
    (h : b.status_ ≠ ScanResult.DONE) :
    SimpleCsvArrayBuilder.GetArray.loop (fuel + 1) b
      = (if (storeRecord b (lineEnd b.scanner_.input_)
              (fieldsOfLine (firstLine b.scanner_.input_))
              { input_ := afterFirstLine b.scanner_.input_ }).1 ≠ NANOARROW_OK
         then some (storeRecord b (lineEnd b.scanner_.input_)
              (fieldsOfLine (firstLine b.scanner_.input_))
              { input_ := afterFirstLine b.scanner_.input_ })
         else SimpleCsvArrayBuilder.GetArray.loop fuel
            (storeRecord b (lineEnd b.scanner_.input_)
              (fieldsOfLine (firstLine b.scanner_.input_))
              { input_ := afterFirstLine b.scanner_.input_ }).2) := by
  rw [SimpleCsvArrayBuilder.GetArray.loop]
  simp only [h, if_false, builder_ReadLine_eq]

/-- Fuel above the number of newlines left is enough, and more fuel changes
nothing. -/
theorem loop_fuel (fuel : Nat) :
    ∀ b : SimpleCsvArrayBuilder, b.scanner_.input_.count '\n' < fuel →
      ∃ r, ∀ fuel1, fuel ≤ fuel1 → SimpleCsvArrayBuilder.GetArray.loop fuel1 b = some r := by
  induction fuel with
  | zero => intro b h; exact absurd h (Nat.not_lt_zero _)
  | succ fuel ih =>
    intro b hb
    by_cases hd : b.status_ = ScanResult.DONE
    · exact ⟨(NANOARROW_OK, b), fun fuel1 _ => loop_of_done fuel1 b hd⟩
    · by_cases hrc : (storeRecord b (lineEnd b.scanner_.input_)
          (fieldsOfLine (firstLine b.scanner_.input_))
          { input_ := afterFirstLine b.scanner_.input_ }).1 ≠ NANOARROW_OK
      · refine ⟨storeRecord b (lineEnd b.scanner_.input_)
          (fieldsOfLine (firstLine b.scanner_.input_))
          { input_ := afterFirstLine b.scanner_.input_ }, fun fuel1 h1 => ?_⟩
        obtain ⟨f, rfl⟩ : ∃ f, fuel1 = f + 1 := ⟨fuel1 - 1, by omega⟩
        rw [loop_succ f b hd, if_pos hrc]
      · by_cases hn : '\n' ∈ b.scanner_.input_
        · have hc := count_afterFirstLine b.scanner_.input_ hn
          obtain ⟨r, hr⟩ := ih (storeRecord b (lineEnd b.scanner_.input_)
            (fieldsOfLine (firstLine b.scanner_.input_))
            { input_ := afterFirstLine b.scanner_.input_ }).2
            (by rw [storeRecord_scanner]; simp only; omega)
          refine ⟨r, fun fuel1 h1 => ?_⟩
          obtain ⟨f, rfl⟩ : ∃ f, fuel1 = f + 1 := ⟨fuel1 - 1, by omega⟩
          rw [loop_succ f b hd, if_neg hrc]
          exact hr f (by omega)
        · refine ⟨(NANOARROW_OK, (storeRecord b (lineEnd b.scanner_.input_)
            (fieldsOfLine (firstLine b.scanner_.input_))
            { input_ := afterFirstLine b.scanner_.input_ }).2), fun fuel1 h1 => ?_⟩
          obtain ⟨f, rfl⟩ : ∃ f, fuel1 = f + 1 := ⟨fuel1 - 1, by omega⟩
          rw [loop_succ f b hd, if_neg hrc]
          apply loop_of_done
          rw [storeRecord_status]
          exact lineEnd_last _ hn

theorem loop_eq_drain (fuel : Nat) (b : SimpleCsvArrayBuilder)
    (h : b.scanner_.input_.count '\n' < fuel ∨ b.status_ = ScanResult.DONE) :
    SimpleCsvArrayBuilder.GetArray.loop fuel b = drain b := by
  rcases h with h | h
  · obtain ⟨r, hr⟩ := loop_fuel (b.scanner_.input_.count '\n' + 1) b (Nat.lt_succ_self _)
    have hlen := count_newline_le_length b.scanner_.input_
    unfold drain
    rw [hr fuel (by omega), hr (b.scanner_.input_.length + 1) (by omega)]
  · unfold drain
    rw [loop_of_done _ b h, loop_of_done _ b h]

theorem drain_isSome (b : SimpleCsvArrayBuilder) : ∃ r, drain b = some r := by
  obtain ⟨r, hr⟩ := loop_fuel (b.scanner_.input_.count '\n' + 1) b (Nat.lt_succ_self _)
  have hlen := count_newline_le_length b.scanner_.input_
  exact ⟨r, hr _ (by omega)⟩

theorem drain_of_done (b : SimpleCsvArrayBuilder) (h : b.status_ = ScanResult.DONE) :
    drain b = some (NANOARROW_OK, b) :=
  loop_of_done _ b h

/-- One round of the drain loop, in terms of the record stored. -/
theorem drain_step (b : SimpleCsvArrayBuilder) (h : b.status_ ≠ ScanResult.DONE) :
    drain b
      = (if (storeRecord b (lineEnd b.scanner_.input_)
              (fieldsOfLine (firstLine b.scanner_.input_))
              { input_ := afterFirstLine b.scanner_.input_ }).1 ≠ NANOARROW_OK
         then some (storeRecord b (lineEnd b.scanner_.input_)
              (fieldsOfLine (firstLine b.scanner_.input_))
              { input_ := afterFirstLine b.scanner_.input_ })
         else drain (storeRecord b (lineEnd b.scanner_.input_)
              (fieldsOfLine (firstLine b.scanner_.input_))
              { input_ := afterFirstLine b.scanner_.input_ }).2) := by
  have e : drain b = SimpleCsvArrayBuilder.GetArray.loop (b.scanner_.input_.length + 1) b := rfl
  rw [e, loop_succ _ b h]
  split_ifs with hrc
  · rfl
  · apply loop_eq_drain
    by_cases hn : '\n' ∈ b.scanner_.input_
    · left
      have hc := count_afterFirstLine b.scanner_.input_ hn
      have hlen := count_newline_le_length b.scanner_.input_
      rw [storeRecord_scanner]
      simp only
      omega
    · right
      rw [storeRecord_status]
      exact lineEnd_last _ hn

/-! ## `GetSchema` and `GetArray` in terms of the steps above -/

theorem ReadSchemaIfNeeded_eq (b : SimpleCsvArrayBuilder) :
    b.ReadSchemaIfNeeded = some (NANOARROW_OK, withSchema b) := by
  cases h : b.schema_ with
  | none => rw [ReadSchemaIfNeeded_of_none b h]; simp [withSchema, h]
  | some schema => rw [ReadSchemaIfNeeded_of_some b schema h]; simp [withSchema, h]

theorem withSchema_schema (b : SimpleCsvArrayBuilder) :
    ∃ schema, (withSchema b).schema_ = some schema := by
  cases h : b.schema_ with
  | none =>
    exact ⟨schemaOfHeader (fieldsOfLine (firstLine b.scanner_.input_)),
      by simp only [withSchema, h]⟩
  | some schema => exact ⟨schema, by simp only [withSchema, h]⟩

theorem withSchema_of_some (b : SimpleCsvArrayBuilder) (schema : ArrowSchema)
    (h : b.schema_ = some schema) : withSchema b = b := by
  simp [withSchema, h]

theorem InitArrayIfNeeded_fst (b : SimpleCsvArrayBuilder) (schema : ArrowSchema)
    (h : b.schema_ = some schema) : b.InitArrayIfNeeded.1 = NANOARROW_OK := by
  unfold SimpleCsvArrayBuilder.InitArrayIfNeeded
  cases b.array_ with
  | none => simp [h]
  | some a => rfl

theorem GetSchema_eq (b : SimpleCsvArrayBuilder) (out : Option ArrowSchema) :
    b.GetSchema out = some (NANOARROW_OK, (withSchema b).schema_, withSchema b) := by
  unfold SimpleCsvArrayBuilder.GetSchema
  rw [ReadSchemaIfNeeded_eq]
  simp

theorem GetArray_of_done (b : SimpleCsvArrayBuilder) (out : Option ArrowArray)
    (h : b.status_ = ScanResult.DONE) : b.GetArray out = some (NANOARROW_OK, none, b) := by
  simp [SimpleCsvArrayBuilder.GetArray, h]

theorem GetArray_eq (b : SimpleCsvArrayBuilder) (out : Option ArrowArray)
    (h : b.status_ ≠ ScanResult.DONE) :
    b.GetArray out = (drain (withSchema b).InitArrayIfNeeded.2).map (finishPull out) := by
  obtain ⟨schema, hs⟩ := withSchema_schema b
  have hi := InitArrayIfNeeded_fst (withSchema b) schema hs
  unfold SimpleCsvArrayBuilder.GetArray
  rw [ReadSchemaIfNeeded_eq]
  simp only [h, if_false, ne_eq, not_true_eq_false, hi]
  unfold drain
  cases SimpleCsvArrayBuilder.GetArray.loop
      ((withSchema b).InitArrayIfNeeded.2.scanner_.input_.length + 1)
      (withSchema b).InitArrayIfNeeded.2 with
  | none => rfl
  | some r =>
    obtain ⟨rc, b3⟩ := r
    simp only [Option.map_some', finishPull]
    by_cases hrc : rc = NANOARROW_OK
    · simp [hrc]
    · simp [hrc]

/-! ## Well-formed files -/

theorem splitCommaAcc_append (f : List Char) (hf : ',' ∉ f) (stream rest : List Char) :
    splitCommaAcc stream (f ++ rest) = splitCommaAcc (stream ++ f) rest := by
  induction f generalizing stream with
  | nil => simp
  | cons c f ih =>
    have hc : c ≠ ',' := fun h => hf (by simp [h])
    have hf1 : ',' ∉ f := fun h => hf (List.mem_cons_of_mem c h)
    have e := ih hf1 (stream ++ [c])
    simp only [List.cons_append, splitCommaAcc, hc, if_false]
    simpa using e

theorem fieldsOfLine_intercalate (fields : List (List Char)) (h : RecordOk fields) :
    fieldsOfLine (List.intercalate [','] fields) = fields := by
  obtain ⟨hne, hf⟩ := h
  induction fields with
  | nil => exact absurd rfl hne
  | cons f fs ih =>
    cases fs with
    | nil =>
      rw [intercalate_comma_singleton]
      have e := splitCommaAcc_append f (hf f (by simp)).1 [] []
      simp only [List.append_nil, List.nil_append] at e
      rw [fieldsOfLine, e]
      rfl
    | cons g gs =>
      have e := splitCommaAcc_append f (hf f (by simp)).1 []
        (',' :: List.intercalate [','] (g :: gs))
      have ih1 := ih (by simp) (fun x hx => hf x (List.mem_cons_of_mem f hx))
      rw [intercalate_comma_cons_cons, fieldsOfLine, e]
      simp only [List.nil_append, splitCommaAcc, if_true]
      rw [fieldsOfLine] at ih1
      rw [ih1]

theorem newline_not_mem_intercalate (fields : List (List Char)) (h : RecordOk fields) :
    '\n' ∉ List.intercalate [','] fields := by
  obtain ⟨hne, hf⟩ := h
  induction fields with
  | nil => exact absurd rfl hne
  | cons f fs ih =>
    cases fs with
    | nil =>
      rw [intercalate_comma_singleton]
      exact (hf f (by simp)).2
    | cons g gs =>
      have ih1 := ih (by simp) (fun x hx => hf x (List.mem_cons_of_mem f hx))
      rw [intercalate_comma_cons_cons]
      intro hmem
      rcases List.mem_append.mp hmem with h1 | h1
      · exact (hf f (by simp)).2 h1
      · rcases List.mem_cons.mp h1 with h2 | h2
        · exact absurd h2 (by decide)
        · exact ih1 h2

theorem firstLine_renderLine (fields : List (List Char)) (h : RecordOk fields)
    (rest : List Char) :
    firstLine (renderLine fields ++ rest) = List.intercalate [','] fields := by
  have e := firstLine_line _ (newline_not_mem_intercalate fields h) rest
  simpa [renderLine] using e

theorem afterFirstLine_renderLine (fields : List (List Char)) (h : RecordOk fields)
    (rest : List Char) :
    afterFirstLine (renderLine fields ++ rest) = rest := by
  have e := afterFirstLine_line _ (newline_not_mem_intercalate fields h) rest
  simpa [renderLine] using e

theorem lineEnd_renderLine (fields : List (List Char)) (rest : List Char) :
    lineEnd (renderLine fields ++ rest) = ScanResult.LINE_SEP := by
  simp [lineEnd, renderLine]

theorem dataRows_cons_blank (rs : List (List (List Char))) :
    dataRows ([[]] :: rs) = dataRows rs := by
  simp [dataRows]

theorem dataRows_cons_row (r : List (List Char)) (h : r ≠ [[]])
    (rs : List (List (List Char))) :
    dataRows (r :: rs) = r :: dataRows rs := by
  simp [dataRows, h]

/-- The drain loop over a run of well-formed records of the schema's arity: the
blank ones are skipped, the others become rows, and the loop goes on with what
follows them. -/
theorem drain_good_records (records : List (List (List Char))) :
    ∀ (b : SimpleCsvArrayBuilder) (rows : List (List (List Char))) (rest : List Char)
      (n : Nat), b.n_children = n →
      (∀ r ∈ records, RecordOk r ∧ (r = [[]] ∨ r.length = n)) →
      b.status_ = ScanResult.LINE_SEP →
      b.array_ = some { length := rows.length, children := columnsOf n rows } →
      b.scanner_.input_ = renderRecords records ++ rest →
      drain b = drain
        { b with fields_ := records.getLast?.getD b.fields_,
                 scanner_ := { input_ := rest },
                 array_ := some { length := (rows ++ dataRows records).length,
                                  children := columnsOf n (rows ++ dataRows records) } } := by
  induction records with
  | nil =>
    intro b rows rest n _ _ _ harr hin
    simp only [renderRecords, List.nil_append] at hin
    simp only [List.getLast?_nil, Option.getD_none, dataRows, List.filter_nil, List.append_nil]
    rw [← harr]
    congr
    exact hin ▸ rfl
  | cons r rs ih =>
    intro b rows rest n hn hrec hst harr hin
    subst hn
    have hr := hrec r (List.mem_cons_self r rs)
    have hrs : ∀ x ∈ rs, RecordOk x ∧ (x = [[]] ∨ x.length = b.n_children) :=
      fun x hx => hrec x (List.mem_cons_of_mem r hx)
    have hin1 : b.scanner_.input_ = renderLine r ++ (renderRecords rs ++ rest) := by
      rw [hin]; simp [renderRecords]
    have hlast : (r :: rs).getLast?.getD b.fields_ = rs.getLast?.getD r := by
      cases rs with
      | nil => rfl
      | cons x xs =>
        rw [List.getLast?_cons_cons]
        cases hl : (x :: xs).getLast? with
        | none => simp at hl
        | some v => rfl
    rw [drain_step b (by rw [hst]; decide), hin1, firstLine_renderLine r hr.1,
      afterFirstLine_renderLine r hr.1, lineEnd_renderLine, fieldsOfLine_intercalate r hr.1]
    by_cases hb : r = [[]]
    · subst hb
      rw [storeRecord_blank]
      simp only [ne_eq, not_true_eq_false, if_false]
      have key := ih
        { b with fields_ := [[]], status_ := ScanResult.LINE_SEP,
                 scanner_ := { input_ := renderRecords rs ++ rest } }
        rows rest b.n_children rfl hrs rfl harr rfl
      rw [key, dataRows_cons_blank, hlast, hst]
    · have hlen : b.n_children = r.length := by
        rcases hr.2 with h | h
        · exact absurd h hb
        · exact h.symm
      rw [storeRecord_row b _ r _ rows hb hlen harr]
      simp only [ne_eq, not_true_eq_false, if_false]
      have key := ih
        { b with fields_ := r, status_ := ScanResult.LINE_SEP,
                 scanner_ := { input_ := renderRecords rs ++ rest },
                 array_ := some { length := (rows ++ [r]).length,
                                  children := columnsOf b.n_children (rows ++ [r]) } }
        (rows ++ [r]) rest b.n_children rfl hrs rfl rfl rfl
      rw [key, dataRows_cons_row r hb, hlast, hst]
      simp only [List.append_assoc, List.singleton_append]

theorem drain_at_end (b : SimpleCsvArrayBuilder) (h : b.status_ ≠ ScanResult.DONE)
    (hin : b.scanner_.input_ = []) :
    drain b = some (NANOARROW_OK,
      { b with fields_ := [[]], status_ := ScanResult.DONE, scanner_ := { input_ := [] } }) := by
  rw [drain_step b h, hin]
  have e1 : lineEnd [] = ScanResult.DONE := rfl
  have e2 : fieldsOfLine (firstLine []) = [[]] := rfl
  have e3 : afterFirstLine [] = [] := rfl
  rw [e1, e2, e3, storeRecord_blank]
  simp only [ne_eq, not_true_eq_false, if_false]
  exact drain_of_done _ rfl

theorem columnsOf_nil (header : List (List Char)) :
    (schemaOfHeader header).children.map (fun _ => ([] : List (List Char)))
      = columnsOf header.length [] := by
  apply List.ext_getElem?
  intro j
  simp only [schemaOfHeader, columnsOf, List.getElem?_map, List.map_nil]
  by_cases h : j < header.length
  · simp [List.getElem?_range h, List.getElem?_eq_getElem h]
  · have h1 : header[j]? = none := List.getElem?_eq_none (by omega)
    have h2 : (List.range header.length)[j]? = none := List.getElem?_eq_none (by simp; omega)
    simp [h1, h2]

/-- `GetArray` on a builder that has read the header of a well-formed file and
nothing more. -/
theorem GetArray_after_header (header : List (List Char)) (records : List (List (List Char)))
    (hr : ∀ r ∈ records, RecordOk r ∧ (r = [[]] ∨ r.length = header.length))
    (b : SimpleCsvArrayBuilder) (out : Option ArrowArray)
    (hst : b.status_ = ScanResult.LINE_SEP)
    (hsch : b.schema_ = some (schemaOfHeader header))
    (harr : b.array_ = none)
    (hin : b.scanner_.input_ = renderRecords records) :
    b.GetArray out = some (NANOARROW_OK,
      some { length := (dataRows records).length,
             children := columnsOf header.length (dataRows records) },
      { b with fields_ := [[]], status_ := ScanResult.DONE, scanner_ := { input_ := [] },
               array_ := none }) := by
  have hn : b.n_children = header.length := by
    simp [SimpleCsvArrayBuilder.n_children, hsch, schemaOfHeader]
  have hinit : (withSchema b).InitArrayIfNeeded.2
      = { b with array_ := some { length := ([] : List (List (List Char))).length,
                                  children := columnsOf header.length [] } } := by
    rw [withSchema_of_some b _ hsch]
    simp only [SimpleCsvArrayBuilder.InitArrayIfNeeded, harr, hsch, ArrowArrayInitFromSchema,
      columnsOf_nil, List.length_nil]
  rw [GetArray_eq b out (by rw [hst]; decide), hinit]
  have key := drain_good_records records
    { b with array_ := some { length := ([] : List (List (List Char))).length,
                              children := columnsOf header.length [] } }
    [] [] header.length hn hr hst rfl (by simp [hin])
  rw [key, drain_at_end _ (by simp only [hst]; decide) rfl]
  simp only [Option.map_some', finishPull, ne_eq, not_true_eq_false, if_false, List.nil_append]

theorem withSchema_new_wellformed (header : List (List Char)) (hh : RecordOk header)
    (rest : List Char) (status0 : ScanResult) :
    withSchema (SimpleCsvArrayBuilder.new (renderLine header ++ rest) status0)
      = { status_ := ScanResult.LINE_SEP,
          scanner_ := { input_ := rest },
          fields_ := header,
          last_error_ := ArrowErrorSet "Internal error" [],
          schema_ := some (schemaOfHeader header),
          array_ := none } := by
  simp only [withSchema, SimpleCsvArrayBuilder.new, firstLine_renderLine header hh,
    afterFirstLine_renderLine header hh, lineEnd_renderLine, fieldsOfLine_intercalate header hh]

/-- A first `GetArray` reads the header itself: unless `status_` is `DONE`, it
does what `GetArray` does after a `GetSchema`, whenever the header did not end
the input. -/
theorem GetArray_withSchema (b : SimpleCsvArrayBuilder) (out : Option ArrowArray)
    (h : b.status_ ≠ ScanResult.DONE) (h1 : (withSchema b).status_ ≠ ScanResult.DONE) :
    b.GetArray out = (withSchema b).GetArray out := by
  obtain ⟨schema, hs⟩ := withSchema_schema b
  rw [GetArray_eq b out h, GetArray_eq (withSchema b) out h1,
    withSchema_of_some (withSchema b) schema hs]

/-! ## Schema and rows of a well-formed file -/

/-- C1: for a file made of a header line (at least one field) followed by
newline-terminated records that are blank lines or have the header's number of
fields, `GetSchema` on a fresh builder returns a schema with as many columns as
the header has fields, and the first `GetArray` (after that `GetSchema`, or
straight on the fresh builder unless its `status_` started as `DONE`) succeeds
with an array whose row count is the number of records that are not blank
lines. -/
theorem wellformed_file_schema_arity_and_row_count
    (header : List (List Char)) (records : List (List (List Char)))
    (hh : RecordOk header)
    (hr : ∀ r ∈ records, RecordOk r ∧ (r = [[]] ∨ r.length = header.length))
    (status0 : ScanResult) (outS : Option ArrowSchema) (outA : Option ArrowArray) :
    ∃ (schema : ArrowSchema) (b1 : SimpleCsvArrayBuilder) (array : ArrowArray)
      (b2 : SimpleCsvArrayBuilder),
      (SimpleCsvArrayBuilder.new (renderLine header ++ renderRecords records) status0).GetSchema
          outS = some (NANOARROW_OK, some schema, b1) ∧
      schema.children.length = header.length ∧
      b1.GetArray outA = some (NANOARROW_OK, some array, b2) ∧
      array.length = (dataRows records).length ∧
      (status0 ≠ ScanResult.DONE →
        (SimpleCsvArrayBuilder.new (renderLine header ++ renderRecords records)
          status0).GetArray outA = some (NANOARROW_OK, some array, b2)) := by
  have hw := withSchema_new_wellformed header hh (renderRecords records) status0
  have hg := GetArray_after_header header records hr
    (withSchema (SimpleCsvArrayBuilder.new (renderLine header ++ renderRecords records) status0))
    outA (by rw [hw]) (by rw [hw]) (by rw [hw]) (by rw [hw])
  refine ⟨schemaOfHeader header, _, _, _, ?_, ?_, hg, rfl, ?_⟩
  · rw [GetSchema_eq, hw]
  · simp [schemaOfHeader]
  · intro h0
    rw [GetArray_withSchema _ outA h0 (by rw [hw]; exact fun h => nomatch h)]
    exact hg

/-- C1, on the header `name,age` followed by a row, a blank line and a row. -/
theorem wellformed_file_schema_arity_and_row_count_witness :
    RecordOk ["name".toList, "age".toList] ∧
    (∀ r ∈ [["Alice".toList, "30".toList], [[]], ["Bob".toList, "25".toList]],
      RecordOk r ∧ (r = [[]] ∨ r.length = ["name".toList, "age".toList].length)) ∧
    ∃ (schema : ArrowSchema) (b1 : SimpleCsvArrayBuilder) (array : ArrowArray)
      (b2 : SimpleCsvArrayBuilder),
      (SimpleCsvArrayBuilder.new (renderLine ["name".toList, "age".toList] ++
          renderRecords [["Alice".toList, "30".toList], [[]], ["Bob".toList, "25".toList]])
          ScanResult.UNINITIALIZED).GetSchema none = some (NANOARROW_OK, some schema, b1) ∧
      schema.children.length = ["name".toList, "age".toList].length ∧
      b1.GetArray none = some (NANOARROW_OK, some array, b2) ∧
      array.length
        = (dataRows [["Alice".toList, "30".toList], [[]], ["Bob".toList, "25".toList]]).length ∧
      (ScanResult.UNINITIALIZED ≠ ScanResult.DONE →
        (SimpleCsvArrayBuilder.new (renderLine ["name".toList, "age".toList] ++
          renderRecords [["Alice".toList, "30".toList], [[]], ["Bob".toList, "25".toList]])
          ScanResult.UNINITIALIZED).GetArray none = some (NANOARROW_OK, some array, b2)) :=
  ⟨by unfold RecordOk; decide, by unfold RecordOk; decide,
    wellformed_file_schema_arity_and_row_count ["name".toList, "age".toList]
      [["Alice".toList, "30".toList], [[]], ["Bob".toList, "25".toList]]
      (by unfold RecordOk; decide) (by unfold RecordOk; decide)
      ScanResult.UNINITIALIZED none none⟩

/-! ## The schema of any input -/

theorem c_str_of_no_nul (f : List Char) (h : Char.ofNat 0 ∉ f) : c_str f = f := by
  unfold c_str
  rw [List.takeWhile_eq_self_iff]
  intro c hc
  have : c ≠ Char.ofNat 0 := fun e => h (e ▸ hc)
  simpa using this

/-- C3 as stated fails on the one-line input `a`, NUL, `b`: the first record has
the single field `a\0b`, and the name of the column is `a`. -/
theorem GetSchema_name_stops_at_nul :
    SimpleCsvScanner.ReadLine [] { input_ := ['a', Char.ofNat 0, 'b'] }
      = some (ScanResult.DONE, [['a', Char.ofNat 0, 'b']], { input_ := [] }) ∧
    ((SimpleCsvArrayBuilder.new ['a', Char.ofNat 0, 'b'] ScanResult.UNINITIALIZED).GetSchema
        none).map (fun r => (r.1, r.2.1))
      = some (NANOARROW_OK,
          some { type := ArrowType.NANOARROW_TYPE_STRUCT,
                 children := [{ type := ArrowType.NANOARROW_TYPE_STRING,
                                name := some ['a'] }] }) ∧
    ¬ (∃ (fields : List (List Char)) (schema : ArrowSchema) (r : ScanResult)
        (s : SimpleCsvScanner) (b : SimpleCsvArrayBuilder),
        SimpleCsvScanner.ReadLine [] { input_ := ['a', Char.ofNat 0, 'b'] }
          = some (r, fields, s) ∧
        (SimpleCsvArrayBuilder.new ['a', Char.ofNat 0, 'b'] ScanResult.UNINITIALIZED).GetSchema
          none = some (NANOARROW_OK, some schema, b) ∧
        schema.children.map (fun c => c.name) = fields.map some) := by
  refine ⟨by decide, by decide, ?_⟩
  rintro ⟨fields, schema, r, s, b, h1, h2, h3⟩
  have e1 : SimpleCsvScanner.ReadLine [] { input_ := ['a', Char.ofNat 0, 'b'] }
      = some (ScanResult.DONE, [['a', Char.ofNat 0, 'b']], { input_ := [] }) := by decide
  have e2 : ((SimpleCsvArrayBuilder.new ['a', Char.ofNat 0, 'b']
      ScanResult.UNINITIALIZED).GetSchema none).map (fun r => r.2.1)
      = some (some { type := ArrowType.NANOARROW_TYPE_STRUCT,
                     children := [{ type := ArrowType.NANOARROW_TYPE_STRING,
                                    name := some ['a'] }] }) := by decide
  rw [h1] at e1
  rw [h2] at e2
  simp only [Option.some.injEq, Prod.mk.injEq, Option.map_some'] at e1 e2
  obtain ⟨_, hf, _⟩ := e1
  subst hf
  subst e2
  revert h3
  decide

/-- C3, amended: for every input, `GetSchema` on a fresh builder succeeds and
returns a struct schema with one column per field of the first record of the
input; every column has type string, and the name of column `i` is field `i` of
that record up to its first NUL byte, which is the whole field when the field
holds no NUL byte. -/
theorem GetSchema_schema_of_first_record (input : List Char) (status0 : ScanResult)
    (out : Option ArrowSchema) :
    ∃ (fields : List (List Char)) (r : ScanResult) (s : SimpleCsvScanner)
      (schema : ArrowSchema) (b : SimpleCsvArrayBuilder),
      SimpleCsvScanner.ReadLine [] { input_ := input } = some (r, fields, s) ∧
      (SimpleCsvArrayBuilder.new input status0).GetSchema out
        = some (NANOARROW_OK, some schema, b) ∧
      schema.type = ArrowType.NANOARROW_TYPE_STRUCT ∧
      schema.children.length = fields.length ∧
      (∀ c ∈ schema.children, c.type = ArrowType.NANOARROW_TYPE_STRING) ∧
      schema.children.map (fun c => c.name) = fields.map (fun f => some (c_str f)) ∧
      (∀ f ∈ fields, Char.ofNat 0 ∉ f → c_str f = f) := by
  refine ⟨fieldsOfLine (firstLine input), lineEnd input, { input_ := afterFirstLine input },
    schemaOfHeader (fieldsOfLine (firstLine input)),
    withSchema (SimpleCsvArrayBuilder.new input status0), ?_, ?_, rfl, ?_, ?_, ?_, ?_⟩
  · simpa using scanner_ReadLine_eq [] input
  · rw [GetSchema_eq]
    simp only [withSchema, SimpleCsvArrayBuilder.new]
  · simp [schemaOfHeader]
  · intro c hc
    simp only [schemaOfHeader, List.mem_map] at hc
    obtain ⟨f, _, rfl⟩ := hc
    rfl
  · simp [schemaOfHeader]
  · intro f _ hf
    exact c_str_of_no_nul f hf

/-! ## Sequences of calls -/

/-- What holds of a builder and is kept by storing a record is kept by the drain
loop. -/
theorem loop_invariant (P : SimpleCsvArrayBuilder → Prop)
    (hP : ∀ b status fields scanner, P b → P (storeRecord b status fields scanner).2)
    (fuel : Nat) :
    ∀ (b : SimpleCsvArrayBuilder) (r : Int × SimpleCsvArrayBuilder), P b →
      SimpleCsvArrayBuilder.GetArray.loop fuel b = some r → P r.2 := by
  induction fuel with
  | zero =>
    intro b r hb h
    by_cases hd : b.status_ = ScanResult.DONE
    · rw [loop_of_done 0 b hd] at h
      cases h
      exact hb
    · rw [SimpleCsvArrayBuilder.GetArray.loop] at h
      simp [hd] at h
  | succ fuel ih =>
    intro b r hb h
    by_cases hd : b.status_ = ScanResult.DONE
    · rw [loop_of_done _ b hd] at h
      cases h
      exact hb
    · rw [loop_succ fuel b hd] at h
      split_ifs at h with hrc
      · cases h
        exact hP _ _ _ _ hb
      · exact ih _ r (hP _ _ _ _ hb) h

/-- The drain loop returns `NANOARROW_OK` only with `status_` at `DONE`. -/
theorem loop_ok_done (fuel : Nat) :
    ∀ (b b1 : SimpleCsvArrayBuilder),
      SimpleCsvArrayBuilder.GetArray.loop fuel b = some (NANOARROW_OK, b1) →
      b1.status_ = ScanResult.DONE := by
  induction fuel with
  | zero =>
    intro b b1 h
    by_cases hd : b.status_ = ScanResult.DONE
    · rw [loop_of_done 0 b hd] at h
      cases h
      exact hd
    · rw [SimpleCsvArrayBuilder.GetArray.loop] at h
      simp [hd] at h
  | succ fuel ih =>
    intro b b1 h
    by_cases hd : b.status_ = ScanResult.DONE
    · rw [loop_of_done _ b hd] at h
      cases h
      exact hd
    · rw [loop_succ fuel b hd] at h
      split_ifs at h with hrc
      · rw [Option.some.injEq] at h
        rw [h] at hrc
        exact absurd rfl hrc
      · exact ih _ b1 h

theorem InitArrayIfNeeded_schema (b : SimpleCsvArrayBuilder) :
    b.InitArrayIfNeeded.2.schema_ = b.schema_ := by
  unfold SimpleCsvArrayBuilder.InitArrayIfNeeded
  cases b.array_ with
  | some a => rfl
  | none =>
    cases hs : b.schema_ with
    | none => simp only [hs]
    | some schema => simp only [hs]

theorem GetArray_isSome (b : SimpleCsvArrayBuilder) (out : Option ArrowArray) :
    ∃ r, b.GetArray out = some r := by
  by_cases hd : b.status_ = ScanResult.DONE
  · exact ⟨_, GetArray_of_done b out hd⟩
  · obtain ⟨r, hr⟩ := drain_isSome (withSchema b).InitArrayIfNeeded.2
    exact ⟨finishPull out r, by rw [GetArray_eq b out hd, hr]; rfl⟩

/-- `GetArray` keeps a schema that has been read. -/
theorem GetArray_schema (b : SimpleCsvArrayBuilder) (out : Option ArrowArray)
    (schema : ArrowSchema) (hs : b.schema_ = some schema)
    (r : Int × Option ArrowArray × SimpleCsvArrayBuilder) (h : b.GetArray out = some r) :
    r.2.2.schema_ = some schema := by
  by_cases hd : b.status_ = ScanResult.DONE
  · rw [GetArray_of_done b out hd] at h
    cases h
    exact hs
  · rw [GetArray_eq b out hd, withSchema_of_some b schema hs] at h
    cases hdr : drain b.InitArrayIfNeeded.2 with
    | none => rw [hdr] at h; cases h
    | some r1 =>
      rw [hdr] at h
      simp only [Option.map_some', Option.some.injEq] at h
      have hinv := loop_invariant (fun x => x.schema_ = some schema)
        (fun x st fs sc hx => by
          show (storeRecord x st fs sc).2.schema_ = some schema
          rw [storeRecord_schema]; exact hx)
        _ b.InitArrayIfNeeded.2 r1 (by
          show b.InitArrayIfNeeded.2.schema_ = some schema
          rw [InitArrayIfNeeded_schema]; exact hs) hdr
      rw [← h]
      unfold finishPull
      split_ifs
      · exact hinv
      · exact hinv

/-- C4: once a `GetSchema` has succeeded with a schema, then after any further
calls of `GetSchema` and `GetArray` a `GetSchema` call succeeds with that same
schema and leaves the builder as it is: the read cursor does not move and the
header is not read again. -/
theorem GetSchema_again_same_schema (b0 : SimpleCsvArrayBuilder) (out0 : Option ArrowSchema)
    (schema : ArrowSchema) (b1 : SimpleCsvArrayBuilder)
    (h : b0.GetSchema out0 = some (NANOARROW_OK, some schema, b1)) (calls : List Call) :
    ∃ b2, runCalls calls b1 = some b2 ∧
      ∀ out, b2.GetSchema out = some (NANOARROW_OK, some schema, b2) ∧
        ((b2.GetSchema out).map (fun r => r.2.2.scanner_)) = some b2.scanner_ := by
  have hs1 : b1.schema_ = some schema := by
    rw [GetSchema_eq] at h
    simp only [Option.some.injEq, Prod.mk.injEq, true_and] at h
    rw [← h.2]
    exact h.1
  clear h
  induction calls generalizing b1 with
  | nil =>
    refine ⟨b1, rfl, fun out => ?_⟩
    rw [GetSchema_eq, withSchema_of_some b1 schema hs1, hs1]
    exact ⟨rfl, rfl⟩
  | cons c calls ih =>
    cases c with
    | GetSchema out =>
      have e : b1.GetSchema out = some (NANOARROW_OK, some schema, b1) := by
        rw [GetSchema_eq, withSchema_of_some b1 schema hs1, hs1]
      obtain ⟨b2, h2, h3⟩ := ih b1 hs1
      exact ⟨b2, by simp only [runCalls, e]; exact h2, h3⟩
    | GetArray out =>
      obtain ⟨r, hr⟩ := GetArray_isSome b1 out
      obtain ⟨b2, h2, h3⟩ := ih r.2.2 (GetArray_schema b1 out schema hs1 r hr)
      exact ⟨b2, by simp only [runCalls, hr]; exact h2, h3⟩

/-- C4, on the file `a,b\n1,2\n` with a `GetArray` and a `GetSchema` in
between. -/
theorem GetSchema_again_same_schema_witness :
    (SimpleCsvArrayBuilder.new "a,b\n1,2\n".toList ScanResult.UNINITIALIZED).GetSchema none
      = some (NANOARROW_OK, some (schemaOfHeader ["a".toList, "b".toList]),
          withSchema (SimpleCsvArrayBuilder.new "a,b\n1,2\n".toList ScanResult.UNINITIALIZED)) ∧
    ∃ b2, runCalls [Call.GetArray none, Call.GetSchema none]
        (withSchema (SimpleCsvArrayBuilder.new "a,b\n1,2\n".toList ScanResult.UNINITIALIZED))
        = some b2 ∧
      ∀ out, b2.GetSchema out
          = some (NANOARROW_OK, some (schemaOfHeader ["a".toList, "b".toList]), b2) ∧
        ((b2.GetSchema out).map (fun r => r.2.2.scanner_)) = some b2.scanner_ :=
  ⟨by decide,
    GetSchema_again_same_schema
      (SimpleCsvArrayBuilder.new "a,b\n1,2\n".toList ScanResult.UNINITIALIZED) none
      (schemaOfHeader ["a".toList, "b".toList])
      (withSchema (SimpleCsvArrayBuilder.new "a,b\n1,2\n".toList ScanResult.UNINITIALIZED))
      (by decide) [Call.GetArray none, Call.GetSchema none]⟩

/-- After a `GetArray` that returned an array, `status_` is `DONE` and the
schema has been read. -/
theorem GetArray_array_done (b : SimpleCsvArrayBuilder) (out : Option ArrowArray)
    (array : ArrowArray) (b1 : SimpleCsvArrayBuilder)
    (h : b.GetArray out = some (NANOARROW_OK, some array, b1)) :
    b1.status_ = ScanResult.DONE ∧ ∃ schema, b1.schema_ = some schema := by
  by_cases hd : b.status_ = ScanResult.DONE
  · rw [GetArray_of_done b out hd] at h
    simp at h
  · obtain ⟨schema, hs⟩ := withSchema_schema b
    have hsome : ∃ r, (withSchema b).GetArray out = some r := GetArray_isSome _ _
    rw [GetArray_eq b out hd] at h
    cases hdr : drain (withSchema b).InitArrayIfNeeded.2 with
    | none => rw [hdr] at h; cases h
    | some r1 =>
      obtain ⟨rc, b3⟩ := r1
      rw [hdr] at h
      simp only [Option.map_some', Option.some.injEq, finishPull] at h
      by_cases hrc : rc = NANOARROW_OK
      · subst hrc
        simp only [ne_eq, not_true_eq_false, if_false, Prod.mk.injEq, true_and] at h
        have hdone := loop_ok_done _ _ b3 hdr
        have hinv := loop_invariant (fun x => x.schema_ = some schema)
          (fun x st fs sc hx => by
            show (storeRecord x st fs sc).2.schema_ = some schema
            rw [storeRecord_schema]; exact hx)
          _ (withSchema b).InitArrayIfNeeded.2 (NANOARROW_OK, b3) (by
            show (withSchema b).InitArrayIfNeeded.2.schema_ = some schema
            rw [InitArrayIfNeeded_schema]; exact hs) hdr
        rw [← h.2]
        exact ⟨hdone, schema, hinv⟩
      · simp only [ne_eq, hrc, not_false_eq_true, if_true, Prod.mk.injEq, false_and] at h

/-- With `status_` at `DONE` and the schema read, no call changes the builder. -/
theorem runCalls_done (calls : List Call) (b : SimpleCsvArrayBuilder)
    (hd : b.status_ = ScanResult.DONE) (schema : ArrowSchema) (hs : b.schema_ = some schema) :
    runCalls calls b = some b := by
  induction calls with
  | nil => rfl
  | cons c calls ih =>
    cases c with
    | GetSchema out =>
      have e : b.GetSchema out = some (NANOARROW_OK, some schema, b) := by
        rw [GetSchema_eq, withSchema_of_some b schema hs, hs]
      simp only [runCalls, e]
      exact ih
    | GetArray out =>
      simp only [runCalls, GetArray_of_done b out hd]
      exact ih

/-- C5: once a `GetArray` call has succeeded and returned an array, the builder
is in the done state (`status_ == DONE`), no sequence of later `GetSchema` and
`GetArray` calls leaves that state (the builder does not change at all), and
every later `GetArray` returns `NANOARROW_OK` with a released array. -/
theorem GetArray_after_drain_is_released (b : SimpleCsvArrayBuilder) (out : Option ArrowArray)
    (array : ArrowArray) (b1 : SimpleCsvArrayBuilder)
    (h : b.GetArray out = some (NANOARROW_OK, some array, b1)) (calls : List Call) :
    ∃ b2, runCalls calls b1 = some b2 ∧
      b2.status_ = ScanResult.DONE ∧
      (∀ out2, b2.GetArray out2 = some (NANOARROW_OK, none, b2)) ∧
      (∀ outS, (b2.GetSchema outS).map (fun r => r.2.2.status_) = some ScanResult.DONE) := by
  obtain ⟨hd, schema, hs⟩ := GetArray_array_done b out array b1 h
  refine ⟨b1, runCalls_done calls b1 hd schema hs, hd, fun out2 => GetArray_of_done b1 out2 hd,
    fun outS => ?_⟩
  rw [GetSchema_eq, withSchema_of_some b1 schema hs]
  simp [hd]

/-- C5, on the file `a,b\n1,2\n`: a `GetArray` returns the one-row array, and
after a further `GetArray` and a `GetSchema` the builder is still done. -/
theorem GetArray_after_drain_is_released_witness :
    (SimpleCsvArrayBuilder.new "a,b\n1,2\n".toList ScanResult.UNINITIALIZED).GetArray none
      = some (NANOARROW_OK,
          some { length := 1, children := [["1".toList], ["2".toList]] },
          { status_ := ScanResult.DONE, scanner_ := { input_ := [] }, fields_ := [[]],
            last_error_ := ArrowErrorSet "Internal error" [],
            schema_ := some (schemaOfHeader ["a".toList, "b".toList]), array_ := none }) ∧
    ∃ b2, runCalls [Call.GetArray none, Call.GetSchema none]
        { status_ := ScanResult.DONE, scanner_ := { input_ := [] }, fields_ := [[]],
          last_error_ := ArrowErrorSet "Internal error" [],
          schema_ := some (schemaOfHeader ["a".toList, "b".toList]), array_ := none }
        = some b2 ∧
      b2.status_ = ScanResult.DONE ∧
      (∀ out2, b2.GetArray out2 = some (NANOARROW_OK, none, b2)) ∧
      (∀ outS, (b2.GetSchema outS).map (fun r => r.2.2.status_) = some ScanResult.DONE) :=
  ⟨by decide,
    GetArray_after_drain_is_released
      (SimpleCsvArrayBuilder.new "a,b\n1,2\n".toList ScanResult.UNINITIALIZED) none
      { length := 1, children := [["1".toList], ["2".toList]] }
      { status_ := ScanResult.DONE, scanner_ := { input_ := [] }, fields_ := [[]],
        last_error_ := ArrowErrorSet "Internal error" [],
        schema_ := some (schemaOfHeader ["a".toList, "b".toList]), array_ := none }
      (by decide) [Call.GetArray none, Call.GetSchema none]⟩

/-! ## Shape mismatch -/

theorem ArrowErrorSet_expected (n m : Nat) :
    ArrowErrorSet "Expected %ld fields but found %ld fields" [Int.ofNat n, Int.ofNat m]
      = "Expected " ++ toString n ++ " fields but found " ++ toString m ++ " fields" := by
  apply String.ext
  simp [ArrowErrorSet, formatLd]
  rfl

theorem firstLine_line_tl (line : List Char) (hline : '\n' ∉ line) (tl : List Char)
    (htl : ∀ c ∈ tl.head?, c = '\n') : firstLine (line ++ tl) = line := by
  cases tl with
  | nil => rw [List.append_nil]; exact firstLine_last line hline
  | cons c rest =>
    have hc : c = '\n' := htl c (by simp)
    rw [hc]
    exact firstLine_line line hline rest

/-- `GetArray` on a builder that has read the header and nothing more, when the
input goes on with well-formed records of the header's arity and then `rest`:
the drain loop reaches `rest` with the rows of those records stored. -/
theorem GetArray_after_header_prefix (header : List (List Char))
    (records : List (List (List Char)))
    (hr : ∀ r ∈ records, RecordOk r ∧ (r = [[]] ∨ r.length = header.length))
    (rest : List Char) (b : SimpleCsvArrayBuilder) (out : Option ArrowArray)
    (hst : b.status_ = ScanResult.LINE_SEP)
    (hsch : b.schema_ = some (schemaOfHeader header))
    (harr : b.array_ = none)
    (hin : b.scanner_.input_ = renderRecords records ++ rest) :
    b.GetArray out = (drain
      { b with fields_ := records.getLast?.getD b.fields_,
               scanner_ := { input_ := rest },
               array_ := some { length := (dataRows records).length,
                                children := columnsOf header.length (dataRows records) } }).map
      (finishPull out) := by
  have hn : b.n_children = header.length := by
    simp [SimpleCsvArrayBuilder.n_children, hsch, schemaOfHeader]
  have hinit : (withSchema b).InitArrayIfNeeded.2
      = { b with array_ := some { length := ([] : List (List (List Char))).length,
                                  children := columnsOf header.length [] } } := by
    rw [withSchema_of_some b _ hsch]
    simp only [SimpleCsvArrayBuilder.InitArrayIfNeeded, harr, hsch, ArrowArrayInitFromSchema,
      columnsOf_nil, List.length_nil]
  rw [GetArray_eq b out (by rw [hst]; decide), hinit]
  have key := drain_good_records records
    { b with array_ := some { length := ([] : List (List (List Char))).length,
                              children := columnsOf header.length [] } }
    [] rest header.length hn hr hst rfl hin
  rw [key]
  simp only [List.nil_append]

/-- C6: when, after the header and after records that are blank lines or have
the header's number of fields, the input holds a record that is not a blank line
and has another number of fields, `GetArray` (straight on a fresh builder whose
`status_` did not start as `DONE`, or after a `GetSchema`) returns `EINVAL`,
leaves `*out` as it was, and the last error reads
`Expected N fields but found M fields`, with `N` the number of header fields and
`M` the number of fields of that record. -/
theorem GetArray_shape_mismatch_fails
    (header : List (List Char)) (records : List (List (List Char)))
    (bad : List (List Char)) (tl : List Char)
    (hh : RecordOk header)
    (hr : ∀ r ∈ records, RecordOk r ∧ (r = [[]] ∨ r.length = header.length))
    (hbad : RecordOk bad) (hnb : bad ≠ [[]]) (hlen : bad.length ≠ header.length)
    (htl : ∀ c ∈ tl.head?, c = '\n')
    (status0 : ScanResult) (outS : Option ArrowSchema) (out : Option ArrowArray) :
    ∃ b1 b2 : SimpleCsvArrayBuilder,
      ((SimpleCsvArrayBuilder.new
          (renderLine header ++ (renderRecords records ++ (List.intercalate [','] bad ++ tl)))
          status0).GetSchema outS).map (fun r => r.2.2) = some b1 ∧
      b1.GetArray out = some (EINVAL, out, b2) ∧
      (status0 ≠ ScanResult.DONE →
        (SimpleCsvArrayBuilder.new
          (renderLine header ++ (renderRecords records ++ (List.intercalate [','] bad ++ tl)))
          status0).GetArray out = some (EINVAL, out, b2)) ∧
      b2.GetLastError
        = "Expected " ++ toString header.length ++ " fields but found "
            ++ toString bad.length ++ " fields" := by
  have hw := withSchema_new_wellformed header hh
    (renderRecords records ++ (List.intercalate [','] bad ++ tl)) status0
  have hg := GetArray_after_header_prefix header records hr (List.intercalate [','] bad ++ tl)
    (withSchema (SimpleCsvArrayBuilder.new
      (renderLine header ++ (renderRecords records ++ (List.intercalate [','] bad ++ tl)))
      status0))
    out (by rw [hw]) (by rw [hw]) (by rw [hw]) (by rw [hw])
  rw [drain_step _ (by rw [hw]; exact fun h => nomatch h)] at hg
  simp only at hg
  rw [firstLine_line_tl _ (newline_not_mem_intercalate bad hbad) tl htl,
    fieldsOfLine_intercalate bad hbad,
    storeRecord_mismatch _ _ bad _ hnb (by
      rw [hw]
      simp only [SimpleCsvArrayBuilder.n_children, schemaOfHeader, List.length_map]
      exact fun h => hlen h.symm)] at hg
  have hne : EINVAL ≠ NANOARROW_OK := by decide
  simp only [ne_eq, hne, not_false_eq_true, if_true, Option.map_some', finishPull] at hg
  refine ⟨_, _, ?_, hg, ?_, ?_⟩
  · rw [GetSchema_eq]; rfl
  · intro h0
    rw [GetArray_withSchema _ out h0 (by rw [hw]; exact fun h => nomatch h)]
    exact hg
  · simp only [SimpleCsvArrayBuilder.GetLastError]
    rw [hw]
    simp only [SimpleCsvArrayBuilder.n_children, schemaOfHeader, List.length_map]
    exact ArrowErrorSet_expected header.length bad.length

/-- C6, on the file `a,b\n1,2\n3\n4,5\n`: the record `3` has one field. -/
theorem GetArray_shape_mismatch_fails_witness :
    RecordOk ["a".toList, "b".toList] ∧
    (∀ r ∈ [["1".toList, "2".toList]],
      RecordOk r ∧ (r = [[]] ∨ r.length = ["a".toList, "b".toList].length)) ∧
    RecordOk ["3".toList] ∧ ["3".toList] ≠ [[]] ∧
    ["3".toList].length ≠ ["a".toList, "b".toList].length ∧
    (∀ c ∈ "\n4,5\n".toList.head?, c = '\n') ∧
    renderLine ["a".toList, "b".toList] ++ (renderRecords [["1".toList, "2".toList]] ++
        (List.intercalate [','] ["3".toList] ++ "\n4,5\n".toList))
      = "a,b\n1,2\n3\n4,5\n".toList ∧
    "Expected " ++ toString ["a".toList, "b".toList].length ++ " fields but found "
        ++ toString ["3".toList].length ++ " fields"
      = "Expected 2 fields but found 1 fields" ∧
    ∃ b1 b2 : SimpleCsvArrayBuilder,
      ((SimpleCsvArrayBuilder.new
          (renderLine ["a".toList, "b".toList] ++ (renderRecords [["1".toList, "2".toList]] ++
            (List.intercalate [','] ["3".toList] ++ "\n4,5\n".toList)))
          ScanResult.UNINITIALIZED).GetSchema none).map (fun r => r.2.2) = some b1 ∧
      b1.GetArray none = some (EINVAL, none, b2) ∧
      (ScanResult.UNINITIALIZED ≠ ScanResult.DONE →
        (SimpleCsvArrayBuilder.new
          (renderLine ["a".toList, "b".toList] ++ (renderRecords [["1".toList, "2".toList]] ++
            (List.intercalate [','] ["3".toList] ++ "\n4,5\n".toList)))
          ScanResult.UNINITIALIZED).GetArray none = some (EINVAL, none, b2)) ∧
      b2.GetLastError
        = "Expected " ++ toString ["a".toList, "b".toList].length ++ " fields but found "
            ++ toString ["3".toList].length ++ " fields" :=
  ⟨by unfold RecordOk; decide, by unfold RecordOk; decide, by unfold RecordOk; decide,
    by decide, by decide, by decide, by decide, by decide,
    GetArray_shape_mismatch_fails ["a".toList, "b".toList] [["1".toList, "2".toList]]
      ["3".toList] "\n4,5\n".toList
      (by unfold RecordOk; decide) (by unfold RecordOk; decide) (by unfold RecordOk; decide)
      (by decide) (by decide) (by decide) ScanResult.UNINITIALIZED none none⟩

/-! ## The buffer after a failed pull -/

theorem ColumnsExtend_refl (c : List (List (List Char))) : ColumnsExtend c c := by
  refine ⟨rfl, fun i x y hx hy => ?_⟩
  rw [hx] at hy
  cases hy
  exact List.prefix_refl x

theorem ColumnsExtend_trans (c0 c1 c2 : List (List (List Char)))
    (h01 : ColumnsExtend c0 c1) (h12 : ColumnsExtend c1 c2) : ColumnsExtend c0 c2 := by
  refine ⟨h01.1.trans h12.1, fun i x z hx hz => ?_⟩
  have hi : i < c0.length := by
    by_contra hlt
    rw [List.getElem?_eq_none (by omega)] at hx
    cases hx
  have hi1 : i < c1.length := by rw [← h01.1]; exact hi
  have hy : c1[i]? = some c1[i] := List.getElem?_eq_getElem hi1
  exact (h01.2 i x _ hx hy).trans (h12.2 i _ z hy hz)

theorem ColumnsExtend_appendString (fields : List (List Char)) (n : Nat) (array : ArrowArray) :
    ColumnsExtend array.children
      ((List.range n).foldl (fun a i => ArrowArrayAppendString a i (fields.getD i []))
        array).children := by
  rw [foldl_appendString_children]
  unfold ColumnsExtend
  refine ⟨?_, ?_⟩
  · have hlen : ∀ (is : List Nat) (l : List (List (List Char))),
        (is.foldl (fun acc i => updateAt (fun col => col ++ [fields.getD i []]) i acc) l).length
          = l.length := by
      intro is
      induction is with
      | nil => intro l; rfl
      | cons i is ih => intro l; simp only [List.foldl_cons]; rw [ih, length_updateAt]
    exact (hlen _ _).symm
  · intro i x y hx hy
    rw [getElem?_foldl_updateAt (fun i col => col ++ [fields.getD i []])] at hy
    rw [hx] at hy
    split_ifs at hy
    · simp only [Option.map_some', Option.some.injEq] at hy
      rw [← hy]
      exact List.prefix_append x _
    · cases hy
      exact List.prefix_refl x

/-- Storing a record keeps the array under construction, with every column
extended at most. -/
theorem storeRecord_array (b : SimpleCsvArrayBuilder) (status : ScanResult)
    (fields : List (List Char)) (scanner : SimpleCsvScanner) (a : ArrowArray)
    (h : b.array_ = some a) :
    ∃ a1, (storeRecord b status fields scanner).2.array_ = some a1 ∧
      ColumnsExtend a.children a1.children := by
  simp only [storeRecord]
  split_ifs
  · exact ⟨a, h, ColumnsExtend_refl _⟩
  · exact ⟨a, h, ColumnsExtend_refl _⟩
  · simp only [h]
    refine ⟨_, rfl, ?_⟩
    have e := ColumnsExtend_appendString fields
      ({ b with fields_ := fields, status_ := status, scanner_ := scanner } :
        SimpleCsvArrayBuilder).n_children a
    unfold ArrowArrayFinishElement
    split_ifs
    · exact e
    · exact e

theorem loop_array (kept : ArrowArray) (fuel : Nat) (b : SimpleCsvArrayBuilder)
    (r : Int × SimpleCsvArrayBuilder)
    (hb : ∃ a, b.array_ = some a ∧ ColumnsExtend kept.children a.children)
    (h : SimpleCsvArrayBuilder.GetArray.loop fuel b = some r) :
    ∃ a, r.2.array_ = some a ∧ ColumnsExtend kept.children a.children := by
  refine loop_invariant
    (fun x => ∃ a, x.array_ = some a ∧ ColumnsExtend kept.children a.children)
    ?_ fuel b r hb h
  intro x st fs sc hx
  obtain ⟨a, ha, hext⟩ := hx
  obtain ⟨a1, ha1, hext1⟩ := storeRecord_array x st fs sc a ha
  exact ⟨a1, ha1, ColumnsExtend_trans _ _ _ hext hext1⟩

theorem InitArrayIfNeeded_array (b : SimpleCsvArrayBuilder) (schema : ArrowSchema)
    (hs : b.schema_ = some schema) :
    ∃ a, b.InitArrayIfNeeded.2.array_ = some a ∧
      ∀ a0, b.array_ = some a0 → b.InitArrayIfNeeded.2 = b := by
  unfold SimpleCsvArrayBuilder.InitArrayIfNeeded
  cases ha : b.array_ with
  | some a => exact ⟨a, by simp only [ha], fun a0 _ => rfl⟩
  | none =>
    simp only [hs]
    exact ⟨_, rfl, fun a0 h0 => by cases h0⟩

/-- After a failed `GetArray`: `*out` is as before, the schema has been read, and
the builder still holds an array under construction. -/
theorem GetArray_failed_state (b : SimpleCsvArrayBuilder) (out : Option ArrowArray)
    (rc : Int) (out1 : Option ArrowArray) (b1 : SimpleCsvArrayBuilder)
    (h : b.GetArray out = some (rc, out1, b1)) (hrc : rc ≠ NANOARROW_OK) :
    out1 = out ∧ (∃ schema, b1.schema_ = some schema) ∧ (∃ kept, b1.array_ = some kept) ∧
      (∀ a0, b.array_ = some a0 → (∃ schema, b.schema_ = some schema) →
        ∃ kept, b1.array_ = some kept ∧ ColumnsExtend a0.children kept.children) := by
  by_cases hd : b.status_ = ScanResult.DONE
  · rw [GetArray_of_done b out hd] at h
    simp only [Option.some.injEq, Prod.mk.injEq] at h
    exact absurd h.1.symm hrc
  · obtain ⟨schema, hs⟩ := withSchema_schema b
    obtain ⟨a, ha, hsame⟩ := InitArrayIfNeeded_array (withSchema b) schema hs
    rw [GetArray_eq b out hd] at h
    cases hdr : drain (withSchema b).InitArrayIfNeeded.2 with
    | none => rw [hdr] at h; cases h
    | some r1 =>
      obtain ⟨rc1, b3⟩ := r1
      rw [hdr] at h
      simp only [Option.map_some', Option.some.injEq, finishPull] at h
      have hinv := loop_invariant (fun x => x.schema_ = some schema)
        (fun x st fs sc hx => by
          show (storeRecord x st fs sc).2.schema_ = some schema
          rw [storeRecord_schema]; exact hx)
        _ (withSchema b).InitArrayIfNeeded.2 (rc1, b3) (by
          show (withSchema b).InitArrayIfNeeded.2.schema_ = some schema
          rw [InitArrayIfNeeded_schema]; exact hs) hdr
      have harr := loop_array a _ (withSchema b).InitArrayIfNeeded.2 (rc1, b3)
        ⟨a, ha, ColumnsExtend_refl _⟩ hdr
      by_cases hrc1 : rc1 = NANOARROW_OK
      · subst hrc1
        simp only [ne_eq, not_true_eq_false, if_false, Prod.mk.injEq] at h
        exact absurd h.1.symm hrc
      · simp only [ne_eq, hrc1, not_false_eq_true, if_true, Prod.mk.injEq] at h
        obtain ⟨_, h2, h3⟩ := h
        subst h2
        subst h3
        refine ⟨rfl, ⟨schema, hinv⟩, ?_, ?_⟩
        · obtain ⟨k, hk, _⟩ := harr
          exact ⟨k, hk⟩
        · intro a0 ha0 hsch
          obtain ⟨schema0, hs0⟩ := hsch
          have hw := withSchema_of_some b schema0 hs0
          rw [hw] at ha hsame
          rw [hsame a0 ha0] at ha
          rw [ha0] at ha
          cases ha
          exact harr

/-- C7 as stated fails on the file `a,b\n1,2\n3\n4,5\n`: the first `GetArray`
fails on the record `3` after appending the row `(1, 2)`, which stays in the
builder, and the second `GetArray` returns an array that holds that row,
followed by `(4, 5)`. -/
theorem GetArray_after_failure_returns_earlier_rows :
    (SimpleCsvArrayBuilder.new "a,b\n1,2\n3\n4,5\n".toList ScanResult.UNINITIALIZED).GetArray
        none = some (EINVAL, none, failedPullExample) ∧
    failedPullExample.array_
      = some { length := 1, children := [["1".toList], ["2".toList]] } ∧
    (failedPullExample.GetArray none).map (fun r => (r.1, r.2.1))
      = some (NANOARROW_OK,
          some { length := 2,
                 children := [["1".toList, "4".toList], ["2".toList, "5".toList]] }) := by
  refine ⟨?_, ?_, ?_⟩
  · decide
  · decide
  · decide

/-! ## Blank lines -/

theorem storeRecord_other_scanner (b : SimpleCsvArrayBuilder) (status : ScanResult)
    (fields : List (List Char)) (scanner scanner1 : SimpleCsvScanner) :
    storeRecord b status fields scanner1
      = ((storeRecord b status fields scanner).1,
          { (storeRecord b status fields scanner).2 with scanner_ := scanner1 }) := by
  simp only [storeRecord, SimpleCsvArrayBuilder.n_children]
  split_ifs <;> first | rfl | (split <;> rfl)

theorem line_decomp (input : List Char) (h : '\n' ∈ input) :
    input = firstLine input ++ '\n' :: afterFirstLine input := by
  induction input with
  | nil => simp at h
  | cons x xs ih =>
    by_cases hx : x = '\n'
    · subst hx
      rw [firstLine_cons_newline, afterFirstLine_cons_newline]
      rfl
    · have hxs : '\n' ∈ xs := by
        rcases List.mem_cons.mp h with h | h
        · exact absurd h.symm hx
        · exact h
      rw [firstLine_cons_ne x hx, afterFirstLine_cons_ne x hx, List.cons_append, ← ih hxs]

theorem firstLine_append (input : List Char) (h : '\n' ∈ input) (s : List Char) :
    firstLine (input ++ s) = firstLine input := by
  have e := line_decomp input h
  have e1 : input ++ s = firstLine input ++ '\n' :: (afterFirstLine input ++ s) := by
    conv_lhs => rw [e]
    simp
  rw [e1, firstLine_line _ (newline_not_mem_firstLine input)]

theorem afterFirstLine_append (input : List Char) (h : '\n' ∈ input) (s : List Char) :
    afterFirstLine (input ++ s) = afterFirstLine input ++ s := by
  have e := line_decomp input h
  have e1 : input ++ s = firstLine input ++ '\n' :: (afterFirstLine input ++ s) := by
    conv_lhs => rw [e]
    simp
  rw [e1, afterFirstLine_line _ (newline_not_mem_firstLine input)]

theorem lineEnd_append (input : List Char) (h : '\n' ∈ input) (s : List Char) :
    lineEnd (input ++ s) = ScanResult.LINE_SEP := by
  simp [lineEnd, h]

theorem length_afterFirstLine_lt (input : List Char) (h : input ≠ []) :
    (afterFirstLine input).length < input.length := by
  induction input with
  | nil => exact absurd rfl h
  | cons x xs ih =>
    by_cases hx : x = '\n'
    · subst hx
      rw [afterFirstLine_cons_newline]
      simp
    · rw [afterFirstLine_cons_ne x hx]
      cases xs with
      | nil => simp [afterFirstLine]
      | cons y ys =>
        have := ih (by simp)
        simp only [List.length_cons] at this ⊢
        omega

theorem afterFirstLine_snoc (p : List Char) :
    afterFirstLine (p ++ ['\n']) = [] ∨ ∃ q, afterFirstLine (p ++ ['\n']) = q ++ ['\n'] := by
  induction p with
  | nil => left; rfl
  | cons c p ih =>
    by_cases hc : c = '\n'
    · subst hc
      right
      exact ⟨p, by rw [List.cons_append, afterFirstLine_cons_newline]⟩
    · rw [List.cons_append, afterFirstLine_cons_ne c hc]
      exact ih

theorem drain_fields_irrel (b : SimpleCsvArrayBuilder) (h : b.status_ ≠ ScanResult.DONE)
    (fields : List (List Char)) : drain { b with fields_ := fields } = drain b := by
  rw [drain_step b h, drain_step { b with fields_ := fields } h]
  rfl

/-- An empty line at the head of the input is skipped by the drain loop. -/
theorem drain_blank_first (b : SimpleCsvArrayBuilder) (post : List Char)
    (hst : b.status_ = ScanResult.LINE_SEP) :
    drain { b with scanner_ := { input_ := '\n' :: post } }
      = drain { b with scanner_ := { input_ := post } } := by
  obtain ⟨st, sc, fs, le, sch, arr⟩ := b
  simp only at hst
  subst hst
  have hne : ScanResult.LINE_SEP ≠ ScanResult.DONE := fun h => nomatch h
  rw [drain_step _ hne]
  simp only [firstLine_cons_newline, afterFirstLine_cons_newline]
  have e1 : fieldsOfLine [] = [[]] := rfl
  have e2 : lineEnd ('\n' :: post) = ScanResult.LINE_SEP := by simp [lineEnd]
  rw [e1, e2, storeRecord_blank]
  simp only [ne_eq, not_true_eq_false, if_false]
  exact drain_fields_irrel
    { status_ := ScanResult.LINE_SEP, scanner_ := { input_ := post }, fields_ := fs,
      last_error_ := le, schema_ := sch, array_ := arr } hne [[]]

/-- The drain loop over a common run of whole lines `common`, followed in one
input by an extra empty line: the results agree. -/
theorem drain_insert_blank (n : Nat) :
    ∀ (common : List Char), common.length ≤ n →
      (common = [] ∨ ∃ p, common = p ++ ['\n']) →
      ∀ (b : SimpleCsvArrayBuilder) (post : List Char), b.status_ = ScanResult.LINE_SEP →
        drainResult (drain { b with scanner_ := { input_ := common ++ '\n' :: post } })
          = drainResult (drain { b with scanner_ := { input_ := common ++ post } }) := by
  induction n with
  | zero =>
    intro common hlen _ b post hst
    have hc : common = [] := List.length_eq_zero.mp (Nat.le_zero.mp hlen)
    subst hc
    simp only [List.nil_append]
    rw [drain_blank_first b post hst]
  | succ n ih =>
    intro common hlen hshape b post hst
    have hne : b.status_ ≠ ScanResult.DONE := by rw [hst]; exact fun h => nomatch h
    rcases hshape with hc | ⟨p, hp⟩
    · exact ih common (by rw [hc]; simp) (Or.inl hc) b post hst
    · have hmem : '\n' ∈ common := by rw [hp]; simp
      have hcne : common ≠ [] := by rw [hp]; simp
      have hlt := length_afterFirstLine_lt common hcne
      have hshape1 : afterFirstLine common = [] ∨ ∃ q, afterFirstLine common = q ++ ['\n'] := by
        rw [hp]; exact afterFirstLine_snoc p
      rw [drain_step { b with scanner_ := { input_ := common ++ '\n' :: post } } hne,
        drain_step { b with scanner_ := { input_ := common ++ post } } hne]
      simp only [firstLine_append common hmem, afterFirstLine_append common hmem,
        lineEnd_append common hmem]
      have h1 : storeRecord { b with scanner_ := { input_ := common ++ '\n' :: post } }
          ScanResult.LINE_SEP (fieldsOfLine (firstLine common))
          { input_ := afterFirstLine common ++ '\n' :: post }
          = ((storeRecord b ScanResult.LINE_SEP (fieldsOfLine (firstLine common))
                { input_ := [] }).1,
             { (storeRecord b ScanResult.LINE_SEP (fieldsOfLine (firstLine common))
                { input_ := [] }).2 with
               scanner_ := { input_ := afterFirstLine common ++ '\n' :: post } }) :=
        storeRecord_other_scanner b _ _ { input_ := [] } _
      have h2 : storeRecord { b with scanner_ := { input_ := common ++ post } }
          ScanResult.LINE_SEP (fieldsOfLine (firstLine common))
          { input_ := afterFirstLine common ++ post }
          = ((storeRecord b ScanResult.LINE_SEP (fieldsOfLine (firstLine common))
                { input_ := [] }).1,
             { (storeRecord b ScanResult.LINE_SEP (fieldsOfLine (firstLine common))
                { input_ := [] }).2 with
               scanner_ := { input_ := afterFirstLine common ++ post } }) :=
        storeRecord_other_scanner b _ _ { input_ := [] } _
      rw [h1, h2]
      simp only
      split_ifs with hrc
      · rfl
      · exact ih (afterFirstLine common) (by omega) hshape1 _ post (storeRecord_status _ _ _ _)

theorem pullResult_finishPull (out : Option ArrowArray)
    (d : Option (Int × SimpleCsvArrayBuilder)) :
    pullResult (d.map (finishPull out))
      = (drainResult d).map (fun x =>
          if x.1 ≠ NANOARROW_OK then (x.1, out, x.2.2) else (NANOARROW_OK, x.2.1, x.2.2)) := by
  cases d with
  | none => rfl
  | some r =>
    simp only [pullResult, drainResult, Option.map_some', finishPull,
      SimpleCsvArrayBuilder.GetLastError]
    split_ifs <;> rfl

/-- The builder on which the drain loop starts, for a file whose header line is
complete: it depends on the rest of the file through the scanner only. -/
theorem prepared_of_header (common s : List Char) (h : '\n' ∈ common) (status0 : ScanResult) :
    (withSchema (SimpleCsvArrayBuilder.new (common ++ s) status0)).InitArrayIfNeeded.2
      = { ({ status_ := ScanResult.LINE_SEP,
             scanner_ := { input_ := [] },
             fields_ := fieldsOfLine (firstLine common),
             last_error_ := ArrowErrorSet "Internal error" [],
             schema_ := some (schemaOfHeader (fieldsOfLine (firstLine common))),
             array_ := some (ArrowArrayInitFromSchema
               (schemaOfHeader (fieldsOfLine (firstLine common)))) } :
            SimpleCsvArrayBuilder) with
          scanner_ := { input_ := afterFirstLine common ++ s } } := by
  simp only [withSchema, SimpleCsvArrayBuilder.new, firstLine_append common h,
    afterFirstLine_append common h, lineEnd_append common h,
    SimpleCsvArrayBuilder.InitArrayIfNeeded]

theorem withSchema_status_of_header (common s : List Char) (h : '\n' ∈ common)
    (status0 : ScanResult) :
    (withSchema (SimpleCsvArrayBuilder.new (common ++ s) status0)).status_
      = ScanResult.LINE_SEP := by
  simp only [withSchema, SimpleCsvArrayBuilder.new, lineEnd_append common h]

theorem drain_prepared_insert (pre post : List Char) (status0 : ScanResult) :
    drainResult (drain (withSchema (SimpleCsvArrayBuilder.new
        ((pre ++ ['\n']) ++ '\n' :: post) status0)).InitArrayIfNeeded.2)
      = drainResult (drain (withSchema (SimpleCsvArrayBuilder.new
        ((pre ++ ['\n']) ++ post) status0)).InitArrayIfNeeded.2) := by
  have hmem : '\n' ∈ pre ++ ['\n'] := by simp
  rw [prepared_of_header _ _ hmem, prepared_of_header _ _ hmem]
  exact drain_insert_blank _ (afterFirstLine (pre ++ ['\n'])) (Nat.le_refl _)
    (afterFirstLine_snoc pre) _ post rfl

/-- `GetArray` right after `GetSchema`, when the header did not end the input. -/
theorem GetSchema_then_GetArray (b : SimpleCsvArrayBuilder) (outS : Option ArrowSchema)
    (out : Option ArrowArray) (h : (withSchema b).status_ ≠ ScanResult.DONE) :
    (b.GetSchema outS).bind (fun r => r.2.2.GetArray out)
      = (drain (withSchema b).InitArrayIfNeeded.2).map (finishPull out) := by
  obtain ⟨schema, hs⟩ := withSchema_schema b
  rw [GetSchema_eq]
  simp only [Option.some_bind]
  rw [GetArray_eq _ out h, withSchema_of_some (withSchema b) schema hs]

/-- One empty line more, right after a newline: the first `GetArray` gives the
same. -/
theorem GetArray_insert_one (pre post : List Char) (status0 : ScanResult)
    (outS : Option ArrowSchema) (out : Option ArrowArray) :
    pullResult ((SimpleCsvArrayBuilder.new (pre ++ '\n' :: '\n' :: post) status0).GetArray out)
      = pullResult ((SimpleCsvArrayBuilder.new (pre ++ '\n' :: post) status0).GetArray out) ∧
    pullResult (((SimpleCsvArrayBuilder.new (pre ++ '\n' :: '\n' :: post) status0).GetSchema
        outS).bind (fun r => r.2.2.GetArray out))
      = pullResult (((SimpleCsvArrayBuilder.new (pre ++ '\n' :: post) status0).GetSchema
        outS).bind (fun r => r.2.2.GetArray out)) := by
  have e1 : pre ++ '\n' :: '\n' :: post = (pre ++ ['\n']) ++ '\n' :: post := by simp
  have e2 : pre ++ '\n' :: post = (pre ++ ['\n']) ++ post := by simp
  have hmem : '\n' ∈ pre ++ ['\n'] := by simp
  have hne : ScanResult.LINE_SEP ≠ ScanResult.DONE := fun h => nomatch h
  rw [e1, e2]
  constructor
  · by_cases h0 : status0 = ScanResult.DONE
    · rw [GetArray_of_done _ out (by simp only [SimpleCsvArrayBuilder.new]; exact h0),
        GetArray_of_done _ out (by simp only [SimpleCsvArrayBuilder.new]; exact h0)]
      rfl
    · rw [GetArray_eq _ out (by simp only [SimpleCsvArrayBuilder.new]; exact h0),
        GetArray_eq _ out (by simp only [SimpleCsvArrayBuilder.new]; exact h0),
        pullResult_finishPull, pullResult_finishPull, drain_prepared_insert]
  · rw [GetSchema_then_GetArray _ outS out
        (by rw [withSchema_status_of_header _ _ hmem]; exact hne),
      GetSchema_then_GetArray _ outS out
        (by rw [withSchema_status_of_header _ _ hmem]; exact hne),
      pullResult_finishPull, pullResult_finishPull, drain_prepared_insert]

/-- C8: inserting any number of empty lines (lone newlines) after the header
line, each right after a newline of the input, leaves the result of the first
`GetArray` unchanged: the same return code, the same array in `*out` (the same
rows in the same order) and the same last error, whatever the number of header
fields, both for a `GetArray` on the fresh builder and for a `GetArray` that
follows a `GetSchema`. -/
theorem GetArray_ignores_blank_lines (input input1 : List Char)
    (h : InsertBlankLines input input1) (status0 : ScanResult)
    (outS : Option ArrowSchema) (out : Option ArrowArray) :
    pullResult ((SimpleCsvArrayBuilder.new input1 status0).GetArray out)
      = pullResult ((SimpleCsvArrayBuilder.new input status0).GetArray out) ∧
    pullResult (((SimpleCsvArrayBuilder.new input1 status0).GetSchema outS).bind
        (fun r => r.2.2.GetArray out))
      = pullResult (((SimpleCsvArrayBuilder.new input status0).GetSchema outS).bind
        (fun r => r.2.2.GetArray out)) := by
  induction h with
  | refl => exact ⟨rfl, rfl⟩
  | insert pre post _ ih =>
    have e := GetArray_insert_one pre post status0 outS out
    exact ⟨e.1.trans ih.1, e.2.trans ih.2⟩

/-- C8, on header `a,b` with rows `1,2`, an inserted empty line, `3,4`: the
array has the two rows `(1, 2)` and `(3, 4)`. -/
theorem GetArray_ignores_blank_lines_witness :
    InsertBlankLines "a,b\n1,2\n3,4\n".toList "a,b\n1,2\n\n3,4\n".toList ∧
    pullResult ((SimpleCsvArrayBuilder.new "a,b\n1,2\n3,4\n".toList
        ScanResult.UNINITIALIZED).GetArray none)
      = some (NANOARROW_OK,
          some { length := 2,
                 children := [["1".toList, "3".toList], ["2".toList, "4".toList]] },
          "Internal error") ∧
    (pullResult ((SimpleCsvArrayBuilder.new "a,b\n1,2\n\n3,4\n".toList
        ScanResult.UNINITIALIZED).GetArray none)
      = pullResult ((SimpleCsvArrayBuilder.new "a,b\n1,2\n3,4\n".toList
        ScanResult.UNINITIALIZED).GetArray none) ∧
    pullResult (((SimpleCsvArrayBuilder.new "a,b\n1,2\n\n3,4\n".toList
        ScanResult.UNINITIALIZED).GetSchema none).bind (fun r => r.2.2.GetArray none))
      = pullResult (((SimpleCsvArrayBuilder.new "a,b\n1,2\n3,4\n".toList
        ScanResult.UNINITIALIZED).GetSchema none).bind (fun r => r.2.2.GetArray none))) :=
  ⟨InsertBlankLines.insert _ "a,b\n1,2".toList "3,4\n".toList (InsertBlankLines.refl _),
    by decide,
    GetArray_ignores_blank_lines "a,b\n1,2\n3,4\n".toList "a,b\n1,2\n\n3,4\n".toList
      (InsertBlankLines.insert _ "a,b\n1,2".toList "3,4\n".toList (InsertBlankLines.refl _))
      ScanResult.UNINITIALIZED none none⟩

/-! ## End of input -/

/-- C11: at the end of the input with no byte left (an empty file included), the
scanner's `ReadLine` appends exactly one field, the empty string, and returns
`DONE`; and on every input the record that `ReadLine` appends has at least one
field. -/
theorem scanner_ReadLine_at_end_of_input :
    (∀ values : List (List Char),
      SimpleCsvScanner.ReadLine values { input_ := [] }
        = some (ScanResult.DONE, values ++ [[]], { input_ := [] })) ∧
    (∀ (values : List (List Char)) (input : List Char),
      ∃ (r : ScanResult) (fs : List (List Char)) (s : SimpleCsvScanner),
        SimpleCsvScanner.ReadLine values { input_ := input } = some (r, values ++ fs, s) ∧
        1 ≤ fs.length) := by
  constructor
  · intro values
    rw [scanner_ReadLine_eq]
    rfl
  · intro values input
    refine ⟨_, _, _, scanner_ReadLine_eq values input, ?_⟩
    have h := splitCommaAcc_ne_nil [] (firstLine input)
    cases hf : fieldsOfLine (firstLine input) with
    | nil => exact absurd hf h
    | cons f fs => simp

/-- C16: on an empty input, `GetSchema` on a fresh builder does not fail: it
returns `NANOARROW_OK` with a schema of one string column whose name is the empty
string, and the builder's `status_` becomes `DONE`. -/
theorem GetSchema_empty_input (status0 : ScanResult) (out : Option ArrowSchema) :
    ∃ b : SimpleCsvArrayBuilder,
      (SimpleCsvArrayBuilder.new [] status0).GetSchema out
        = some (NANOARROW_OK,
            some { type := ArrowType.NANOARROW_TYPE_STRUCT,
                   children := [{ type := ArrowType.NANOARROW_TYPE_STRING,
                                  name := some [] }] },
            b) ∧
      b.status_ = ScanResult.DONE := by
  refine ⟨withSchema (SimpleCsvArrayBuilder.new [] status0), ?_, rfl⟩
  rw [GetSchema_eq]
  rfl

/-! ## driver.cc -/

theorem releaseTimes_driver (n : Nat) (driver : AdbcDriver) :
    (SimpleCsvDriverRelease (releaseTimes SimpleCsvDriverRelease n driver)).1
      = AdbcStatusCode.ADBC_STATUS_OK ∧
    (SimpleCsvDriverRelease (releaseTimes SimpleCsvDriverRelease n driver)).2.private_data
      = none := by
  generalize releaseTimes SimpleCsvDriverRelease n driver = d
  unfold SimpleCsvDriverRelease
  cases h : d.private_data with
  | none => exact ⟨rfl, h⟩
  | some x => exact ⟨rfl, rfl⟩

theorem releaseTimes_database (n : Nat) (database : AdbcDatabase) :
    (SimpleCsvDatabaseRelease (releaseTimes SimpleCsvDatabaseRelease n database)).1
      = AdbcStatusCode.ADBC_STATUS_OK ∧
    (SimpleCsvDatabaseRelease (releaseTimes SimpleCsvDatabaseRelease n database)).2.private_data
      = none := by
  generalize releaseTimes SimpleCsvDatabaseRelease n database = d
  unfold SimpleCsvDatabaseRelease
  cases h : d.private_data with
  | none => exact ⟨rfl, h⟩
  | some x => exact ⟨rfl, rfl⟩

theorem releaseTimes_connection (n : Nat) (connection : AdbcConnection) :
    (SimpleCsvConnectionRelease (releaseTimes SimpleCsvConnectionRelease n connection)).1
      = AdbcStatusCode.ADBC_STATUS_OK ∧
    (SimpleCsvConnectionRelease
        (releaseTimes SimpleCsvConnectionRelease n connection)).2.private_data
      = none := by
  generalize releaseTimes SimpleCsvConnectionRelease n connection = d
  unfold SimpleCsvConnectionRelease
  cases h : d.private_data with
  | none => exact ⟨rfl, h⟩
  | some x => exact ⟨rfl, rfl⟩

theorem releaseTimes_statement (n : Nat) (statement : AdbcStatement) :
    (SimpleCsvStatementRelease (releaseTimes SimpleCsvStatementRelease n statement)).1
      = AdbcStatusCode.ADBC_STATUS_OK ∧
    (SimpleCsvStatementRelease
        (releaseTimes SimpleCsvStatementRelease n statement)).2.private_data
      = none := by
  generalize releaseTimes SimpleCsvStatementRelease n statement = d
  unfold SimpleCsvStatementRelease
  cases h : d.private_data with
  | none => exact ⟨rfl, h⟩
  | some x => exact ⟨rfl, rfl⟩

/-- C12: for the driver, the database, the connection and the statement, the
release function returns `ADBC_STATUS_OK` and leaves the private data null,
whether the private data was live or already null, and this after any number `n`
of earlier releases of the same handle (`n = 0` is a release before any use or
the first release). -/
theorem release_returns_ok_and_nulls_private_data (n : Nat) (driver : AdbcDriver)
    (database : AdbcDatabase) (connection : AdbcConnection) (statement : AdbcStatement) :
    ((SimpleCsvDriverRelease (releaseTimes SimpleCsvDriverRelease n driver)).1
        = AdbcStatusCode.ADBC_STATUS_OK ∧
      (SimpleCsvDriverRelease (releaseTimes SimpleCsvDriverRelease n driver)).2.private_data
        = none) ∧
    ((SimpleCsvDatabaseRelease (releaseTimes SimpleCsvDatabaseRelease n database)).1
        = AdbcStatusCode.ADBC_STATUS_OK ∧
      (SimpleCsvDatabaseRelease
          (releaseTimes SimpleCsvDatabaseRelease n database)).2.private_data
        = none) ∧
    ((SimpleCsvConnectionRelease (releaseTimes SimpleCsvConnectionRelease n connection)).1
        = AdbcStatusCode.ADBC_STATUS_OK ∧
      (SimpleCsvConnectionRelease
          (releaseTimes SimpleCsvConnectionRelease n connection)).2.private_data
        = none) ∧
    ((SimpleCsvStatementRelease (releaseTimes SimpleCsvStatementRelease n statement)).1
        = AdbcStatusCode.ADBC_STATUS_OK ∧
      (SimpleCsvStatementRelease
          (releaseTimes SimpleCsvStatementRelease n statement)).2.private_data
        = none) :=
  ⟨releaseTimes_driver n driver, releaseTimes_database n database,
    releaseTimes_connection n connection, releaseTimes_statement n statement⟩

/-- C13: for a statement with live private data whose text is set to `q` by
`SimpleCsvStatementSetSqlQuery`, `SimpleCsvStatementExecuteQuery` returns
`ADBC_STATUS_OK`, sets `rows_affected` to `-1`, leaves the statement (and its
stored filename) as it is, and fills the stream with the four stream functions
and a new builder that reads the file named by the text of `q`, whatever the
file system holds under that name: the text is not parsed. -/
theorem ExecuteQuery_binds_builder_to_query_text (files : List Char → List Char)
    (status0 : ScanResult) (statement : AdbcStatement) (p : SimpleCsvStatementPrivate)
    (h : statement.private_data = some p) (q : List Char) (out : ArrowArrayStream) :
    ∃ (statement1 : AdbcStatement) (stream : ArrowArrayStream),
      SimpleCsvStatementSetSqlQuery statement q
        = some (AdbcStatusCode.ADBC_STATUS_OK, statement1) ∧
      statement1.private_data = some { filename := c_str q } ∧
      SimpleCsvStatementExecuteQuery files status0 statement1 out
        = some (AdbcStatusCode.ADBC_STATUS_OK, stream, -1, statement1) ∧
      stream.private_data = some (SimpleCsvArrayBuilder.new (files (c_str q)) status0) ∧
      stream.get_schema = some StreamFunction.SimpleCsvArrayStreamGetSchema ∧
      stream.get_next = some StreamFunction.SimpleCsvArrayStreamGetNext ∧
      stream.get_last_error = some StreamFunction.SimpleCsvArrayStreamGetLastError ∧
      stream.release = some StreamFunction.SimpleCsvArrayStreamRelease ∧
      (Char.ofNat 0 ∉ q → c_str q = q) := by
  have hc : c_str (c_str q) = c_str q := by
    apply c_str_of_no_nul
    intro hmem
    have := List.mem_takeWhile_imp hmem
    simp at this
  refine ⟨{ statement with private_data := some { filename := c_str q } },
    InitSimpleCsvArrayStream files status0 (c_str q) out, ?_, rfl, ?_,
    ?_, rfl, rfl, rfl, rfl, c_str_of_no_nul q⟩
  · simp [SimpleCsvStatementSetSqlQuery, h]
  · simp only [SimpleCsvStatementExecuteQuery]
  · simp only [InitSimpleCsvArrayStream, hc]

/-- C13, on a statement whose filename was empty and the query `data.csv`. -/
theorem ExecuteQuery_binds_builder_to_query_text_witness :
    ({ private_data := some { filename := [] } } : AdbcStatement).private_data
      = some { filename := [] } ∧
    ∃ (statement1 : AdbcStatement) (stream : ArrowArrayStream),
      SimpleCsvStatementSetSqlQuery { private_data := some { filename := [] } }
          "data.csv".toList
        = some (AdbcStatusCode.ADBC_STATUS_OK, statement1) ∧
      statement1.private_data = some { filename := c_str "data.csv".toList } ∧
      SimpleCsvStatementExecuteQuery (fun _ => "a,b\n1,2\n".toList) ScanResult.UNINITIALIZED
          statement1
          { get_schema := none, get_next := none, get_last_error := none, release := none,
            private_data := none }
        = some (AdbcStatusCode.ADBC_STATUS_OK, stream, -1, statement1) ∧
      stream.private_data
        = some (SimpleCsvArrayBuilder.new ((fun _ => "a,b\n1,2\n".toList)
            (c_str "data.csv".toList)) ScanResult.UNINITIALIZED) ∧
      stream.get_schema = some StreamFunction.SimpleCsvArrayStreamGetSchema ∧
      stream.get_next = some StreamFunction.SimpleCsvArrayStreamGetNext ∧
      stream.get_last_error = some StreamFunction.SimpleCsvArrayStreamGetLastError ∧
      stream.release = some StreamFunction.SimpleCsvArrayStreamRelease ∧
      (Char.ofNat 0 ∉ "data.csv".toList → c_str "data.csv".toList = "data.csv".toList) :=
  ⟨rfl,
    ExecuteQuery_binds_builder_to_query_text (fun _ => "a,b\n1,2\n".toList)
      ScanResult.UNINITIALIZED { private_data := some { filename := [] } }
      { filename := [] } rfl "data.csv".toList
      { get_schema := none, get_next := none, get_last_error := none, release := none,
        private_data := none }⟩

/-- C14: for every database handle, key and value, `SimpleCsvDatabaseSetOption`
returns `ADBC_STATUS_INVALID_ARGUMENT` and leaves the database as it is. -/
theorem DatabaseSetOption_rejects (database : AdbcDatabase) (key value : List Char) :
    SimpleCsvDatabaseSetOption database key value
      = (AdbcStatusCode.ADBC_STATUS_INVALID_ARGUMENT, database) := by
  unfold SimpleCsvDatabaseSetOption
  rfl

/-! ## The schema step inside `GetArray` -/

/-- C15 fails on the code.  On the header-only input `a,b` (no newline), a first
`GetArray` returns a two-column array with no row, while a `GetArray` that
follows a `GetSchema` finds `status_ == DONE`, left by the header read, and
returns the released marker.  And on `a,b\n1,2\n`, a first `GetArray` on a
builder whose `status_`, which the constructor does not set, starts as `DONE`
returns the released marker without reading, while after a `GetSchema` it
returns the row. -/
theorem GetArray_first_differs_from_GetArray_after_GetSchema :
    pullResult ((SimpleCsvArrayBuilder.new "a,b".toList ScanResult.UNINITIALIZED).GetArray
        none)
      = some (NANOARROW_OK, some { length := 0, children := [[], []] }, "Internal error") ∧
    pullResult (((SimpleCsvArrayBuilder.new "a,b".toList ScanResult.UNINITIALIZED).GetSchema
        none).bind (fun r => r.2.2.GetArray none))
      = some (NANOARROW_OK, none, "Internal error") ∧
    pullResult ((SimpleCsvArrayBuilder.new "a,b\n1,2\n".toList ScanResult.DONE).GetArray none)
      = some (NANOARROW_OK, none, "Internal error") ∧
    pullResult (((SimpleCsvArrayBuilder.new "a,b\n1,2\n".toList ScanResult.DONE).GetSchema
        none).bind (fun r => r.2.2.GetArray none))
      = some (NANOARROW_OK,
          some { length := 1, children := [["1".toList], ["2".toList]] },
          "Internal error") := by
  refine ⟨?_, ?_, ?_, ?_⟩
  · decide
  · decide
  · decide
  · decide

/-! ## Rows are whole -/

theorem mem_foldl_appendString (fields : List (List Char)) (n : Nat) (a : ArrowArray)
    (hn : a.children.length = n) (col1 : List (List Char))
    (h : col1 ∈ ((List.range n).foldl
      (fun x i => ArrowArrayAppendString x i (fields.getD i [])) a).children) :
    ∃ i col, a.children[i]? = some col ∧ col1 = col ++ [fields.getD i []] := by
  rw [foldl_appendString_children, List.mem_iff_getElem?] at h
  obtain ⟨j, hj⟩ := h
  rw [getElem?_foldl_updateAt (fun i col => col ++ [fields.getD i []])] at hj
  by_cases hlt : j < n
  · simp only [hlt, if_true] at hj
    cases hc : a.children[j]? with
    | none => rw [hc] at hj; cases hj
    | some col =>
      rw [hc] at hj
      simp only [Option.map_some', Option.some.injEq] at hj
      exact ⟨j, col, hc, hj.symm⟩
  · simp only [hlt, if_false] at hj
    rw [List.getElem?_eq_none (by omega)] at hj
    cases hj

theorem getElem?_foldl_appendString (fields : List (List Char)) (n : Nat) (a : ArrowArray)
    (hn : a.children.length = n) (i : Nat) (col : List (List Char))
    (h : a.children[i]? = some col) :
    ((List.range n).foldl
      (fun x i => ArrowArrayAppendString x i (fields.getD i [])) a).children[i]?
      = some (col ++ [fields.getD i []]) := by
  have hi : i < n := by
    by_contra hlt
    rw [List.getElem?_eq_none (by omega)] at h
    cases h
  rw [foldl_appendString_children,
    getElem?_foldl_updateAt (fun i col => col ++ [fields.getD i []]), h]
  simp [hi]

/-- Storing a record in an array whose columns all have the array's length: the
array stays so, and either it is unchanged or every column got the field of its
index and the length grew by one. -/
theorem storeRecord_aligned (b : SimpleCsvArrayBuilder) (status : ScanResult)
    (fields : List (List Char)) (scanner : SimpleCsvScanner)
    (schema : ArrowSchema) (a : ArrowArray)
    (hs : b.schema_ = some schema) (ha : b.array_ = some a)
    (hn : a.children.length = schema.children.length)
    (hal : ∀ col ∈ a.children, col.length = a.length) :
    ∃ a1, (storeRecord b status fields scanner).2.array_ = some a1 ∧
      a1.children.length = schema.children.length ∧
      (∀ col ∈ a1.children, col.length = a1.length) ∧
      ((a1 = a ∧ ((storeRecord b status fields scanner).1 = NANOARROW_OK →
          fields = [[]])) ∨
       ((storeRecord b status fields scanner).1 = NANOARROW_OK ∧
        a1.length = a.length + 1 ∧
        ∀ i col, a.children[i]? = some col →
          a1.children[i]? = some (col ++ [fields.getD i []]))) := by
  have hnc : b.n_children = schema.children.length := by
    simp [SimpleCsvArrayBuilder.n_children, hs]
  by_cases hblank : fields = [[]]
  · subst hblank
    rw [storeRecord_blank]
    exact ⟨a, ha, hn, hal, Or.inl ⟨rfl, fun _ => rfl⟩⟩
  · by_cases hlen : b.n_children = fields.length
    · have h1 : ¬ (fields.length = 1 ∧ fields.getD 0 [] = []) := by
        rintro ⟨h1, h2⟩
        apply hblank
        match fields, h1, h2 with
        | [f], _, h2 => simpa using h2
      have hn1 : a.children.length = b.n_children := by rw [hnc]; exact hn
      have hext := ColumnsExtend_appendString fields b.n_children a
      have hall : (((List.range b.n_children).foldl
          (fun x i => ArrowArrayAppendString x i (fields.getD i [])) a).children).all
          (fun col => col.length = ((List.range b.n_children).foldl
            (fun x i => ArrowArrayAppendString x i (fields.getD i [])) a).length + 1)
          = true := by
        rw [List.all_eq_true]
        intro col1 hcol1
        obtain ⟨i, col, hc, e⟩ := mem_foldl_appendString fields _ a hn1 col1 hcol1
        rw [foldl_appendString_length, e]
        simp [hal col (List.getElem?_mem hc)]
      have hres : storeRecord b status fields scanner
          = (NANOARROW_OK,
              { b with fields_ := fields, status_ := status, scanner_ := scanner,
                       array_ := some
                         { ((List.range b.n_children).foldl
                              (fun x i => ArrowArrayAppendString x i (fields.getD i [])) a) with
                           length := ((List.range b.n_children).foldl
                              (fun x i => ArrowArrayAppendString x i (fields.getD i []))
                              a).length + 1 } }) := by
        have h2 : ({ b with fields_ := fields, status_ := status, scanner_ := scanner } :
            SimpleCsvArrayBuilder).n_children = b.n_children := rfl
        have h3 : ({ b with fields_ := fields, status_ := status, scanner_ := scanner } :
            SimpleCsvArrayBuilder).array_ = b.array_ := rfl
        unfold storeRecord
        simp only [h1, if_false, h2, ne_eq, hlen, not_true_eq_false]
        rw [h3, ha]
        simp only
        rw [← hlen]
        simp only [ArrowArrayFinishElement, hall, if_true]
      rw [hres]
      refine ⟨_, rfl, ?_, ?_, Or.inr ⟨rfl, ?_, ?_⟩⟩
      · exact hext.1.symm.trans hn
      · intro col1 hcol1
        obtain ⟨i, col, hc, e⟩ := mem_foldl_appendString fields _ a hn1 col1 hcol1
        rw [e]
        simp only [foldl_appendString_length]
        simp [hal col (List.getElem?_mem hc)]
      · simp only [foldl_appendString_length]
      · intro i col hc
        exact getElem?_foldl_appendString fields _ a hn1 i col hc
    · rw [storeRecord_mismatch b status fields scanner hblank hlen]
      refine ⟨a, ha, hn, hal, Or.inl ⟨rfl, fun h => ?_⟩⟩
      have hne : EINVAL ≠ NANOARROW_OK := by decide
      exact absurd h hne

/-- The array that `GetArray` starts with, after the schema step, has one empty
column per schema column and length 0. -/
theorem prepared_aligned (b : SimpleCsvArrayBuilder) (h : b.array_ = none) :
    ∃ schema a, (withSchema b).InitArrayIfNeeded.2.schema_ = some schema ∧
      (withSchema b).InitArrayIfNeeded.2.array_ = some a ∧
      a.children.length = schema.children.length ∧
      ∀ col ∈ a.children, col.length = a.length := by
  obtain ⟨schema, hs⟩ := withSchema_schema b
  have ha : (withSchema b).array_ = none := by
    unfold withSchema
    cases b.schema_ with
    | none => exact h
    | some x => exact h
  refine ⟨schema, ArrowArrayInitFromSchema schema, ?_, ?_, ?_, ?_⟩
  · rw [InitArrayIfNeeded_schema]; exact hs
  · simp only [SimpleCsvArrayBuilder.InitArrayIfNeeded, ha, hs]
  · simp [ArrowArrayInitFromSchema]
  · intro col hcol
    simp only [ArrowArrayInitFromSchema, List.mem_map] at hcol
    obtain ⟨_, _, rfl⟩ := hcol
    rfl

theorem storeRecord_fields (b : SimpleCsvArrayBuilder) (status : ScanResult)
    (fields : List (List Char)) (scanner : SimpleCsvScanner) :
    (storeRecord b status fields scanner).2.fields_ = fields := by
  simp only [storeRecord]
  split_ifs <;> first | rfl | (split <;> rfl)

/-- C17: rows are committed as a whole.  The array with which `GetArray` starts
has all its columns at the array's row count (zero), and every call of the
builder's `ReadLine` on an array in that condition (a stored row, a skipped
blank line or a shape mismatch) returns and leaves the array in that condition:
either the array is unchanged, or the call succeeded, the row count grew by one
and every column got exactly one value, the field of its index. -/
theorem ReadLine_commits_whole_rows :
    (∀ b : SimpleCsvArrayBuilder, b.array_ = none →
      ∃ schema a, (withSchema b).InitArrayIfNeeded.2.schema_ = some schema ∧
        (withSchema b).InitArrayIfNeeded.2.array_ = some a ∧
        a.children.length = schema.children.length ∧
        ∀ col ∈ a.children, col.length = a.length) ∧
    (∀ (b : SimpleCsvArrayBuilder) (schema : ArrowSchema) (a : ArrowArray),
      b.schema_ = some schema → b.array_ = some a →
      a.children.length = schema.children.length →
      (∀ col ∈ a.children, col.length = a.length) →
      ∃ (rc : Int) (b1 : SimpleCsvArrayBuilder) (a1 : ArrowArray),
        b.ReadLine = some (rc, b1) ∧
        b1.schema_ = some schema ∧ b1.array_ = some a1 ∧
        a1.children.length = schema.children.length ∧
        (∀ col ∈ a1.children, col.length = a1.length) ∧
        (a1 = a ∨
         (rc = NANOARROW_OK ∧ a1.length = a.length + 1 ∧
          ∀ i col, a.children[i]? = some col →
            a1.children[i]? = some (col ++ [b1.fields_.getD i []])))) := by
  refine ⟨prepared_aligned, ?_⟩
  intro b schema a hs ha hn hal
  obtain ⟨a1, h1, h2, h3, h4⟩ := storeRecord_aligned b (lineEnd b.scanner_.input_)
    (fieldsOfLine (firstLine b.scanner_.input_))
    { input_ := afterFirstLine b.scanner_.input_ } schema a hs ha hn hal
  have hsch := storeRecord_schema b (lineEnd b.scanner_.input_)
    (fieldsOfLine (firstLine b.scanner_.input_))
    { input_ := afterFirstLine b.scanner_.input_ }
  have hfl := storeRecord_fields b (lineEnd b.scanner_.input_)
    (fieldsOfLine (firstLine b.scanner_.input_))
    { input_ := afterFirstLine b.scanner_.input_ }
  have hR := builder_ReadLine_eq b
  generalize storeRecord b (lineEnd b.scanner_.input_)
    (fieldsOfLine (firstLine b.scanner_.input_))
    { input_ := afterFirstLine b.scanner_.input_ } = sr at h1 h4 hsch hfl hR
  refine ⟨sr.1, sr.2, a1, hR, ?_, h1, h2, h3, ?_⟩
  · rw [hsch]; exact hs
  · rcases h4 with ⟨e, _⟩ | ⟨e1, e2, e3⟩
    · exact Or.inl e
    · refine Or.inr ⟨e1, e2, ?_⟩
      rw [hfl]
      exact e3

/-- C17, on the file `a,b\n1,2\n`: the first `ReadLine` of the drain loop stores
the row `(1, 2)`. -/
theorem ReadLine_commits_whole_rows_witness :
    (withSchema (SimpleCsvArrayBuilder.new "a,b\n1,2\n".toList
        ScanResult.UNINITIALIZED)).InitArrayIfNeeded.2 = preparedExample ∧
    preparedExample.ReadLine
      = some (NANOARROW_OK,
          { preparedExample with
            scanner_ := { input_ := [] }, fields_ := ["1".toList, "2".toList],
            array_ := some { length := 1, children := [["1".toList], ["2".toList]] } }) ∧
    ∃ (rc : Int) (b1 : SimpleCsvArrayBuilder) (a1 : ArrowArray),
      preparedExample.ReadLine = some (rc, b1) ∧
      b1.schema_ = some (schemaOfHeader ["a".toList, "b".toList]) ∧ b1.array_ = some a1 ∧
      a1.children.length = (schemaOfHeader ["a".toList, "b".toList]).children.length ∧
      (∀ col ∈ a1.children, col.length = a1.length) ∧
      (a1 = { length := 0, children := [[], []] } ∨
       (rc = NANOARROW_OK ∧
        a1.length = ({ length := 0, children := [[], []] } : ArrowArray).length + 1 ∧
        ∀ i col, ({ length := 0, children := [[], []] } : ArrowArray).children[i]? = some col →
          a1.children[i]? = some (col ++ [b1.fields_.getD i []]))) :=
  ⟨by decide, by decide,
    ReadLine_commits_whole_rows.2 preparedExample (schemaOfHeader ["a".toList, "b".toList])
      { length := 0, children := [[], []] } rfl rfl (by decide) (by decide)⟩

/-! ## Termination -/

theorem ReadField_consumes (s : SimpleCsvScanner) :
    (s.input_ ≠ [] → s.ReadField.2.input_.length < s.input_.length) ∧
    (s.input_ = [] → s.ReadField.1.1 = ScanResult.DONE ∧ s.ReadField.2.input_ = []) := by
  obtain ⟨p, _, hcase⟩ := ReadField_loop_cases s.input_ []
  rcases hcase with ⟨e, hl⟩ | ⟨rest, e, hl⟩ | ⟨rest, e, hl⟩
  · have hR : s.ReadField = ((ScanResult.DONE, p), { input_ := [] }) := by
      simp [SimpleCsvScanner.ReadField, hl]
    rw [hR]
    refine ⟨fun hne => ?_, fun _ => ⟨rfl, rfl⟩⟩
    exact List.length_pos.mpr hne
  · have hR : s.ReadField = ((ScanResult.FIELD_SEP, p), { input_ := rest }) := by
      simp [SimpleCsvScanner.ReadField, hl]
    rw [hR]
    refine ⟨fun _ => ?_, fun h0 => ?_⟩
    · rw [e]; simp; omega
    · rw [h0] at e; simp at e
  · have hR : s.ReadField = ((ScanResult.LINE_SEP, p), { input_ := rest }) := by
      simp [SimpleCsvScanner.ReadField, hl]
    rw [hR]
    refine ⟨fun _ => ?_, fun h0 => ?_⟩
    · rw [e]; simp; omega
    · rw [h0] at e; simp at e

theorem scanner_ReadLine_loop_eq (fuel : Nat) (values : List (List Char)) (input : List Char)
    (h : input.length < fuel) :
    SimpleCsvScanner.ReadLine.loop fuel values { input_ := input }
      = some (lineEnd input, values ++ fieldsOfLine (firstLine input),
          { input_ := afterFirstLine input }) := by
  obtain ⟨f, rfl⟩ : ∃ f, fuel = f + 1 := ⟨fuel - 1, by omega⟩
  have e := afterField_line (firstLine input) (newline_not_mem_firstLine input)
    (input.dropWhile (fun c => c != '\n')) (head_dropWhile_newline input) [] values
    f (by
      have := congrArg List.length (firstLine_append_rest input)
      simp at this
      omega)
  rw [firstLine_append_rest, lineEnd_dropWhile] at e
  rw [ReadLine_loop_succ]
  exact e

/-- C18: on a finite input the scanning terminates.  `ReadField` (a total
function of the input left) consumes at least one byte, or is at the end of the
input and returns `DONE`; the loop of the scanner's `ReadLine` returns within
`bytes left + 1` rounds; the drain loop of `GetArray` returns within
`newlines left + 1` record reads, and more rounds change nothing; and `GetArray`
returns. -/
theorem scanning_terminates :
    (∀ s : SimpleCsvScanner,
      (s.input_ ≠ [] → s.ReadField.2.input_.length < s.input_.length) ∧
      (s.input_ = [] → s.ReadField.1.1 = ScanResult.DONE ∧ s.ReadField.2.input_ = [])) ∧
    (∀ (values : List (List Char)) (input : List Char),
      ∃ r, ∀ fuel, input.length + 1 ≤ fuel →
        SimpleCsvScanner.ReadLine.loop fuel values { input_ := input } = some r) ∧
    (∀ b : SimpleCsvArrayBuilder,
      ∃ r, ∀ fuel, b.scanner_.input_.count '\n' + 1 ≤ fuel →
        SimpleCsvArrayBuilder.GetArray.loop fuel b = some r) ∧
    (∀ (b : SimpleCsvArrayBuilder) (out : Option ArrowArray), ∃ r, b.GetArray out = some r) := by
  refine ⟨ReadField_consumes, ?_, ?_, GetArray_isSome⟩
  · intro values input
    exact ⟨_, fun fuel hf => scanner_ReadLine_loop_eq fuel values input (by omega)⟩
  · intro b
    exact loop_fuel (b.scanner_.input_.count '\n' + 1) b (Nat.lt_succ_self _)

/-! ## A pull on any builder that has rows already -/

theorem dataRows_append (xs ys : List (List (List Char))) :
    dataRows (xs ++ ys) = dataRows xs ++ dataRows ys := by
  simp [dataRows]

theorem lineEnd_line_tl (line : List Char) (hline : '\n' ∉ line) (tl : List Char) :
    lineEnd (line ++ tl) = lineEnd tl := by
  simp [lineEnd, hline]

theorem afterFirstLine_line_tl (line : List Char) (hline : '\n' ∉ line) (tl : List Char)
    (htl : ∀ c ∈ tl.head?, c = '\n') : afterFirstLine (line ++ tl) = tl.tail := by
  cases tl with
  | nil => rw [List.append_nil]; exact afterFirstLine_last line hline
  | cons c rest =>
    have hc : c = '\n' := htl c (by simp)
    rw [hc]
    exact afterFirstLine_line line hline rest

theorem columnsOf_map_nil (children : List ArrowSchemaChild) :
    children.map (fun _ => ([] : List (List Char))) = columnsOf children.length [] := by
  apply List.ext_getElem?
  intro j
  simp only [columnsOf, List.getElem?_map, List.map_nil]
  by_cases h : j < children.length
  · simp [List.getElem?_range h, List.getElem?_eq_getElem h]
  · have h1 : children[j]? = none := List.getElem?_eq_none (by omega)
    have h2 : (List.range children.length)[j]? = none :=
      List.getElem?_eq_none (by simp; omega)
    simp [h1, h2]

theorem withSchema_array (b : SimpleCsvArrayBuilder) : (withSchema b).array_ = b.array_ := by
  unfold withSchema
  cases b.schema_ with
  | none => rfl
  | some x => rfl

/-- The last record of the input, ended by the end of the input: a blank one is
skipped, one of the schema's arity becomes the last row, and the loop ends. -/
theorem drain_last_record (b : SimpleCsvArrayBuilder) (rows : List (List (List Char)))
    (n : Nat) (lastRec : List (List Char)) (hn : b.n_children = n)
    (hlast : RecordOk lastRec ∧ (lastRec = [[]] ∨ lastRec.length = n))
    (hst : b.status_ = ScanResult.LINE_SEP)
    (harr : b.array_ = some { length := rows.length, children := columnsOf n rows })
    (hin : b.scanner_.input_ = List.intercalate [','] lastRec) :
    drain b = some (NANOARROW_OK,
      { b with fields_ := lastRec, status_ := ScanResult.DONE, scanner_ := { input_ := [] },
               array_ := some { length := (rows ++ dataRows [lastRec]).length,
                                children := columnsOf n (rows ++ dataRows [lastRec]) } }) := by
  subst hn
  have hnl := newline_not_mem_intercalate lastRec hlast.1
  rw [drain_step b (by rw [hst]; exact fun h => nomatch h), hin, firstLine_last _ hnl,
    afterFirstLine_last _ hnl, lineEnd_last _ hnl, fieldsOfLine_intercalate lastRec hlast.1]
  by_cases hb : lastRec = [[]]
  · subst hb
    rw [storeRecord_blank]
    simp only [ne_eq, not_true_eq_false, if_false]
    rw [drain_of_done _ rfl, dataRows_cons_blank]
    simp only [dataRows, List.filter_nil, List.append_nil]
    rw [← harr]
  · have hlen : b.n_children = lastRec.length := by
      rcases hlast.2 with h | h
      · exact absurd h hb
      · exact h.symm
    rw [storeRecord_row b _ lastRec _ rows hb hlen harr]
    simp only [ne_eq, not_true_eq_false, if_false]
    rw [drain_of_done _ rfl, dataRows_cons_row lastRec hb]
    simp only [dataRows, List.filter_nil]

/-- `GetArray` on a builder whose `status_` is not `DONE`: the drain loop starts
on the builder `w` left by the schema step, with the array it had or a new one. -/
theorem GetArray_pull (b w : SimpleCsvArrayBuilder) (hw : withSchema b = w)
    (schema : ArrowSchema)
    (rows : List (List (List Char))) (h0 : b.status_ ≠ ScanResult.DONE)
    (hs : w.schema_ = some schema)
    (harr : (w.array_ = none ∧ rows = []) ∨
      w.array_ = some { length := rows.length,
                        children := columnsOf schema.children.length rows })
    (out : Option ArrowArray) :
    b.GetArray out = (drain
      { w with
        array_ := some { length := rows.length,
                         children := columnsOf schema.children.length rows } }).map
      (finishPull out) := by
  have hinit : w.InitArrayIfNeeded.2
      = { w with
          array_ := some { length := rows.length,
                           children := columnsOf schema.children.length rows } } := by
    rcases harr with ⟨ha, hr⟩ | ha
    · subst hr
      simp only [SimpleCsvArrayBuilder.InitArrayIfNeeded, ha, hs, ArrowArrayInitFromSchema,
        columnsOf_map_nil, List.length_nil]
    · simp only [SimpleCsvArrayBuilder.InitArrayIfNeeded, ha]
      rw [← ha]
  rw [GetArray_eq b out h0, hw, hinit]

/-- A pull over well-formed records of the schema's arity, the last one ended by
the end of the input: `GetArray` returns the rows that were there followed by the
rows of those records. -/
theorem GetArray_pull_wellformed (b w : SimpleCsvArrayBuilder) (hw : withSchema b = w)
    (schema : ArrowSchema)
    (rows good : List (List (List Char))) (lastRec : List (List Char))
    (h0 : b.status_ ≠ ScanResult.DONE)
    (hs : w.schema_ = some schema)
    (hst : w.status_ = ScanResult.LINE_SEP)
    (harr : (w.array_ = none ∧ rows = []) ∨
      w.array_ = some { length := rows.length,
                        children := columnsOf schema.children.length rows })
    (hgood : ∀ r ∈ good, RecordOk r ∧ (r = [[]] ∨ r.length = schema.children.length))
    (hlast : RecordOk lastRec ∧ (lastRec = [[]] ∨ lastRec.length = schema.children.length))
    (hin : w.scanner_.input_ = renderRecords good ++ List.intercalate [','] lastRec)
    (out : Option ArrowArray) :
    b.GetArray out = some (NANOARROW_OK,
      some { length := (rows ++ dataRows (good ++ [lastRec])).length,
             children := columnsOf schema.children.length
               (rows ++ dataRows (good ++ [lastRec])) },
      { w with
        fields_ := lastRec, status_ := ScanResult.DONE, scanner_ := { input_ := [] },
        array_ := none }) := by
  have hn : ({ w with
      array_ := some { length := rows.length,
                       children := columnsOf schema.children.length rows } } :
      SimpleCsvArrayBuilder).n_children = schema.children.length := by
    simp [SimpleCsvArrayBuilder.n_children, hs]
  have hn1 : ({ w with
      fields_ := good.getLast?.getD w.fields_,
      scanner_ := { input_ := List.intercalate [','] lastRec },
      array_ := some { length := (rows ++ dataRows good).length,
                       children := columnsOf schema.children.length (rows ++ dataRows good) } } :
      SimpleCsvArrayBuilder).n_children = schema.children.length := by
    simp [SimpleCsvArrayBuilder.n_children, hs]
  have k1 := drain_good_records good
    { w with
      array_ := some { length := rows.length,
                       children := columnsOf schema.children.length rows } }
    rows (List.intercalate [','] lastRec) schema.children.length hn hgood hst rfl hin
  have k2 := drain_last_record
    { w with
      fields_ := good.getLast?.getD w.fields_,
      scanner_ := { input_ := List.intercalate [','] lastRec },
      array_ := some { length := (rows ++ dataRows good).length,
                       children := columnsOf schema.children.length (rows ++ dataRows good) } }
    (rows ++ dataRows good) schema.children.length lastRec hn1 hlast hst rfl rfl
  rw [GetArray_pull b w hw schema rows h0 hs harr out, k1]
  dsimp only at k2 ⊢
  rw [k2]
  simp only [Option.map_some', finishPull, ne_eq, not_true_eq_false, if_false,
    dataRows_append, List.append_assoc]

/-- A pull that meets a record of another arity after well-formed records: it
fails with `EINVAL`, `*out` is as before, and the builder keeps the rows that
were there followed by the rows of the records before the offending one. -/
theorem GetArray_pull_mismatch (b w : SimpleCsvArrayBuilder) (hw : withSchema b = w)
    (schema : ArrowSchema)
    (rows good : List (List (List Char))) (bad : List (List Char)) (tl : List Char)
    (h0 : b.status_ ≠ ScanResult.DONE)
    (hs : w.schema_ = some schema)
    (hst : w.status_ = ScanResult.LINE_SEP)
    (harr : (w.array_ = none ∧ rows = []) ∨
      w.array_ = some { length := rows.length,
                        children := columnsOf schema.children.length rows })
    (hgood : ∀ r ∈ good, RecordOk r ∧ (r = [[]] ∨ r.length = schema.children.length))
    (hbad : RecordOk bad) (hnb : bad ≠ [[]]) (hlen : bad.length ≠ schema.children.length)
    (htl : ∀ c ∈ tl.head?, c = '\n')
    (hin : w.scanner_.input_ = renderRecords good ++ (List.intercalate [','] bad ++ tl))
    (out : Option ArrowArray) :
    b.GetArray out = some (EINVAL, out,
      { w with
        fields_ := bad, status_ := lineEnd tl, scanner_ := { input_ := tl.tail },
        last_error_ :=
          "Expected " ++ toString schema.children.length ++ " fields but found "
            ++ toString bad.length ++ " fields",
        array_ := some { length := (rows ++ dataRows good).length,
                         children := columnsOf schema.children.length
                           (rows ++ dataRows good) } }) := by
  have hn : ({ w with
      array_ := some { length := rows.length,
                       children := columnsOf schema.children.length rows } } :
      SimpleCsvArrayBuilder).n_children = schema.children.length := by
    simp [SimpleCsvArrayBuilder.n_children, hs]
  have hn1 : ({ w with
      fields_ := good.getLast?.getD w.fields_,
      scanner_ := { input_ := List.intercalate [','] bad ++ tl },
      array_ := some { length := (rows ++ dataRows good).length,
                       children := columnsOf schema.children.length (rows ++ dataRows good) } } :
      SimpleCsvArrayBuilder).n_children = schema.children.length := by
    simp [SimpleCsvArrayBuilder.n_children, hs]
  have k1 := drain_good_records good
    { w with
      array_ := some { length := rows.length,
                       children := columnsOf schema.children.length rows } }
    rows (List.intercalate [','] bad ++ tl) schema.children.length hn hgood hst rfl hin
  have hnl := newline_not_mem_intercalate bad hbad
  have k2 := drain_step
    { w with
      fields_ := good.getLast?.getD w.fields_,
      scanner_ := { input_ := List.intercalate [','] bad ++ tl },
      array_ := some { length := (rows ++ dataRows good).length,
                       children := columnsOf schema.children.length (rows ++ dataRows good) } }
    (by rw [hst]; exact fun h => nomatch h)
  dsimp only at k2
  rw [firstLine_line_tl _ hnl tl htl, afterFirstLine_line_tl _ hnl tl htl,
    lineEnd_line_tl _ hnl tl, fieldsOfLine_intercalate bad hbad,
    storeRecord_mismatch _ _ bad _ hnb (by rw [hn1]; exact fun h => hlen h.symm)] at k2
  have hne : EINVAL ≠ NANOARROW_OK := by decide
  simp only [ne_eq, hne, not_false_eq_true, if_true] at k2
  rw [GetArray_pull b w hw schema rows h0 hs harr out, k1]
  dsimp only
  rw [k2]
  simp only [Option.map_some', finishPull, ne_eq, hne, not_false_eq_true, if_true, hn1,
    ArrowErrorSet_expected]

theorem withSchema_new_header_only (header : List (List Char)) (hh : RecordOk header)
    (status0 : ScanResult) :
    withSchema (SimpleCsvArrayBuilder.new (List.intercalate [','] header) status0)
      = { status_ := ScanResult.DONE,
          scanner_ := { input_ := [] },
          fields_ := header,
          last_error_ := ArrowErrorSet "Internal error" [],
          schema_ := some (schemaOfHeader header),
          array_ := none } := by
  have hnl := newline_not_mem_intercalate header hh
  simp only [withSchema, SimpleCsvArrayBuilder.new, firstLine_last _ hnl,
    afterFirstLine_last _ hnl, lineEnd_last _ hnl, fieldsOfLine_intercalate header hh]

/-! ## The rows of every input with records of the header's arity -/

/-- C2: for every input whose records are blank lines or have the header's
number of fields, the last record ended by a newline or by the end of the input
(`lastRec`, the blank record when the input ends with a newline), the array
returned by the first successful `GetArray` holds in column `i` the field `i` of
every record that is not a blank line, in file order: row `j` of column `i` is
field `i` of the `j`-th such record.  When the input is the header alone with
no newline, there is no record: a first `GetArray` returns an array whose columns
are empty, and after a `GetSchema` it returns no array. -/
theorem wellformed_file_array_holds_fields
    (header : List (List Char)) (records : List (List (List Char)))
    (lastRec : List (List Char))
    (hh : RecordOk header)
    (hr : ∀ r ∈ records, RecordOk r ∧ (r = [[]] ∨ r.length = header.length))
    (hlast : RecordOk lastRec ∧ (lastRec = [[]] ∨ lastRec.length = header.length))
    (status0 : ScanResult) (outS : Option ArrowSchema) (outA : Option ArrowArray) :
    (∃ (array : ArrowArray) (b1 b2 : SimpleCsvArrayBuilder),
      ((SimpleCsvArrayBuilder.new
          (renderLine header ++ (renderRecords records ++ List.intercalate [','] lastRec))
          status0).GetSchema outS).map (fun r => r.2.2) = some b1 ∧
      b1.GetArray outA = some (NANOARROW_OK, some array, b2) ∧
      (status0 ≠ ScanResult.DONE →
        (SimpleCsvArrayBuilder.new
          (renderLine header ++ (renderRecords records ++ List.intercalate [','] lastRec))
          status0).GetArray outA = some (NANOARROW_OK, some array, b2)) ∧
      array.length = (dataRows (records ++ [lastRec])).length ∧
      array.children.length = header.length ∧
      ∀ i, i < header.length →
        array.children[i]?
          = some ((dataRows (records ++ [lastRec])).map (fun r => r.getD i []))) ∧
    (∃ (array : ArrowArray) (b1 b2 : SimpleCsvArrayBuilder),
      ((SimpleCsvArrayBuilder.new (List.intercalate [','] header) status0).GetSchema
          outS).map (fun r => r.2.2) = some b1 ∧
      b1.GetArray outA = some (NANOARROW_OK, none, b1) ∧
      (status0 ≠ ScanResult.DONE →
        (SimpleCsvArrayBuilder.new (List.intercalate [','] header) status0).GetArray outA
          = some (NANOARROW_OK, some array, b2)) ∧
      array.length = 0 ∧
      array.children.length = header.length ∧
      ∀ i, i < header.length → array.children[i]? = some []) := by
  constructor
  · have hw := withSchema_new_wellformed header hh
      (renderRecords records ++ List.intercalate [','] lastRec) status0
    have hlen : (schemaOfHeader header).children.length = header.length := by
      simp [schemaOfHeader]
    have key : ∀ b : SimpleCsvArrayBuilder, b.status_ ≠ ScanResult.DONE →
        withSchema b = withSchema (SimpleCsvArrayBuilder.new
          (renderLine header ++ (renderRecords records ++ List.intercalate [','] lastRec))
          status0) →
        b.GetArray outA = some (NANOARROW_OK,
          some { length := ([] ++ dataRows (records ++ [lastRec])).length,
                 children := columnsOf (schemaOfHeader header).children.length
                   ([] ++ dataRows (records ++ [lastRec])) },
          { withSchema (SimpleCsvArrayBuilder.new
              (renderLine header ++ (renderRecords records ++ List.intercalate [','] lastRec))
              status0) with
            fields_ := lastRec, status_ := ScanResult.DONE, scanner_ := { input_ := [] },
            array_ := none }) := by
      intro b hb hwb
      exact GetArray_pull_wellformed b _ hwb (schemaOfHeader header) [] records lastRec hb
        (by rw [hw]) (by rw [hw]) (Or.inl ⟨by rw [hw], rfl⟩)
        (by rw [hlen]; exact hr) (by rw [hlen]; exact hlast) (by rw [hw]) outA
    obtain ⟨schema, hs⟩ := withSchema_schema (SimpleCsvArrayBuilder.new
      (renderLine header ++ (renderRecords records ++ List.intercalate [','] lastRec)) status0)
    refine ⟨_, _, _, ?_, key _ (by rw [hw]; exact fun h => nomatch h)
      (withSchema_of_some _ schema hs), ?_, ?_, ?_, ?_⟩
    · rw [GetSchema_eq]; rfl
    · intro h0
      exact key _ (by simp only [SimpleCsvArrayBuilder.new]; exact h0) rfl
    · simp
    · simp [columnsOf, schemaOfHeader]
    · intro i hi
      simp [columnsOf, schemaOfHeader, List.getElem?_range hi]
  · have hw := withSchema_new_header_only header hh status0
    refine ⟨{ length := 0, children := columnsOf header.length [] },
      withSchema (SimpleCsvArrayBuilder.new (List.intercalate [','] header) status0),
      { withSchema (SimpleCsvArrayBuilder.new (List.intercalate [','] header) status0) with
        array_ := none }, ?_, ?_, ?_, rfl, ?_, ?_⟩
    · rw [GetSchema_eq]; rfl
    · exact GetArray_of_done _ outA (by rw [hw])
    · intro h0
      have hlen : (schemaOfHeader header).children.length = header.length := by
        simp [schemaOfHeader]
      rw [GetArray_pull _ _ rfl (schemaOfHeader header) []
        (by simp only [SimpleCsvArrayBuilder.new]; exact h0) (by rw [hw])
        (Or.inl ⟨by rw [hw], rfl⟩) outA,
        drain_of_done _ (by rw [hw])]
      simp only [Option.map_some', finishPull, ne_eq, not_true_eq_false, if_false, hlen,
        List.length_nil]
    · simp [columnsOf]
    · intro i hi
      simp only [columnsOf, List.getElem?_map, List.getElem?_range hi, List.map_nil,
        Option.map_some']

/-- C2, on the file `name,age\nAlice,30\nBob,25\n` and on the same file without
its last newline: in both, the rows are `(Alice, 30)` and `(Bob, 25)`. -/
theorem wellformed_file_array_holds_fields_witness :
    RecordOk ["name".toList, "age".toList] ∧
    (∀ r ∈ [["Alice".toList, "30".toList], ["Bob".toList, "25".toList]],
      RecordOk r ∧ (r = [[]] ∨ r.length = ["name".toList, "age".toList].length)) ∧
    (RecordOk [[]] ∧
      (([[]] : List (List Char)) = [[]] ∨
        ([[]] : List (List Char)).length = ["name".toList, "age".toList].length)) ∧
    renderLine ["name".toList, "age".toList] ++
        (renderRecords [["Alice".toList, "30".toList], ["Bob".toList, "25".toList]] ++
          List.intercalate [','] [[]])
      = "name,age\nAlice,30\nBob,25\n".toList ∧
    dataRows ([["Alice".toList, "30".toList], ["Bob".toList, "25".toList]] ++ [[[]]])
      = [["Alice".toList, "30".toList], ["Bob".toList, "25".toList]] ∧
    ((∃ (array : ArrowArray) (b1 b2 : SimpleCsvArrayBuilder),
      ((SimpleCsvArrayBuilder.new
          (renderLine ["name".toList, "age".toList] ++
            (renderRecords [["Alice".toList, "30".toList], ["Bob".toList, "25".toList]] ++
              List.intercalate [','] [[]]))
          ScanResult.UNINITIALIZED).GetSchema none).map (fun r => r.2.2) = some b1 ∧
      b1.GetArray none = some (NANOARROW_OK, some array, b2) ∧
      (ScanResult.UNINITIALIZED ≠ ScanResult.DONE →
        (SimpleCsvArrayBuilder.new
          (renderLine ["name".toList, "age".toList] ++
            (renderRecords [["Alice".toList, "30".toList], ["Bob".toList, "25".toList]] ++
              List.intercalate [','] [[]]))
          ScanResult.UNINITIALIZED).GetArray none = some (NANOARROW_OK, some array, b2)) ∧
      array.length = (dataRows ([["Alice".toList, "30".toList], ["Bob".toList, "25".toList]] ++ [[[]]])).length ∧
      array.children.length = ["name".toList, "age".toList].length ∧
      ∀ i, i < ["name".toList, "age".toList].length →
        array.children[i]?
          = some ((dataRows ([["Alice".toList, "30".toList], ["Bob".toList, "25".toList]] ++ [[[]]])).map (fun r => r.getD i []))) ∧
    (∃ (array : ArrowArray) (b1 b2 : SimpleCsvArrayBuilder),
      ((SimpleCsvArrayBuilder.new (List.intercalate [','] ["name".toList, "age".toList]) ScanResult.UNINITIALIZED).GetSchema
          none).map (fun r => r.2.2) = some b1 ∧
      b1.GetArray none = some (NANOARROW_OK, none, b1) ∧
      (ScanResult.UNINITIALIZED ≠ ScanResult.DONE →
        (SimpleCsvArrayBuilder.new (List.intercalate [','] ["name".toList, "age".toList]) ScanResult.UNINITIALIZED).GetArray none
          = some (NANOARROW_OK, some array, b2)) ∧
      array.length = 0 ∧
      array.children.length = ["name".toList, "age".toList].length ∧
      ∀ i, i < ["name".toList, "age".toList].length → array.children[i]? = some [])) ∧
    (∀ r ∈ [["Alice".toList, "30".toList]],
      RecordOk r ∧ (r = [[]] ∨ r.length = ["name".toList, "age".toList].length)) ∧
    (RecordOk ["Bob".toList, "25".toList] ∧
      ((["Bob".toList, "25".toList] : List (List Char)) = [[]] ∨
        (["Bob".toList, "25".toList] : List (List Char)).length = ["name".toList, "age".toList].length)) ∧
    renderLine ["name".toList, "age".toList] ++
        (renderRecords [["Alice".toList, "30".toList]] ++
          List.intercalate [','] ["Bob".toList, "25".toList])
      = "name,age\nAlice,30\nBob,25".toList ∧
    dataRows ([["Alice".toList, "30".toList]] ++ [["Bob".toList, "25".toList]])
      = [["Alice".toList, "30".toList], ["Bob".toList, "25".toList]] ∧
    ((∃ (array : ArrowArray) (b1 b2 : SimpleCsvArrayBuilder),
      ((SimpleCsvArrayBuilder.new
          (renderLine ["name".toList, "age".toList] ++
            (renderRecords [["Alice".toList, "30".toList]] ++
              List.intercalate [','] ["Bob".toList, "25".toList]))
          ScanResult.UNINITIALIZED).GetSchema none).map (fun r => r.2.2) = some b1 ∧
      b1.GetArray none = some (NANOARROW_OK, some array, b2) ∧
      (ScanResult.UNINITIALIZED ≠ ScanResult.DONE →
        (SimpleCsvArrayBuilder.new
          (renderLine ["name".toList, "age".toList] ++
            (renderRecords [["Alice".toList, "30".toList]] ++
              List.intercalate [','] ["Bob".toList, "25".toList]))
          ScanResult.UNINITIALIZED).GetArray none = some (NANOARROW_OK, some array, b2)) ∧
      array.length = (dataRows ([["Alice".toList, "30".toList]] ++ [["Bob".toList, "25".toList]])).length ∧
      array.children.length = ["name".toList, "age".toList].length ∧
      ∀ i, i < ["name".toList, "age".toList].length →
        array.children[i]?
          = some ((dataRows ([["Alice".toList, "30".toList]] ++ [["Bob".toList, "25".toList]])).map (fun r => r.getD i []))) ∧
    (∃ (array : ArrowArray) (b1 b2 : SimpleCsvArrayBuilder),
      ((SimpleCsvArrayBuilder.new (List.intercalate [','] ["name".toList, "age".toList]) ScanResult.UNINITIALIZED).GetSchema
          none).map (fun r => r.2.2) = some b1 ∧
      b1.GetArray none = some (NANOARROW_OK, none, b1) ∧
      (ScanResult.UNINITIALIZED ≠ ScanResult.DONE →
        (SimpleCsvArrayBuilder.new (List.intercalate [','] ["name".toList, "age".toList]) ScanResult.UNINITIALIZED).GetArray none
          = some (NANOARROW_OK, some array, b2)) ∧
      array.length = 0 ∧
      array.children.length = ["name".toList, "age".toList].length ∧
      ∀ i, i < ["name".toList, "age".toList].length → array.children[i]? = some [])) :=
  ⟨by unfold RecordOk; decide,
    by unfold RecordOk; decide, by unfold RecordOk; decide, by decide, by decide,
    wellformed_file_array_holds_fields ["name".toList, "age".toList]
      [["Alice".toList, "30".toList], ["Bob".toList, "25".toList]] [[]]
      (by unfold RecordOk; decide) (by unfold RecordOk; decide) (by unfold RecordOk; decide)
      ScanResult.UNINITIALIZED none none,
    by unfold RecordOk; decide, by unfold RecordOk; decide, by decide, by decide,
    wellformed_file_array_holds_fields ["name".toList, "age".toList]
      [["Alice".toList, "30".toList]] ["Bob".toList, "25".toList]
      (by unfold RecordOk; decide) (by unfold RecordOk; decide) (by unfold RecordOk; decide)
      ScanResult.UNINITIALIZED none none⟩

/-! ## What a failed pull keeps, and what the next pull returns -/

theorem lineEnd_cons_newline (rest : List Char) :
    lineEnd ('\n' :: rest) = ScanResult.LINE_SEP := by
  simp [lineEnd]

/-- C7, amended: a `GetArray` call that meets a record of another arity (after
records `good` that are blank lines or have the schema's arity, on a builder
whose buffer holds `rows`, none on a first pull) fails as a whole with `EINVAL`
and the shape-mismatch message, and writes nothing to `*out`; the buffer is
kept, not discarded: it holds `rows` followed by the rows of `good`, appended
during the failed pull, and the cursor is after the offending record.  Then a
later `GetArray` returns the released marker when the offending record ended
the input; when well-formed records follow, it returns an array that holds the
kept rows followed by the rows of those records; and when another record of
another arity follows, it fails again and keeps the rows read so far. -/
theorem GetArray_failure_keeps_rows (b w : SimpleCsvArrayBuilder) (hw : withSchema b = w)
    (schema : ArrowSchema)
    (rows good : List (List (List Char))) (bad : List (List Char)) (tl : List Char)
    (h0 : b.status_ ≠ ScanResult.DONE)
    (hs : w.schema_ = some schema)
    (hst : w.status_ = ScanResult.LINE_SEP)
    (harr : (w.array_ = none ∧ rows = []) ∨
      w.array_ = some { length := rows.length,
                        children := columnsOf schema.children.length rows })
    (hgood : ∀ r ∈ good, RecordOk r ∧ (r = [[]] ∨ r.length = schema.children.length))
    (hbad : RecordOk bad) (hnb : bad ≠ [[]]) (hlen : bad.length ≠ schema.children.length)
    (htl : ∀ c ∈ tl.head?, c = '\n')
    (hin : w.scanner_.input_ = renderRecords good ++ (List.intercalate [','] bad ++ tl))
    (out : Option ArrowArray) :
    ∃ b1 : SimpleCsvArrayBuilder,
      b.GetArray out = some (EINVAL, out, b1) ∧
      b1.GetLastError
        = "Expected " ++ toString schema.children.length ++ " fields but found "
            ++ toString bad.length ++ " fields" ∧
      b1.schema_ = some schema ∧
      b1.array_ = some { length := (rows ++ dataRows good).length,
                         children := columnsOf schema.children.length
                           (rows ++ dataRows good) } ∧
      b1.scanner_.input_ = tl.tail ∧
      (tl = [] → ∀ out2, b1.GetArray out2 = some (NANOARROW_OK, none, b1)) ∧
      (∀ (good2 : List (List (List Char))) (lastRec : List (List Char)),
        (∀ r ∈ good2, RecordOk r ∧ (r = [[]] ∨ r.length = schema.children.length)) →
        (RecordOk lastRec ∧ (lastRec = [[]] ∨ lastRec.length = schema.children.length)) →
        tl = '\n' :: (renderRecords good2 ++ List.intercalate [','] lastRec) →
        ∀ out2, ∃ b2,
          b1.GetArray out2 = some (NANOARROW_OK,
            some { length := (rows ++ dataRows good ++ dataRows (good2 ++ [lastRec])).length,
                   children := columnsOf schema.children.length
                     (rows ++ dataRows good ++ dataRows (good2 ++ [lastRec])) },
            b2)) ∧
      (∀ (good2 : List (List (List Char))) (bad2 : List (List Char)) (tl2 : List Char),
        (∀ r ∈ good2, RecordOk r ∧ (r = [[]] ∨ r.length = schema.children.length)) →
        RecordOk bad2 → bad2 ≠ [[]] → bad2.length ≠ schema.children.length →
        (∀ c ∈ tl2.head?, c = '\n') →
        tl = '\n' :: (renderRecords good2 ++ (List.intercalate [','] bad2 ++ tl2)) →
        ∀ out2, ∃ b2,
          b1.GetArray out2 = some (EINVAL, out2, b2) ∧
          b2.array_ = some { length := (rows ++ dataRows good ++ dataRows good2).length,
                             children := columnsOf schema.children.length
                               (rows ++ dataRows good ++ dataRows good2) }) := by
  have h1 := GetArray_pull_mismatch b w hw schema rows good bad tl h0 hs hst harr hgood hbad
    hnb hlen htl hin out
  obtain ⟨b1, hb1⟩ : ∃ b1 : SimpleCsvArrayBuilder, b1 =
      { w with
        fields_ := bad, status_ := lineEnd tl, scanner_ := { input_ := tl.tail },
        last_error_ :=
          "Expected " ++ toString schema.children.length ++ " fields but found "
            ++ toString bad.length ++ " fields",
        array_ := some { length := (rows ++ dataRows good).length,
                         children := columnsOf schema.children.length
                           (rows ++ dataRows good) } } := ⟨_, rfl⟩
  rw [← hb1] at h1
  have e1 : b1.schema_ = some schema := by rw [hb1]; exact hs
  have e2 : b1.array_ = some { length := (rows ++ dataRows good).length,
                               children := columnsOf schema.children.length
                                 (rows ++ dataRows good) } := by rw [hb1]
  have e3 : b1.scanner_.input_ = tl.tail := by rw [hb1]
  have e4 : b1.status_ = lineEnd tl := by rw [hb1]
  have e5 : b1.GetLastError
      = "Expected " ++ toString schema.children.length ++ " fields but found "
          ++ toString bad.length ++ " fields" := by rw [hb1]; rfl
  refine ⟨b1, h1, e5, e1, e2, e3, ?_, ?_, ?_⟩
  · intro htl0 out2
    exact GetArray_of_done _ out2 (by rw [e4, htl0]; rfl)
  · intro good2 lastRec hgood2 hlast2 htl2 out2
    have e6 : b1.status_ = ScanResult.LINE_SEP := by
      rw [e4, htl2]; exact lineEnd_cons_newline _
    exact ⟨_, GetArray_pull_wellformed b1 b1 (withSchema_of_some b1 schema e1) schema
      (rows ++ dataRows good) good2 lastRec (by rw [e6]; exact fun h => nomatch h) e1 e6
      (Or.inr e2) hgood2 hlast2 (by rw [e3, htl2]; rfl) out2⟩
  · intro good2 bad2 tl2 hgood2 hbad2 hnb2 hlen2 htl2' htl2 out2
    have e6 : b1.status_ = ScanResult.LINE_SEP := by
      rw [e4, htl2]; exact lineEnd_cons_newline _
    exact ⟨_, GetArray_pull_mismatch b1 b1 (withSchema_of_some b1 schema e1) schema
      (rows ++ dataRows good) good2 bad2 tl2 (by rw [e6]; exact fun h => nomatch h) e1 e6
      (Or.inr e2) hgood2 hbad2 hnb2 hlen2 htl2' (by rw [e3, htl2]; rfl) out2, rfl⟩

/-- C7 amended, on the file `a,b\n1,2\n3\n4,5\n`: the first `GetArray` fails on
the record `3` and keeps the row `(1, 2)`; the second returns `(1, 2)`, `(4, 5)`. -/
theorem GetArray_failure_keeps_rows_witness :
    mismatchExample.status_ ≠ ScanResult.DONE ∧
    (withSchema mismatchExample).schema_ = some (schemaOfHeader ["a".toList, "b".toList]) ∧
    (withSchema mismatchExample).status_ = ScanResult.LINE_SEP ∧
    (((withSchema mismatchExample).array_ = none ∧ ([] : List (List (List Char))) = []) ∨
      (withSchema mismatchExample).array_ = some (ArrowArray.mk (([] : List (List (List Char))).length)
            (columnsOf (schemaOfHeader ["a".toList, "b".toList]).children.length ([] : List (List (List Char)))))) ∧
    (∀ r ∈ [["1".toList, "2".toList]], RecordOk r ∧ (r = [[]] ∨ r.length = (schemaOfHeader ["a".toList, "b".toList]).children.length)) ∧
    RecordOk ["3".toList] ∧ ["3".toList] ≠ [[]] ∧ ["3".toList].length ≠ (schemaOfHeader ["a".toList, "b".toList]).children.length ∧
    (∀ c ∈ "\n4,5\n".toList.head?, c = '\n') ∧
    (withSchema mismatchExample).scanner_.input_
      = renderRecords [["1".toList, "2".toList]] ++ (List.intercalate [','] ["3".toList] ++ "\n4,5\n".toList) ∧
    columnsOf (schemaOfHeader ["a".toList, "b".toList]).children.length (([] : List (List (List Char))) ++ dataRows [["1".toList, "2".toList]]) = [["1".toList], ["2".toList]] ∧
    columnsOf (schemaOfHeader ["a".toList, "b".toList]).children.length
        (([] : List (List (List Char))) ++ dataRows [["1".toList, "2".toList]] ++ dataRows ([["4".toList, "5".toList]] ++ [[[]]]))
      = [["1".toList, "4".toList], ["2".toList, "5".toList]] ∧
    "\n4,5\n".toList = '\n' :: (renderRecords [["4".toList, "5".toList]] ++ List.intercalate [','] [[]]) ∧
    ∃ b1 : SimpleCsvArrayBuilder,
      mismatchExample.GetArray none = some (EINVAL, none, b1) ∧
      b1.GetLastError
        = "Expected " ++ toString (schemaOfHeader ["a".toList, "b".toList]).children.length ++ " fields but found "
            ++ toString ["3".toList].length ++ " fields" ∧
      b1.schema_ = some (schemaOfHeader ["a".toList, "b".toList]) ∧
      b1.array_ = some (ArrowArray.mk ((([] : List (List (List Char))) ++ dataRows [["1".toList, "2".toList]]).length)
            (columnsOf (schemaOfHeader ["a".toList, "b".toList]).children.length (([] : List (List (List Char))) ++ dataRows [["1".toList, "2".toList]]))) ∧
      b1.scanner_.input_ = "\n4,5\n".toList.tail ∧
      ("\n4,5\n".toList = [] → ∀ out2, b1.GetArray out2 = some (NANOARROW_OK, none, b1)) ∧
      (∀ (good2 : List (List (List Char))) (lastRec : List (List Char)),
        (∀ r ∈ good2, RecordOk r ∧ (r = [[]] ∨ r.length = (schemaOfHeader ["a".toList, "b".toList]).children.length)) →
        (RecordOk lastRec ∧ (lastRec = [[]] ∨ lastRec.length = (schemaOfHeader ["a".toList, "b".toList]).children.length)) →
        "\n4,5\n".toList = '\n' :: (renderRecords good2 ++ List.intercalate [','] lastRec) →
        ∀ out2, ∃ b2,
          b1.GetArray out2 = some (NANOARROW_OK,
            some (ArrowArray.mk ((([] : List (List (List Char))) ++ dataRows [["1".toList, "2".toList]] ++ dataRows (good2 ++ [lastRec])).length)
            (columnsOf (schemaOfHeader ["a".toList, "b".toList]).children.length (([] : List (List (List Char))) ++ dataRows [["1".toList, "2".toList]] ++ dataRows (good2 ++ [lastRec])))),
            b2)) ∧
      (∀ (good2 : List (List (List Char))) (bad2 : List (List Char)) (tl2 : List Char),
        (∀ r ∈ good2, RecordOk r ∧ (r = [[]] ∨ r.length = (schemaOfHeader ["a".toList, "b".toList]).children.length)) →
        RecordOk bad2 → bad2 ≠ [[]] → bad2.length ≠ (schemaOfHeader ["a".toList, "b".toList]).children.length →
        (∀ c ∈ tl2.head?, c = '\n') →
        "\n4,5\n".toList = '\n' :: (renderRecords good2 ++ (List.intercalate [','] bad2 ++ tl2)) →
        ∀ out2, ∃ b2,
          b1.GetArray out2 = some (EINVAL, out2, b2) ∧
          b2.array_ = some (ArrowArray.mk ((([] : List (List (List Char))) ++ dataRows [["1".toList, "2".toList]] ++ dataRows good2).length)
            (columnsOf (schemaOfHeader ["a".toList, "b".toList]).children.length (([] : List (List (List Char))) ++ dataRows [["1".toList, "2".toList]] ++ dataRows good2)))) :=
  ⟨by decide, by decide, by decide, Or.inl ⟨by decide, rfl⟩,
    by unfold RecordOk; decide, by unfold RecordOk; decide, by decide, by decide, by decide,
    by decide, by decide, by decide, by decide,
    GetArray_failure_keeps_rows mismatchExample (withSchema mismatchExample) rfl (schemaOfHeader ["a".toList, "b".toList])
      ([] : List (List (List Char))) [["1".toList, "2".toList]] ["3".toList] "\n4,5\n".toList
      (by decide) (by decide) (by decide) (Or.inl ⟨by decide, rfl⟩)
      (by unfold RecordOk; decide) (by unfold RecordOk; decide) (by decide) (by decide)
      (by decide) (by decide) none⟩

end SimpleCsv
